import Mathlib

/-! Accreditation workflow: reviews, audits and the assignment ledger.

A shallow embedding of the backend controllers
(`adminController.js`, `reviewController.js`, `auditController.js`,
`documentController.js`, `logController.js`), of the logger (`utils/logger.js`),
of the role guard (`middlewares/roleMiddleware.js`) and of the Mongoose schemas
they persist through (`backend/models`).

* A JavaScript `Number` is a rational (`ℚ`); counters are integers.
* A `Date` is a number of milliseconds; `new Date()` is the `now` argument.
* A missing (`undefined`) property is `none`.
* The database is a record of collections; a controller maps the database
  and the request to an HTTP response and the database it leaves behind, so a
  handler that throws half-way keeps the writes it had already made.
* `save()` and `create()` run the schema validators on the whole document; an
  update with `runValidators` runs them on the paths it sets. A rejected write
  is the error middleware's 400 answer, a `TypeError` its 500 answer.
* Users and institutes are taken to exist; e-mail does not touch the
  collections modelled here.
* The activity log is a collection of its own. The arguments that the logger
  takes untyped (`additionalData`, `target`, `document`) are JavaScript values;
  an entry point of the logger returns the log it leaves, or `none` when it
  raises to its caller.
-/

namespace Accridation

abbrev ObjectId := Nat

abbrev Date := Int

/-! ## JavaScript helpers -/

/-- The expression `x || d` for an optional number: `undefined` and `0` are falsy. -/
def numOr (x : Option ℚ) (d : ℚ) : ℚ :=
  match x with
  | none => d
  | some v => if v = 0 then d else v

/-- The expression `x || d` for an optional string: `undefined` and `''` are falsy. -/
def strOr (x : Option String) (d : String) : String :=
  match x with
  | none => d
  | some v => if v = "" then d else v

/-- Truthiness of an optional number. -/
def numTruthy (x : Option ℚ) : Bool :=
  match x with
  | none => false
  | some v => decide (v ≠ 0)

/-- Truthiness of an optional string. -/
def strTruthy (x : Option String) : Bool :=
  match x with
  | none => false
  | some v => decide (v ≠ "")

/-- `Math.round`: the nearest integer, a tie going up. -/
def mathRound (x : ℚ) : ℤ := ⌊x + 1 / 2⌋

/-- `Math.max(0, n - 1)` on a counter. -/
def decFloor (n : Int) : Int := max 0 (n - 1)

/-! ## HTTP responses -/

structure Response where
  status : Nat
  message : String
  deriving DecidableEq, Repr

def Response.success (r : Response) : Bool := r.status == 200

/-! ## Review schema (`models/reviewModel.js`) -/

/-- One entry of `reviewData.criteria`. -/
structure Criterion where
  name : String
  score : ℚ
  weight : Option ℚ
  comments : Option String := none
  deriving DecidableEq

structure ReviewData where
  overallScore : Option ℚ := none
  criteria : List Criterion := []
  strengths : List String := []
  weaknesses : List String := []
  recommendations : List String := []
  deriving DecidableEq

/-- The `reviewData` object of an `updateReview` body; every property may be missing. -/
structure ReviewDataPatch where
  overallScore : Option ℚ := none
  criteria : Option (List Criterion) := none
  strengths : Option (List String) := none
  weaknesses : Option (List String) := none
  recommendations : Option (List String) := none
  deriving DecidableEq

/-- The whitelisted part of an `updateReview` body: `allowedFields = ['reviewData', 'feedback']`. -/
structure ReviewUpdates where
  reviewData : Option ReviewDataPatch := none
  feedback : Option String := none
  deriving DecidableEq

structure Revision where
  version : Nat
  modifiedAt : Date
  modifiedBy : ObjectId
  changes : ReviewUpdates
  reason : String
  deriving DecidableEq

structure ReviewTimeline where
  startedAt : Date
  submittedAt : Option Date := none
  completedAt : Option Date := none
  dueDate : Option Date
  deriving DecidableEq

structure Signature where
  signed : Bool := false
  signedAt : Option Date := none
  digitalSignature : Option String := none
  signatureIP : Option String := none
  deriving DecidableEq

structure Review where
  id : ObjectId
  document : ObjectId
  reviewer : ObjectId
  institute : ObjectId
  reviewData : ReviewData := {}
  status : String := "draft"
  timeline : ReviewTimeline
  feedback : Option String := none
  reviewerSignature : Signature := {}
  revisionHistory : List Revision := []
  deriving DecidableEq

/-- Schema validators of one criterion: `score` in 0..100, `weight` required and in 0..1. -/
def Criterion.valid (c : Criterion) : Bool :=
  decide (0 ≤ c.score) && decide (c.score ≤ 100) &&
    (match c.weight with
     | none => false
     | some w => decide (0 ≤ w) && decide (w ≤ 1))

/-- Schema validators of `reviewData`: the criteria and the range of `overallScore`
(`min: 0`, `max: 100`). As update validators they run only when the update sets `reviewData`. -/
def ReviewData.valid (d : ReviewData) : Bool :=
  d.criteria.all Criterion.valid &&
    (match d.overallScore with
     | none => true
     | some s => decide (0 ≤ s) && decide (s ≤ 100))

/-! ## The weighted score of `updateReview` (`reviewController.js`, lines 179-190) -/

/-- The `forEach` accumulator: `totalScore += score * (weight || 1)` and
`totalWeight += (weight || 1)`. -/
def accumulate (acc : ℚ × ℚ) (criterion : Criterion) : ℚ × ℚ :=
  (acc.1 + criterion.score * numOr criterion.weight 1, acc.2 + numOr criterion.weight 1)

/-- The value assigned to `updates.reviewData.overallScore`. -/
def computeOverallScore (criteria : List Criterion) : ℚ :=
  let totals := criteria.foldl accumulate (0, 0)
  if totals.2 > 0 then (mathRound (totals.1 / totals.2) : ℚ) else 0

/-- The formula of the specification: `round(Σ score_i * weight_i / Σ weight_i)`, and 0 when the
weights sum to 0. A criterion without a weight counts with weight 0 here. -/
def specOverallScore (criteria : List Criterion) : ℚ :=
  let totalScore := (criteria.map fun c => c.score * c.weight.getD 0).sum
  let totalWeight := (criteria.map fun c => c.weight.getD 0).sum
  if totalWeight = 0 then 0 else (mathRound (totalScore / totalWeight) : ℚ)

/-! ## Assignment ledger (`models/reviewerModel.js`, `models/auditorModel.js`) -/

/-- One entry of `assignedDocuments`. -/
structure LedgerEntry where
  document : ObjectId
  dueDate : Option Date
  status : String := "assigned"
  deriving DecidableEq, Repr

structure Workload where
  current : Int := 0
  maximum : Int := 10
  deriving DecidableEq, Repr

structure Reviewer where
  id : ObjectId
  user : ObjectId
  assignedDocuments : List LedgerEntry := []
  completedReviews : Int := 0
  averageReviewTime : ℚ := 0
  availability : String := "available"
  workload : Workload := {}
  deriving DecidableEq

/-- One entry of an auditor's `auditHistory`. -/
structure HistoryEntry where
  document : ObjectId
  institute : ObjectId
  completedDate : Date
  outcome : String
  score : ℚ
  deriving DecidableEq

structure Auditor where
  id : ObjectId
  user : ObjectId
  assignedDocuments : List LedgerEntry := []
  completedAudits : Int := 0
  averageAuditTime : ℚ := 0
  availability : String := "available"
  workload : Workload := { maximum := 8 }
  auditHistory : List HistoryEntry := []
  deriving DecidableEq

/-- The virtual `isAvailable` of the reviewer schema. -/
def Reviewer.isAvailable (r : Reviewer) : Bool :=
  r.availability == "available" && decide (r.workload.current < r.workload.maximum)

/-- The virtual `isAvailable` of the auditor schema. -/
def Auditor.isAvailable (a : Auditor) : Bool :=
  a.availability == "available" && decide (a.workload.current < a.workload.maximum)

/-- The enum of `auditHistory.outcome` in the auditor schema. -/
def historyOutcomeEnum : List String := ["approved", "rejected", "conditional_approval"]

/-- Validators of an `auditHistory` entry: the outcome enum and `score` in 0..100. -/
def HistoryEntry.valid (h : HistoryEntry) : Bool :=
  historyOutcomeEnum.contains h.outcome && decide (0 ≤ h.score) && decide (h.score ≤ 100)

/-- The enum of the `status` of a ledger entry. -/
def ledgerStatusEnum : List String := ["assigned", "in_progress", "completed"]

/-- The validators that `auditor.save()` runs on the parts a controller writes. -/
def Auditor.valid (a : Auditor) : Bool :=
  a.auditHistory.all HistoryEntry.valid &&
    a.assignedDocuments.all (fun e => ledgerStatusEnum.contains e.status)

/-- The validators that `reviewer.save()` runs on the parts a controller writes. -/
def Reviewer.valid (r : Reviewer) : Bool :=
  r.assignedDocuments.all (fun e => ledgerStatusEnum.contains e.status)

/-- The update `const e = ledger.find(doc => doc.document === documentId); if (e) e.status = st`:
only the first matching entry changes. -/
def setFirstStatus (ledger : List LedgerEntry) (documentId : ObjectId) (st : String) :
    List LedgerEntry :=
  match ledger with
  | [] => []
  | e :: rest =>
    if e.document = documentId then { e with status := st } :: rest
    else e :: setFirstStatus rest documentId st

/-! ## Document schema (`models/documentModel.js`) -/

/-- One entry of `workflow.stages`. -/
structure Stage where
  name : String
  status : String := "pending"
  startedAt : Option Date := none
  completedAt : Option Date := none
  assignedTo : Option ObjectId := none
  notes : Option String := none
  deriving DecidableEq, Repr

/-- The `workflow` object of a document. -/
structure Workflow where
  currentStage : String := "upload"
  stages : List Stage := []
  deriving DecidableEq, Repr

structure Document where
  id : ObjectId
  title : String := ""
  institute : ObjectId := 0
  uploadedBy : ObjectId := 0
  status : String := "uploaded"
  assignedReviewer : Option ObjectId := none
  assignedAuditor : Option ObjectId := none
  assignedByReviewer : Option ObjectId := none
  assignedByAuditor : Option ObjectId := none
  reviewerAssigned : Option Date := none
  auditorAssigned : Option Date := none
  dueReview : Option Date := none
  dueAudit : Option Date := none
  workflow : Workflow := {}
  deriving DecidableEq, Repr

/-- The enum of `status` in the document schema. -/
def documentStatusEnum : List String :=
  ["uploaded", "assigned_for_review", "under_review", "review_completed", "assigned_for_audit",
   "under_audit", "audit_completed", "approved", "rejected", "revision_required"]

/-- The enum of `workflow.currentStage` in the document schema. -/
def stageEnum : List String :=
  ["upload", "review_assignment", "review", "audit_assignment", "audit", "final_decision"]

/-- The enum of the `status` of a workflow stage. -/
def stageStatusEnum : List String := ["pending", "in_progress", "completed", "skipped"]

/-- The validators of `document.save()` on the parts `updateDocumentStatus` writes. -/
def Document.valid (d : Document) : Bool :=
  documentStatusEnum.contains d.status && stageEnum.contains d.workflow.currentStage &&
    d.workflow.stages.all (fun s => stageStatusEnum.contains s.status)

/-! ## Audit schema (`models/auditModel.js`) -/

structure ReviewValidation where
  accuracyScore : Option ℚ
  completenessScore : Option ℚ
  consistencyScore : Option ℚ
  validationComments : Option String := none
  deriving DecidableEq

structure CriteriaValidation where
  criteriaName : Option String := none
  reviewerScore : ℚ
  auditorScore : ℚ
  variance : Option ℚ := none
  acceptable : Option Bool := none
  auditorComments : Option String := none
  evidenceValidated : Option Bool := none
  deriving DecidableEq

structure ComplianceCheck where
  standardsVerification : List String := []
  overallCompliance : Option String := none
  deriving DecidableEq

structure Finding where
  category : Option String := none
  description : Option String := none
  evidence : Option String := none
  impact : Option String := none
  recommendation : Option String := none
  timeline : Option String := none
  responsible : Option String := none
  deriving DecidableEq

structure AuditData where
  reviewValidation : ReviewValidation
  criteriaValidation : List CriteriaValidation := []
  complianceCheck : ComplianceCheck := {}
  findings : List Finding := []
  overallRisk : Option String := none
  deriving DecidableEq

structure FinalDecision where
  outcome : Option String := none
  finalScore : Option ℚ := none
  justification : Option String := none
  deriving DecidableEq

structure AuditTimeline where
  assignedAt : Date
  startedAt : Option Date := none
  submittedAt : Option Date := none
  completedAt : Option Date := none
  dueDate : Option Date
  deriving DecidableEq

/-- One entry of `auditTrail`; `details` keeps the fields the controllers record. -/
structure TrailEntry where
  action : String
  performedBy : ObjectId
  details : List String := []
  ip : String
  deriving DecidableEq

structure Audit where
  id : ObjectId
  document : ObjectId
  review : ObjectId
  auditor : ObjectId
  institute : ObjectId
  auditData : AuditData
  finalDecision : FinalDecision := {}
  status : String := "assigned"
  timeline : AuditTimeline
  quality : Option String := none
  auditorSignature : Signature := {}
  auditTrail : List TrailEntry := []
  deriving DecidableEq

def outcomeEnum : List String :=
  ["approved", "approved_with_conditions", "rejected", "requires_revision"]

def auditStatusEnum : List String :=
  ["assigned", "in_progress", "under_review", "completed", "on_hold"]

def complianceEnum : List String :=
  ["fully_compliant", "mostly_compliant", "partially_compliant", "non_compliant"]

def findingCategoryEnum : List String :=
  ["critical", "major", "minor", "observation", "commendation"]

/-- A score validator with `min: 0` and `max: 100` on an optional number. -/
def scoreInRange (x : Option ℚ) : Bool :=
  match x with
  | none => true
  | some v => decide (0 ≤ v) && decide (v ≤ 100)

/-- An enum validator on an optional string. -/
def inEnum (values : List String) (x : Option String) : Bool :=
  match x with
  | none => true
  | some v => values.contains v

/-- Enum and range validators of `auditData`; they run on `save()` and as update validators. -/
def AuditData.rangesValid (d : AuditData) : Bool :=
  scoreInRange d.reviewValidation.accuracyScore &&
    scoreInRange d.reviewValidation.completenessScore &&
    scoreInRange d.reviewValidation.consistencyScore &&
    inEnum complianceEnum d.complianceCheck.overallCompliance &&
    d.findings.all (fun f => inEnum findingCategoryEnum f.category)

/-- The `required` validators of `auditData`: the three validation scores and
`complianceCheck.overallCompliance`. -/
def AuditData.requiredPresent (d : AuditData) : Bool :=
  d.reviewValidation.accuracyScore.isSome && d.reviewValidation.completenessScore.isSome &&
    d.reviewValidation.consistencyScore.isSome && d.complianceCheck.overallCompliance.isSome

/-- Enum and range validators of `finalDecision`. -/
def FinalDecision.rangesValid (f : FinalDecision) : Bool :=
  inEnum outcomeEnum f.outcome && scoreInRange f.finalScore

/-- The validators of `audit.save()`: `outcome` is required when the status is `completed`,
`justification` is required when an outcome is set, `timeline.dueDate` is required. -/
def Audit.valid (a : Audit) : Bool :=
  a.auditData.rangesValid && a.auditData.requiredPresent && a.finalDecision.rangesValid &&
    (a.status != "completed" || strTruthy a.finalDecision.outcome) &&
    (!strTruthy a.finalDecision.outcome || strTruthy a.finalDecision.justification) &&
    auditStatusEnum.contains a.status && a.timeline.dueDate.isSome

/-- The validators of `review.save()` and `Review.create`: `overallScore` is required,
`timeline.dueDate` is required. -/
def Review.valid (r : Review) : Bool :=
  r.reviewData.valid && r.reviewData.overallScore.isSome && r.timeline.dueDate.isSome &&
    ["draft", "submitted", "under_audit", "approved", "returned_for_revision"].contains r.status

/-! ## The database -/

structure Db where
  documents : List Document := []
  reviewers : List Reviewer := []
  auditors : List Auditor := []
  reviews : List Review := []
  audits : List Audit := []
  nextId : ObjectId := 0
  deriving DecidableEq

/-- The authenticated user of a request, `req.user`. -/
structure User where
  id : ObjectId
  name : String := ""
  role : String := ""
  deriving DecidableEq, Repr

def Db.findDocument (db : Db) (id : ObjectId) : Option Document :=
  db.documents.find? (fun d => d.id == id)

def Db.findReviewer (db : Db) (id : ObjectId) : Option Reviewer :=
  db.reviewers.find? (fun r => r.id == id)

def Db.findAuditor (db : Db) (id : ObjectId) : Option Auditor :=
  db.auditors.find? (fun a => a.id == id)

def Db.findReview (db : Db) (id : ObjectId) : Option Review :=
  db.reviews.find? (fun r => r.id == id)

def Db.findAudit (db : Db) (id : ObjectId) : Option Audit :=
  db.audits.find? (fun a => a.id == id)

/-- The query `Reviewer.findOne({ user })`. -/
def Db.reviewerOfUser (db : Db) (user : ObjectId) : Option Reviewer :=
  db.reviewers.find? (fun r => r.user == user)

/-- The query `Auditor.findOne({ user })`. -/
def Db.auditorOfUser (db : Db) (user : ObjectId) : Option Auditor :=
  db.auditors.find? (fun a => a.user == user)

def Db.saveDocument (db : Db) (d : Document) : Db :=
  { db with documents := db.documents.map fun x => if x.id = d.id then d else x }

def Db.saveReviewer (db : Db) (r : Reviewer) : Db :=
  { db with reviewers := db.reviewers.map fun x => if x.id = r.id then r else x }

def Db.saveAuditor (db : Db) (a : Auditor) : Db :=
  { db with auditors := db.auditors.map fun x => if x.id = a.id then a else x }

def Db.saveReview (db : Db) (r : Review) : Db :=
  { db with reviews := db.reviews.map fun x => if x.id = r.id then r else x }

def Db.saveAudit (db : Db) (a : Audit) : Db :=
  { db with audits := db.audits.map fun x => if x.id = a.id then a else x }

/-- The error middleware's answer to a Mongoose `ValidationError`. -/
def validationError : Response := ⟨400, "ValidationError"⟩

/-- The error middleware's answer to a `TypeError` thrown by the handler. -/
def typeError : Response := ⟨500, "TypeError"⟩

/-! ## Admin controller: assignments (`controllers/adminController.js`) -/

def assignReviewer (db : Db) (user : User) (documentId reviewerId : ObjectId)
    (dueDate : Option Date) (now : Date) : Response × Db :=
  match db.findDocument documentId, db.findReviewer reviewerId with
  | none, _ => (⟨404, "Document not found"⟩, db)
  | some _, none => (⟨404, "Reviewer not found"⟩, db)
  | some document, some reviewer =>
    if !reviewer.isAvailable then
      (⟨400, "Reviewer is not available for new assignments"⟩, db)
    else
      let document := { document with
        assignedReviewer := some reviewerId
        assignedByReviewer := some user.id
        reviewerAssigned := some now
        dueReview := dueDate
        status := "assigned_for_review" }
      let db := db.saveDocument document
      let reviewer := { reviewer with
        assignedDocuments :=
          reviewer.assignedDocuments ++ [{ document := documentId, dueDate := dueDate,
                                           status := "assigned" }]
        workload := { reviewer.workload with current := reviewer.workload.current + 1 } }
      if !reviewer.valid then (validationError, db)
      else (⟨200, "Reviewer assigned successfully"⟩, db.saveReviewer reviewer)

def assignAuditor (db : Db) (user : User) (documentId auditorId : ObjectId)
    (dueDate : Option Date) (now : Date) : Response × Db :=
  match db.findDocument documentId, db.findAuditor auditorId with
  | none, _ => (⟨404, "Document not found"⟩, db)
  | some _, none => (⟨404, "Auditor not found"⟩, db)
  | some document, some auditor =>
    if document.status ≠ "review_completed" then
      (⟨400, "Document must be reviewed before assigning auditor"⟩, db)
    else if !auditor.isAvailable then
      (⟨400, "Auditor is not available for new assignments"⟩, db)
    else
      let document := { document with
        assignedAuditor := some auditorId
        assignedByAuditor := some user.id
        auditorAssigned := some now
        dueAudit := dueDate
        status := "assigned_for_audit" }
      let db := db.saveDocument document
      let auditor := { auditor with
        assignedDocuments :=
          auditor.assignedDocuments ++ [{ document := documentId, dueDate := dueDate,
                                          status := "assigned" }]
        workload := { auditor.workload with current := auditor.workload.current + 1 } }
      if !auditor.valid then (validationError, db)
      else (⟨200, "Auditor assigned successfully"⟩, db.saveAuditor auditor)

/-! ## Review controller (`controllers/reviewController.js`) -/

/-- The test `ledger.find(doc => doc.document === documentId)` as a boolean. -/
def hasEntry (ledger : List LedgerEntry) (documentId : ObjectId) : Bool :=
  ledger.any fun e => e.document == documentId

/-- The part of `startReview` after the review is found or created. -/
def startReviewFinish (db : Db) (document : Document) (reviewer : Reviewer) : Response × Db :=
  let db := db.saveDocument { document with status := "under_review" }
  if hasEntry reviewer.assignedDocuments document.id then
    let reviewer := { reviewer with
      assignedDocuments := setFirstStatus reviewer.assignedDocuments document.id "in_progress" }
    if !reviewer.valid then (validationError, db)
    else (⟨200, "Review started successfully"⟩, db.saveReviewer reviewer)
  else (⟨200, "Review started successfully"⟩, db)

def startReview (db : Db) (user : User) (documentId : ObjectId) (now : Date) : Response × Db :=
  match db.reviewerOfUser user.id with
  | none => (⟨404, "Reviewer profile not found"⟩, db)
  | some reviewer =>
    match db.findDocument documentId with
    | none => (⟨404, "Document not found"⟩, db)
    | some document =>
      match document.assignedReviewer with
      | none => (typeError, db)
      | some assigned =>
        if assigned ≠ reviewer.id then (⟨403, "Document not assigned to you"⟩, db)
        else
          match db.reviews.find?
            (fun r => r.document == documentId && r.reviewer == reviewer.id) with
          | some _ => startReviewFinish db document reviewer
          | none =>
            let review : Review :=
              { id := db.nextId, document := documentId, reviewer := reviewer.id,
                institute := document.institute,
                timeline := { startedAt := now, dueDate := document.dueReview },
                reviewData := { criteria := [], strengths := [], weaknesses := [],
                                recommendations := [] } }
            if !review.valid then (validationError, db)
            else
              startReviewFinish
                { db with reviews := db.reviews ++ [review], nextId := db.nextId + 1 }
                document reviewer

/-- The `reviewData` that `$set` stores for a patch, after the controller has filled in
`overallScore` when `criteria` was provided. -/
def ReviewDataPatch.stored (p : ReviewDataPatch) : ReviewData :=
  { overallScore :=
      match p.criteria with
      | some criteria => some (computeOverallScore criteria)
      | none => p.overallScore
    criteria := p.criteria.getD []
    strengths := p.strengths.getD []
    weaknesses := p.weaknesses.getD []
    recommendations := p.recommendations.getD [] }

/-- The patch after the controller's score computation; it is what `revisionHistory` records. -/
def ReviewUpdates.scored (u : ReviewUpdates) : ReviewUpdates :=
  { u with reviewData := u.reviewData.map fun p =>
      match p.criteria with
      | some criteria => { p with overallScore := some (computeOverallScore criteria) }
      | none => p }

def updateReview (db : Db) (user : User) (reviewId : ObjectId) (body : ReviewUpdates)
    (reason : Option String) (now : Date) : Response × Db :=
  match db.findReview reviewId with
  | none => (⟨404, "Review not found"⟩, db)
  | some review =>
    match db.reviewerOfUser user.id with
    | none => (typeError, db)
    | some reviewer =>
      if review.reviewer ≠ reviewer.id then (⟨403, "Access denied"⟩, db)
      else if review.status = "submitted" then (⟨400, "Cannot update submitted review"⟩, db)
      else
        let updates := body.scored
        let revisionData : Revision :=
          { version := review.revisionHistory.length + 1, modifiedAt := now,
            modifiedBy := user.id, changes := updates,
            reason := strOr reason "Review updated" }
        let accepted :=
          match body.reviewData with
          | some p => p.stored.valid
          | none => true
        if !accepted then (validationError, db)
        else
          let review := { review with
            reviewData := match body.reviewData with
              | some p => p.stored
              | none => review.reviewData
            feedback := match updates.feedback with
              | some f => some f
              | none => review.feedback
            revisionHistory := review.revisionHistory ++ [revisionData] }
          (⟨200, "Review updated successfully"⟩, db.saveReview review)

/-- The default signature string: the user name, a dash and the time of signing. -/
def defaultSignature (name : String) (now : Date) : String := name ++ "-" ++ toString now

/-- Elapsed hours: `(completedAt - startedAt) / (1000 * 60 * 60)`. -/
def hoursBetween (startedAt completedAt : Date) : ℚ :=
  ((completedAt - startedAt : Int) : ℚ) / (1000 * 60 * 60)

/-- The running average `old === 0 ? elapsed : (old + elapsed) / 2`. -/
def runningAverage (old elapsed : ℚ) : ℚ :=
  if old = 0 then elapsed else (old + elapsed) / 2

def submitReview (db : Db) (user : User) (reviewId : ObjectId) (now : Date) : Response × Db :=
  match db.findReview reviewId with
  | none => (⟨404, "Review not found"⟩, db)
  | some review =>
    match db.reviewerOfUser user.id with
    | none => (typeError, db)
    | some reviewer =>
      if review.reviewer ≠ reviewer.id then (⟨403, "Access denied"⟩, db)
      else if !numTruthy review.reviewData.overallScore || review.reviewData.criteria.length == 0
      then (⟨400, "Review is incomplete. Please add criteria and overall score"⟩, db)
      else
        let review := { review with
          status := "submitted"
          timeline := { review.timeline with submittedAt := some now, completedAt := some now }
          reviewerSignature :=
            { signed := true, signedAt := some now,
              digitalSignature := some (defaultSignature user.name now) } }
        if !review.valid then (validationError, db)
        else
          let db := db.saveReview review
          match db.findDocument review.document with
          | none => (typeError, db)
          | some document =>
            let db := db.saveDocument { document with status := "review_completed" }
            let reviewer := { reviewer with
              completedReviews := reviewer.completedReviews + 1
              averageReviewTime :=
                runningAverage reviewer.averageReviewTime
                  (hoursBetween review.timeline.startedAt now)
              assignedDocuments :=
                setFirstStatus reviewer.assignedDocuments review.document "completed"
              workload := { reviewer.workload with current := decFloor reviewer.workload.current } }
            if !reviewer.valid then (validationError, db)
            else (⟨200, "Review submitted successfully"⟩, db.saveReviewer reviewer)

/-! ## Audit controller (`controllers/auditController.js`) -/

/-- The method `audit.addToTrail(action, performedBy, details, req)`: push an entry and `save()`.
The result is `none` when the save is rejected by the validators. -/
def addToTrail (db : Db) (audit : Audit) (action : String) (performedBy : ObjectId)
    (details : List String) (ip : String) : Option Db :=
  let audit := { audit with
    auditTrail := audit.auditTrail ++
      [{ action := action, performedBy := performedBy, details := details, ip := ip }] }
  if audit.valid then some (db.saveAudit audit) else none

/-- The part of `startAudit` after the audit is found or created. -/
def startAuditFinish (db : Db) (document : Document) (auditor : Auditor) : Response × Db :=
  let db := db.saveDocument { document with status := "under_audit" }
  if hasEntry auditor.assignedDocuments document.id then
    let auditor := { auditor with
      assignedDocuments := setFirstStatus auditor.assignedDocuments document.id "in_progress" }
    if !auditor.valid then (validationError, db)
    else (⟨200, "Audit started successfully"⟩, db.saveAuditor auditor)
  else (⟨200, "Audit started successfully"⟩, db)

def startAudit (db : Db) (user : User) (documentId : ObjectId) (ip : String) (now : Date) :
    Response × Db :=
  match db.auditorOfUser user.id with
  | none => (⟨404, "Auditor profile not found"⟩, db)
  | some auditor =>
    match db.findDocument documentId,
      db.reviews.find? (fun r => r.document == documentId && r.status == "submitted") with
    | none, _ => (⟨404, "Document not found"⟩, db)
    | some _, none => (⟨400, "No completed review found for this document"⟩, db)
    | some document, some review =>
      match document.assignedAuditor with
      | none => (typeError, db)
      | some assigned =>
        if assigned ≠ auditor.id then (⟨403, "Document not assigned to you"⟩, db)
        else
          match db.audits.find? (fun a => a.document == documentId && a.auditor == auditor.id) with
          | some _ => startAuditFinish db document auditor
          | none =>
            let audit : Audit :=
              { id := db.nextId, document := documentId, review := review.id,
                auditor := auditor.id, institute := document.institute,
                timeline := { assignedAt := document.auditorAssigned.getD now,
                              startedAt := some now, dueDate := document.dueAudit },
                auditData :=
                  { reviewValidation := { accuracyScore := some 0, completenessScore := some 0,
                                          consistencyScore := some 0 },
                    criteriaValidation := [],
                    complianceCheck := { standardsVerification := [],
                                         overallCompliance := some "partially_compliant" },
                    findings := [],
                    overallRisk := some "medium" } }
            if !audit.valid then (validationError, db)
            else
              let db := { db with audits := db.audits ++ [audit], nextId := db.nextId + 1 }
              match addToTrail db audit "audit_started" user.id [] ip with
              | none => (validationError, db)
              | some db => startAuditFinish db document auditor

/-- The whitelisted part of an `updateAudit` body:
`allowedFields = ['auditData', 'finalDecision', 'quality']`. -/
structure AuditUpdates where
  auditData : Option AuditData := none
  finalDecision : Option FinalDecision := none
  quality : Option String := none
  deriving DecidableEq

/-- The update validators of `findByIdAndUpdate(..., { runValidators: true })` on the paths that
the update sets. -/
def AuditUpdates.valid (u : AuditUpdates) : Bool :=
  (match u.auditData with
   | some d => d.rangesValid
   | none => true) &&
  (match u.finalDecision with
   | some f => f.rangesValid
   | none => true)

def updateAudit (db : Db) (user : User) (auditId : ObjectId) (updates : AuditUpdates)
    (ip : String) : Response × Db :=
  match db.findAudit auditId with
  | none => (⟨404, "Audit not found"⟩, db)
  | some audit =>
    match db.auditorOfUser user.id with
    | none => (typeError, db)
    | some auditor =>
      if audit.auditor ≠ auditor.id then (⟨403, "Access denied"⟩, db)
      else if audit.status = "completed" then (⟨400, "Cannot update completed audit"⟩, db)
      else if !updates.valid then (validationError, db)
      else
        let audit := { audit with
          auditData := updates.auditData.getD audit.auditData
          finalDecision := updates.finalDecision.getD audit.finalDecision
          quality := match updates.quality with
            | some q => some q
            | none => audit.quality }
        let db := db.saveAudit audit
        match addToTrail db audit "audit_updated" user.id [] ip with
        | none => (validationError, db)
        | some db => (⟨200, "Audit updated successfully"⟩, db)

/-- The table `statusMap` of `submitAudit`. -/
def statusMap : List (String × String) :=
  [("approved", "approved"), ("approved_with_conditions", "approved"),
   ("rejected", "rejected"), ("requires_revision", "revision_required")]

/-- The expression `statusMap[finalDecision.outcome] || 'audit_completed'`. It is evaluated only
after `audit.save()` has accepted the outcome, so the key is one of the outcome enum. -/
def documentStatusFor (outcome : String) : String :=
  (statusMap.lookup outcome).getD "audit_completed"

def submitAudit (db : Db) (user : User) (auditId : ObjectId)
    (finalDecision : Option FinalDecision) (digitalSignature : Option String) (ip : String)
    (now : Date) : Response × Db :=
  match db.findAudit auditId with
  | none => (⟨404, "Audit not found"⟩, db)
  | some audit =>
    match db.auditorOfUser user.id with
    | none => (typeError, db)
    | some auditor =>
      if audit.auditor ≠ auditor.id then (⟨403, "Access denied"⟩, db)
      else
        match finalDecision with
        | none => (⟨400, "Final decision and justification are required"⟩, db)
        | some decision =>
          match decision.outcome with
          | none => (⟨400, "Final decision and justification are required"⟩, db)
          | some outcome =>
            if outcome = "" || !strTruthy decision.justification then
              (⟨400, "Final decision and justification are required"⟩, db)
            else
              let audit := { audit with
                finalDecision := decision
                status := "completed"
                timeline := { audit.timeline with submittedAt := some now,
                                                  completedAt := some now }
                auditorSignature :=
                  { signed := true, signedAt := some now,
                    digitalSignature :=
                      some (strOr digitalSignature (defaultSignature user.name now)),
                    signatureIP := some ip } }
              if !audit.valid then (validationError, db)
              else
                let db := db.saveAudit audit
                match db.findDocument audit.document with
                | none => (typeError, db)
                | some document =>
                  let db := db.saveDocument { document with status := documentStatusFor outcome }
                  match audit.timeline.startedAt with
                  | none => (validationError, db)
                  | some startedAt =>
                    let auditor := { auditor with
                      completedAudits := auditor.completedAudits + 1
                      averageAuditTime :=
                        runningAverage auditor.averageAuditTime (hoursBetween startedAt now)
                      assignedDocuments :=
                        setFirstStatus auditor.assignedDocuments audit.document "completed"
                      workload :=
                        { auditor.workload with current := decFloor auditor.workload.current }
                      auditHistory := auditor.auditHistory ++
                        [{ document := audit.document, institute := audit.institute,
                           completedDate := now, outcome := outcome,
                           score := numOr decision.finalScore 0 }] }
                    if !auditor.valid then (validationError, db)
                    else
                      let db := db.saveAuditor auditor
                      match addToTrail db audit "audit_completed" user.id [outcome] ip with
                      | none => (validationError, db)
                      | some db => (⟨200, "Audit submitted successfully"⟩, db)

def addAuditFinding (db : Db) (user : User) (auditId : ObjectId) (finding : Finding)
    (ip : String) : Response × Db :=
  match db.findAudit auditId with
  | none => (⟨404, "Audit not found"⟩, db)
  | some audit =>
    match db.auditorOfUser user.id with
    | none => (typeError, db)
    | some auditor =>
      if audit.auditor ≠ auditor.id then (⟨403, "Access denied"⟩, db)
      else
        let audit := { audit with
          auditData := { audit.auditData with findings := audit.auditData.findings ++ [finding] } }
        if !audit.valid then (validationError, db)
        else
          let db := db.saveAudit audit
          match addToTrail db audit "finding_added" user.id [] ip with
          | none => (validationError, db)
          | some db => (⟨200, "Finding added successfully"⟩, db)

def updateComplianceCheck (db : Db) (user : User) (auditId : ObjectId)
    (standardsVerification : Option (List String)) (overallCompliance : Option String)
    (ip : String) : Response × Db :=
  match db.findAudit auditId with
  | none => (⟨404, "Audit not found"⟩, db)
  | some audit =>
    match db.auditorOfUser user.id with
    | none => (typeError, db)
    | some auditor =>
      if audit.auditor ≠ auditor.id then (⟨403, "Access denied"⟩, db)
      else
        let check := audit.auditData.complianceCheck
        let check := match standardsVerification with
          | some sv => { check with standardsVerification := sv }
          | none => check
        let check := if strTruthy overallCompliance then
            { check with overallCompliance := overallCompliance }
          else check
        let audit := { audit with auditData := { audit.auditData with complianceCheck := check } }
        if !audit.valid then (validationError, db)
        else
          let db := db.saveAudit audit
          match addToTrail db audit "compliance_updated" user.id [] ip with
          | none => (validationError, db)
          | some db => (⟨200, "Compliance check updated successfully"⟩, db)

/-- The `reviewValidation` object of a `validateReviewAssessment` body. -/
structure ReviewValidationInput where
  accuracyScore : Option ℚ := none
  completenessScore : Option ℚ := none
  consistencyScore : Option ℚ := none
  validationComments : Option String := none
  criteriaValidation : Option (List CriteriaValidation) := none
  deriving DecidableEq

/-- The mapping applied to every submitted `criteriaValidation` entry. -/
def validateCriteria (criteria : CriteriaValidation) : CriteriaValidation :=
  { criteriaName := criteria.criteriaName
    reviewerScore := criteria.reviewerScore
    auditorScore := criteria.auditorScore
    variance := some |criteria.reviewerScore - criteria.auditorScore|
    acceptable := some (decide (|criteria.reviewerScore - criteria.auditorScore| ≤ 10))
    auditorComments := criteria.auditorComments
    evidenceValidated := criteria.evidenceValidated }

def validateReviewAssessment (db : Db) (user : User) (auditId : ObjectId)
    (reviewValidation : Option ReviewValidationInput) (ip : String) : Response × Db :=
  match db.findAudit auditId with
  | none => (⟨404, "Audit not found"⟩, db)
  | some audit =>
    match db.auditorOfUser user.id with
    | none => (typeError, db)
    | some auditor =>
      if audit.auditor ≠ auditor.id then (⟨403, "Access denied"⟩, db)
      else
        match reviewValidation with
        | none => (typeError, db)
        | some rv =>
          let data := { audit.auditData with
            reviewValidation :=
              { accuracyScore := rv.accuracyScore, completenessScore := rv.completenessScore,
                consistencyScore := rv.consistencyScore,
                validationComments := rv.validationComments } }
          let data := match rv.criteriaValidation with
            | some cs => { data with criteriaValidation := cs.map validateCriteria }
            | none => data
          let audit := { audit with auditData := data }
          if !audit.valid then (validationError, db)
          else
            let db := db.saveAudit audit
            match addToTrail db audit "review_validated" user.id [] ip with
            | none => (validationError, db)
            | some db => (⟨200, "Review assessment validated successfully"⟩, db)

/-! ## The admin status override (`controllers/documentController.js`) -/

/-- The table `stageMap` of `updateDocumentStatus`. -/
def stageMap : List (String × String) :=
  [("uploaded", "upload"), ("assigned_for_review", "review_assignment"),
   ("under_review", "review"), ("review_completed", "review"),
   ("assigned_for_audit", "audit_assignment"), ("under_audit", "audit"),
   ("audit_completed", "audit"), ("approved", "final_decision"),
   ("rejected", "final_decision")]

/-- The expression `stageMap[status] || 'upload'`. -/
def stageFor (status : String) : String :=
  (stageMap.lookup status).getD "upload"

/-- The handler of `PUT /api/documents/:id/status`: it sets the status, sets
`workflow.currentStage` from the table and pushes a stage of that name unless one exists. -/
def updateDocumentStatus (db : Db) (user : User) (documentId : ObjectId) (status : String)
    (notes : Option String) (now : Date) : Response × Db :=
  match db.findDocument documentId with
  | none => (⟨404, "Document not found"⟩, db)
  | some document =>
    let currentStage := stageFor status
    let stages :=
      if document.workflow.stages.any (fun s => s.name == currentStage) then
        document.workflow.stages
      else
        document.workflow.stages ++
          [{ name := currentStage, status := "in_progress", startedAt := some now,
             assignedTo := some user.id, notes := notes }]
    let document := { document with
      status := status
      workflow := { currentStage := currentStage, stages := stages } }
    if !document.valid then (validationError, db)
    else (⟨200, "Document status updated successfully"⟩, db.saveDocument document)

/-! ## Sequences of workflow operations -/

/-- A request to one of the workflow handlers, with its arguments. The admin status override
`updateDocumentStatus` is not among them. -/
inductive Op where
  | assignReviewer (user : User) (documentId reviewerId : ObjectId) (dueDate : Option Date)
      (now : Date)
  | assignAuditor (user : User) (documentId auditorId : ObjectId) (dueDate : Option Date)
      (now : Date)
  | startReview (user : User) (documentId : ObjectId) (now : Date)
  | updateReview (user : User) (reviewId : ObjectId) (body : ReviewUpdates)
      (reason : Option String) (now : Date)
  | submitReview (user : User) (reviewId : ObjectId) (now : Date)
  | startAudit (user : User) (documentId : ObjectId) (ip : String) (now : Date)
  | updateAudit (user : User) (auditId : ObjectId) (updates : AuditUpdates) (ip : String)
  | submitAudit (user : User) (auditId : ObjectId) (finalDecision : Option FinalDecision)
      (digitalSignature : Option String) (ip : String) (now : Date)
  | addAuditFinding (user : User) (auditId : ObjectId) (finding : Finding) (ip : String)
  | updateComplianceCheck (user : User) (auditId : ObjectId)
      (standardsVerification : Option (List String)) (overallCompliance : Option String)
      (ip : String)
  | validateReviewAssessment (user : User) (auditId : ObjectId)
      (reviewValidation : Option ReviewValidationInput) (ip : String)

/-- The handler that serves a request. -/
def Op.run (op : Op) (db : Db) : Response × Db :=
  match op with
  | .assignReviewer user documentId reviewerId dueDate now =>
    Accridation.assignReviewer db user documentId reviewerId dueDate now
  | .assignAuditor user documentId auditorId dueDate now =>
    Accridation.assignAuditor db user documentId auditorId dueDate now
  | .startReview user documentId now => Accridation.startReview db user documentId now
  | .updateReview user reviewId body reason now =>
    Accridation.updateReview db user reviewId body reason now
  | .submitReview user reviewId now => Accridation.submitReview db user reviewId now
  | .startAudit user documentId ip now => Accridation.startAudit db user documentId ip now
  | .updateAudit user auditId updates ip => Accridation.updateAudit db user auditId updates ip
  | .submitAudit user auditId finalDecision digitalSignature ip now =>
    Accridation.submitAudit db user auditId finalDecision digitalSignature ip now
  | .addAuditFinding user auditId finding ip =>
    Accridation.addAuditFinding db user auditId finding ip
  | .updateComplianceCheck user auditId standardsVerification overallCompliance ip =>
    Accridation.updateComplianceCheck db user auditId standardsVerification overallCompliance ip
  | .validateReviewAssessment user auditId reviewValidation ip =>
    Accridation.validateReviewAssessment db user auditId reviewValidation ip

/-- The database after a sequence of requests, served one after the other. -/
def runAll (ops : List Op) (db : Db) : Db :=
  ops.foldl (fun db op => (op.run db).2) db

/-! ## Sample data -/

def adminUser : User := { id := 30, name := "admin", role := "admin" }

def reviewerUser : User := { id := 10, name := "reviewer", role := "reviewer" }

def auditorUser : User := { id := 20, name := "auditor", role := "auditor" }

def sampleReviewer : Reviewer :=
  { id := 1, user := 10,
    assignedDocuments := [{ document := 3, dueDate := some 5000, status := "in_progress" }],
    workload := { current := 1, maximum := 10 } }

def sampleAuditor : Auditor :=
  { id := 2, user := 20,
    assignedDocuments := [{ document := 3, dueDate := some 9000, status := "assigned" }],
    workload := { current := 1, maximum := 8 } }

/-- A stored draft review of document 3 by reviewer 1. -/
def draftReview : Review :=
  { id := 5, document := 3, reviewer := 1, institute := 4,
    reviewData := { overallScore := some 50,
                    criteria := [{ name := "quality", score := 50, weight := some 1 }] },
    timeline := { startedAt := 0, dueDate := some 5000 } }

/-- Document 3 under review by reviewer 1, with the draft review stored. -/
def reviewDb : Db :=
  { documents := [{ id := 3, title := "report", institute := 4, status := "under_review",
                    assignedReviewer := some 1, dueReview := some 5000 }],
    reviewers := [sampleReviewer],
    reviews := [draftReview],
    nextId := 6 }

/-- Document 3 reviewed and assigned to auditor 2, no audit started yet. -/
def auditDb : Db :=
  { documents := [{ id := 3, title := "report", institute := 4, status := "assigned_for_audit",
                    assignedReviewer := some 1, assignedAuditor := some 2,
                    auditorAssigned := some 3000, dueAudit := some 9000 }],
    reviewers := [{ sampleReviewer with
      assignedDocuments := [{ document := 3, dueDate := some 5000, status := "completed" }],
      workload := { current := 0, maximum := 10 } }],
    auditors := [sampleAuditor],
    reviews := [{ draftReview with status := "submitted" }],
    nextId := 6 }

/-- Criteria with one weight equal to 0, inside the schema's ranges. -/
def zeroWeightCriteria : List Criterion :=
  [{ name := "a", score := 80, weight := some 0 }, { name := "b", score := 60, weight := some 1 }]

/-- The criteria of the specification's scenario B. -/
def scenarioCriteria : List Criterion :=
  [{ name := "a", score := 80, weight := some 1 }, { name := "b", score := 60, weight := some 1 }]

/-- A single criterion scored 0. -/
def zeroScoreCriteria : List Criterion := [{ name := "a", score := 0, weight := some 1 }]

def criteriaBody (criteria : List Criterion) : ReviewUpdates :=
  { reviewData := some { criteria := some criteria } }

def rejectedDecision : FinalDecision :=
  { outcome := some "rejected", finalScore := some 40, justification := some "gaps" }

def revisionDecision : FinalDecision :=
  { outcome := some "requires_revision", finalScore := some 55, justification := some "redo" }

def approvedDecision : FinalDecision :=
  { outcome := some "approved", justification := some "fine" }

/-- The audit database after the auditor has started the audit of document 3 (audit id 6). -/
def startedAuditDb : Db := (startAudit auditDb auditorUser 3 "10.0.0.1" 4000).2

/-- The audit database after the started audit was submitted with outcome `rejected`. -/
def completedAuditDb : Db :=
  (submitAudit startedAuditDb auditorUser 6 (some rejectedDecision) none "10.0.0.1" 8000).2

/-- The review database with the stored review already audited (`status: 'under_audit'`). -/
def underAuditDb : Db :=
  { reviewDb with reviews := [{ draftReview with status := "under_audit" }] }

/-- The review database after the owner stored the single criterion scored 0. -/
def zeroScoreDb : Db :=
  (updateReview reviewDb reviewerUser 5 (criteriaBody zeroScoreCriteria) none 1000).2

/-- The review database after the owner submitted the draft review once. -/
def submittedOnceDb : Db := (submitReview reviewDb reviewerUser 5 2000).2

/-- The started audit after `updateAudit` stored a final decision, without submitting it. -/
def decidedEarlyDb : Db :=
  (updateAudit startedAuditDb auditorUser 6 { finalDecision := some approvedDecision }
    "10.0.0.1").2

/-- Whether the final decision of an audit has an outcome and a justification. -/
def Audit.decisionPresent (a : Audit) : Bool :=
  strTruthy a.finalDecision.outcome && strTruthy a.finalDecision.justification

/-- A workload inside its capacity: `0 <= current <= maximum`. -/
def WorkloadOk (w : Workload) : Prop := 0 ≤ w.current ∧ w.current ≤ w.maximum

instance (w : Workload) : Decidable (WorkloadOk w) := by
  unfold WorkloadOk
  infer_instance

/-- Every reviewer and every auditor profile has its workload inside its capacity. -/
def WorkloadInv (db : Db) : Prop :=
  (∀ r ∈ db.reviewers, WorkloadOk r.workload) ∧ (∀ a ∈ db.auditors, WorkloadOk a.workload)

instance (db : Db) : Decidable (WorkloadInv db) := by
  unfold WorkloadInv
  infer_instance

/-- An uploaded document, a free reviewer and a free auditor, with a draft review on file. -/
def workflowDb : Db :=
  { documents := [{ id := 3, title := "report", institute := 4 }],
    reviewers := [{ id := 1, user := 10 }],
    auditors := [{ id := 2, user := 20 }],
    reviews := [draftReview],
    nextId := 6 }

/-- The whole workflow on document 3: assignment, review, assignment, audit. -/
def sampleFlow : List Op :=
  [.assignReviewer adminUser 3 1 (some 5000) 100,
   .startReview reviewerUser 3 200,
   .submitReview reviewerUser 5 300,
   .assignAuditor adminUser 3 2 (some 9000) 400,
   .startAudit auditorUser 3 "10.0.0.1" 500,
   .submitAudit auditorUser 6 (some rejectedDecision) none "10.0.0.1" 600]

/-- A reviewer at capacity and an auditor who is not available. -/
def busyDb : Db :=
  { documents := [{ id := 3 }, { id := 7, status := "review_completed" }],
    reviewers := [{ id := 1, user := 10, workload := { current := 10, maximum := 10 } }],
    auditors := [{ id := 2, user := 20, availability := "busy" }] }

/-- A transition of the documents between two databases that lets a document become
`assigned_for_audit` only if it was `review_completed` (or already `assigned_for_audit`). -/
def AuditAssignmentGuarded (db db' : Db) : Prop :=
  ∀ i d d', db.findDocument i = some d → db'.findDocument i = some d' →
    d'.status = "assigned_for_audit" →
    d.status = "assigned_for_audit" ∨ d.status = "review_completed"

/-- Every completed audit has an outcome and a justification. -/
def AuditInv (db : Db) : Prop :=
  ∀ a ∈ db.audits, a.status = "completed" → a.decisionPresent = true

instance (db : Db) : Decidable (AuditInv db) := by
  unfold AuditInv
  infer_instance

/-- The table of the specification from the outcome of a final decision to the document status. -/
def outcomeTable (outcome : String) : String :=
  if outcome = "approved" then "approved"
  else if outcome = "approved_with_conditions" then "approved"
  else if outcome = "rejected" then "rejected"
  else if outcome = "requires_revision" then "revision_required"
  else "audit_completed"

/-- The workflow database after the review of document 3 was submitted. -/
def reviewedDb : Db := runAll (sampleFlow.take 3) workflowDb

/-- Document 3 as stored once its audit has started. -/
def startedDocument : Document :=
  { id := 3, title := "report", institute := 4, status := "under_audit",
    assignedReviewer := some 1, assignedAuditor := some 2,
    auditorAssigned := some 3000, dueAudit := some 9000 }

/-! ## Definitions for the assignment, start and trail properties -/

/-- The number of ledger entries that refer to a document and are not `completed`. -/
def activeEntries (ledger : List LedgerEntry) (documentId : ObjectId) : Nat :=
  (ledger.filter fun e => e.document == documentId && e.status != "completed").length

/-- The number of non-completed entries for a document across all reviewers' ledgers. -/
def activeReviewerEntries (db : Db) (documentId : ObjectId) : Nat :=
  (db.reviewers.map fun r => activeEntries r.assignedDocuments documentId).sum

/-- The number of non-completed entries for a document across all auditors' ledgers. -/
def activeAuditorEntries (db : Db) (documentId : ObjectId) : Nat :=
  (db.auditors.map fun a => activeEntries a.assignedDocuments documentId).sum

/-- The reviews stored for a (document, reviewer) pair. -/
def Db.reviewsOf (db : Db) (documentId reviewerId : ObjectId) : List Review :=
  db.reviews.filter fun r => r.document == documentId && r.reviewer == reviewerId

/-- The id of the review in the body `data: { review }` of a successful `startReview`: the
review found for the pair, or the one just created. An error answer carries no review. -/
def startReviewData (db : Db) (user : User) (documentId : ObjectId) (now : Date) :
    Option ObjectId :=
  match db.reviewerOfUser user.id with
  | none => none
  | some reviewer =>
    if (startReview db user documentId now).1.status = 200 then
      ((startReview db user documentId now).2.reviews.find?
        (fun r => r.document == documentId && r.reviewer == reviewer.id)).map fun r => r.id
    else none

/-- The stage recorded by `uploadDocument` when a document is created. -/
def uploadStage : Stage :=
  { name := "upload", status := "completed", startedAt := some 0, completedAt := some 0,
    assignedTo := some 40 }

/-- An uploaded document with its `upload` stage, and two free reviewers. -/
def uploadedDb : Db :=
  { documents := [{ id := 3, title := "report", institute := 4, uploadedBy := 40,
                    workflow := { currentStage := "upload", stages := [uploadStage] } }],
    reviewers := [{ id := 1, user := 10 }, { id := 8, user := 11 }],
    auditors := [{ id := 2, user := 20 }],
    nextId := 6 }

/-- The uploaded document after the admin assigned reviewer 1 with a due date. -/
def assignedDb : Db := (assignReviewer uploadedDb adminUser 3 1 (some 5000) 100).2

/-- The uploaded document after the admin assigned reviewer 1 and then reviewer 8. -/
def assignedTwiceDb : Db :=
  runAll [.assignReviewer adminUser 3 1 (some 5000) 100,
          .assignReviewer adminUser 3 8 (some 6000) 200] uploadedDb

/-- The names of the workflow stages of a document. -/
def Document.stageNames (d : Document) : List String :=
  d.workflow.stages.map fun s => s.name

/-- The criteria of the specification's round-trip property: (70, 82) and (70, 78). -/
def sampleCriteriaValidation : List CriteriaValidation :=
  [{ criteriaName := some "governance", reviewerScore := 70, auditorScore := 82,
     auditorComments := some "overrated" },
   { criteriaName := some "teaching", reviewerScore := 70, auditorScore := 78,
     evidenceValidated := some true }]

/-- A `reviewValidation` body with the sample criteria. -/
def sampleValidation : ReviewValidationInput :=
  { accuracyScore := some 90, completenessScore := some 80, consistencyScore := some 70,
    criteriaValidation := some sampleCriteriaValidation }

/-- The audit that a request of one of the five audit-editing handlers addresses. -/
def Op.auditTarget (op : Op) : Option ObjectId :=
  match op with
  | .updateAudit _ auditId _ _ => some auditId
  | .submitAudit _ auditId _ _ _ _ => some auditId
  | .addAuditFinding _ auditId _ _ => some auditId
  | .updateComplianceCheck _ auditId _ _ _ => some auditId
  | .validateReviewAssessment _ auditId _ _ => some auditId
  | _ => none

/-! ## Definitions for ledger consistency and audit statuses -/

/-- The number of ledger entries whose status is not `completed`. -/
def openEntries (ledger : List LedgerEntry) : Nat :=
  (ledger.filter fun e => e.status != "completed").length

/-- Ledger consistency: on every reviewer and auditor profile, `workload.current` is the number
of ledger entries that are not completed. -/
def LedgerConsistent (db : Db) : Prop :=
  (∀ r ∈ db.reviewers, r.workload.current = openEntries r.assignedDocuments) ∧
  (∀ a ∈ db.auditors, a.workload.current = openEntries a.assignedDocuments)

instance (db : Db) : Decidable (LedgerConsistent db) := by
  unfold LedgerConsistent
  infer_instance

/-- Every profile has an empty ledger and no current workload. -/
def LedgerEmpty (db : Db) : Prop :=
  (∀ r ∈ db.reviewers, r.assignedDocuments = [] ∧ r.workload.current = 0) ∧
  (∀ a ∈ db.auditors, a.assignedDocuments = [] ∧ a.workload.current = 0)

instance (db : Db) : Decidable (LedgerEmpty db) := by
  unfold LedgerEmpty
  infer_instance

/-- Two uploaded documents, a free reviewer and a free auditor, with a draft review of
document 3 on file. -/
def twoDocumentsDb : Db :=
  { documents := [{ id := 3, title := "report", institute := 4 },
                  { id := 7, title := "annex", institute := 4 }],
    reviewers := [{ id := 1, user := 10 }],
    auditors := [{ id := 2, user := 20 }],
    reviews := [draftReview],
    nextId := 6 }

/-- Both documents are assigned to reviewer 1, who starts the review of document 3 and submits
it twice. -/
def resubmitFlow : List Op :=
  [.assignReviewer adminUser 3 1 (some 5000) 100,
   .assignReviewer adminUser 7 1 (some 5000) 150,
   .startReview reviewerUser 3 200,
   .submitReview reviewerUser 5 300,
   .submitReview reviewerUser 5 400]

/-- The answers of a sequence of requests, served one after the other. -/
def answers : List Op → Db → List Nat
  | [], _ => []
  | op :: ops, db => (op.run db).1.status :: answers ops (op.run db).2

/-- Every stored audit satisfies `Q` at its id and status. -/
def AuditsSatisfy (Q : ObjectId → String → Prop) (db : Db) : Prop :=
  ∀ a ∈ db.audits, Q a.id a.status

/-- The request is a `startAudit`. -/
def Op.isStartAudit (op : Op) : Bool :=
  match op with
  | .startAudit _ _ _ _ => true
  | _ => false

/-- The request is a `submitAudit` of the given audit. -/
def Op.submits (op : Op) (auditId : ObjectId) : Bool :=
  match op with
  | .submitAudit _ id _ _ _ _ => id == auditId
  | _ => false

/-- What a request may have done to the audit stored under `id` with status `status`: nothing
to its status, or created it as `assigned` (`startAudit`), or completed it (`submitAudit`). -/
def StatusStep (op : Op) (db : Db) (id : ObjectId) (status : String) : Prop :=
  (∃ a ∈ db.audits, a.id = id ∧ a.status = status) ∨
  (op.isStartAudit = true ∧ status = "assigned") ∨
  (op.submits id = true ∧ status = "completed")

/-! ## JavaScript values (the untyped arguments of the logger) -/

mutual
/-- A JavaScript value, as far as the logger and the log schema read it. -/
inductive Js where
  | undefined
  | null
  | bool (b : Bool)
  | num (n : ℚ)
  | str (s : String)
  | oid (i : ObjectId)
  | date (d : Date)
  | strs (items : List String)
  | obj (fields : Fields)
/-- The properties of an object. -/
inductive Fields where
  | nil
  | cons (key : String) (value : Js) (rest : Fields)
end

deriving instance DecidableEq for Js, Fields

def Fields.ofList : List (String × Js) → Fields
  | [] => .nil
  | (key, value) :: rest => .cons key value (Fields.ofList rest)

/-- An object literal `{ key: value, ... }`. -/
def Js.object (properties : List (String × Js)) : Js := .obj (Fields.ofList properties)

def Fields.lookup (name : String) : Fields → Option Js
  | .nil => none
  | .cons key value rest => if key = name then some value else rest.lookup name

/-- The properties with `name: value` written last, as in `{ ...fields, name: value }`. -/
def Fields.set (name : String) (value : Js) : Fields → Fields
  | .nil => .cons name value .nil
  | .cons key v rest =>
    if key = name then .cons key value rest else .cons key v (rest.set name value)

def Js.truthy : Js → Bool
  | .undefined => false
  | .null => false
  | .bool b => b
  | .num n => n != 0
  | .str s => s != ""
  | _ => true

/-- The property read `v.name` of a value that is not `null` or `undefined`. -/
def Js.get (v : Js) (name : String) : Js :=
  match v with
  | .obj fields => (fields.lookup name).getD .undefined
  | _ => .undefined

/-- The property read `v.name`; `none` is the `TypeError` of reading a property of `null` or
`undefined`. -/
def Js.prop (v : Js) (name : String) : Option Js :=
  match v with
  | .undefined => none
  | .null => none
  | _ => some (v.get name)

/-- The own properties that `{ ...v }` copies; `null` and `undefined` spread to nothing. -/
def Js.spread : Js → Fields
  | .obj fields => fields
  | _ => .nil

/-- An optional value as a JavaScript value. -/
def Js.ofOption {α : Type} (f : α → Js) : Option α → Js
  | some a => f a
  | none => .undefined

/-- The expression `a || b` on optional strings. -/
def strOrElse (a b : Option String) : Option String :=
  if strTruthy a then a else b

def splitChars (sep : Char) : List Char → List (List Char)
  | [] => [[]]
  | c :: cs =>
    if c = sep then [] :: splitChars sep cs
    else
      match splitChars sep cs with
      | [] => [[c]]
      | part :: parts => (c :: part) :: parts

/-- The method `s.split(sep)` for a separator of one character. -/
def split (s : String) (sep : Char) : List String :=
  (splitChars sep s.toList).map String.mk

/-- The method `s.includes(sub)`, also the test of a pattern without special characters. -/
def includes (s sub : String) : Bool :=
  s.toList.tails.any fun t => sub.toList.isPrefixOf t

/-- The time value of `new Date(x)`: the number without its fraction. -/
def newDate (x : ℚ) : Date :=
  if 0 ≤ x then ⌊x⌋ else ⌈x⌉

/-! ## The request -/

structure Socket where
  remoteAddress : Option String := none
  deriving DecidableEq, Repr

structure Connection where
  remoteAddress : Option String := none
  socket : Option Socket := none
  deriving DecidableEq, Repr

/-- An Express request: `headers` holds the header names in lower case, `user` and `sessionId`
are what the authentication middleware attached. -/
structure Request where
  ip : Option String := none
  connection : Option Connection := none
  socket : Option Socket := none
  headers : List (String × String) := []
  sessionId : Option String := none
  user : Option User := none
  deriving DecidableEq, Repr

/-- The method `req.get(name)`; header names are matched in lower case. -/
def Request.get (req : Request) (name : String) : Option String :=
  req.headers.lookup name

/-! ## Log schema (`models/logModel.js`) -/

structure TargetResource where
  type : Option String := none
  id : Option ObjectId := none
  name : Option String := none
  deriving DecidableEq, Repr

structure ErrorInfo where
  message : Option String := none
  stack : Option String := none
  code : Option String := none
  deriving DecidableEq, Repr

structure Metadata where
  ip : String
  userAgent : String
  device : String := "unknown"
  browser : String
  os : String
  deriving DecidableEq, Repr

/-- A stored log entry. -/
structure Log where
  user : ObjectId
  action : String
  category : String
  severity : String := "medium"
  targetResource : TargetResource := {}
  details : Js := Js.object []
  metadata : Metadata
  status : String := "success"
  errorInfo : ErrorInfo := {}
  sessionId : Option String := none
  correlationId : Option String := none
  createdAt : Date
  deriving DecidableEq

/-- The `errorInfo` object that `Logger.log` builds from `additionalData.error`. -/
structure ErrorData where
  message : Js
  stack : Js
  code : Js
  deriving DecidableEq

/-- The object `logData` that `Logger.log` builds and hands to `Log.createLog`. -/
structure LogData where
  user : Option ObjectId
  action : String
  category : String
  severity : String
  details : Js
  metadata : Metadata
  sessionId : Option String
  correlationId : String
  targetResource : Option Js := none
  status : Option Js := none
  errorInfo : Option ErrorData := none
  deriving DecidableEq

def actionEnum : List String :=
  ["login", "logout", "login_failed", "password_reset", "password_changed",
   "document_uploaded", "document_updated", "document_deleted", "document_downloaded",
   "reviewer_assigned", "auditor_assigned", "assignment_removed",
   "review_started", "review_updated", "review_submitted",
   "audit_started", "audit_updated", "audit_completed",
   "institute_created", "institute_updated", "institute_status_changed",
   "user_created", "user_updated", "user_status_changed", "user_role_changed",
   "notification_sent", "report_generated", "system_backup", "data_export",
   "security_alert", "account_locked", "account_unlocked"]

def categoryEnum : List String :=
  ["authentication", "authorization", "document", "review", "audit", "admin", "security",
   "system"]

def severityEnum : List String := ["low", "medium", "high", "critical"]

def targetTypeEnum : List String :=
  ["User", "Institute", "Document", "Review", "Audit", "Reviewer", "Auditor"]

def deviceEnum : List String := ["desktop", "mobile", "tablet", "unknown"]

def logStatusEnum : List String := ["success", "failure", "warning", "info"]

/-- The cast of a value to a `String` path: the outer `none` is a `CastError`, the inner `none`
an absent value. -/
def castString (v : Js) : Option (Option String) :=
  match v with
  | .undefined => some none
  | .null => some none
  | .str s => some (some s)
  | .bool b => some (some (toString b))
  | .num n => some (some (toString n))
  | .oid i => some (some (toString i))
  | _ => none

/-- The cast of a value to an `ObjectId` path; a document is cast to its `_id`. -/
def castObjectId (v : Js) : Option (Option ObjectId) :=
  match v with
  | .undefined => some none
  | .null => some none
  | .oid i => some (some i)
  | .obj fields =>
    match fields.lookup "_id" with
    | some (.oid i) => some (some i)
    | _ => none
  | _ => none

/-- The nested path `targetResource` of a new entry: the keys `type`, `id` and `name` of the
given object are cast, every other key is dropped (strict schema); `none` when a cast or the
enum of `type` fails. -/
def castTargetResource (v : Option Js) : Option TargetResource :=
  match v with
  | none => some {}
  | some (.obj fields) =>
    match castString ((fields.lookup "type").getD .undefined),
      castObjectId ((fields.lookup "id").getD .undefined),
      castString ((fields.lookup "name").getD .undefined) with
    | some type, some id, some name =>
      if inEnum targetTypeEnum type then some { type := type, id := id, name := name }
      else none
    | _, _, _ => none
  | some _ => none

/-- The path `status` of a new entry: cast, default `success`, enum. -/
def castStatus (v : Option Js) : Option String :=
  match v with
  | none => some "success"
  | some v =>
    match castString v with
    | some (some s) => if logStatusEnum.contains s then some s else none
    | some none => some "success"
    | none => none

def castErrorInfo (v : Option ErrorData) : Option ErrorInfo :=
  match v with
  | none => some {}
  | some e =>
    match castString e.message, castString e.stack, castString e.code with
    | some message, some stack, some code =>
      some { message := message, stack := stack, code := code }
    | _, _, _ => none

/-- The document `new Log(logData)` once `save()` has run the validators, with `createdAt` set
by the `timestamps` option; `none` when the entry is rejected. `user`, `action`, `category`,
`metadata.ip` and `metadata.userAgent` are required; `action`, `category`, `severity`,
`targetResource.type`, `metadata.device` and `status` have enums. -/
def Log.ofData (logData : LogData) (now : Date) : Option Log :=
  match logData.user, castTargetResource logData.targetResource, castStatus logData.status,
    castErrorInfo logData.errorInfo with
  | some user, some targetResource, some status, some errorInfo =>
    if actionEnum.contains logData.action && categoryEnum.contains logData.category &&
        severityEnum.contains logData.severity && logData.metadata.ip != "" &&
        logData.metadata.userAgent != "" && deviceEnum.contains logData.metadata.device then
      some { user := user, action := logData.action, category := logData.category,
             severity := logData.severity, targetResource := targetResource,
             details := logData.details, metadata := logData.metadata, status := status,
             errorInfo := errorInfo, sessionId := logData.sessionId,
             correlationId := some logData.correlationId, createdAt := now }
    else none
  | _, _, _, _ => none

/-- The log collection; `available` is false while the database refuses writes. -/
structure LogStore where
  entries : List Log := []
  available : Bool := true
  deriving DecidableEq

/-- The static `Log.createLog(logData)`: it saves the entry and catches every failure. The copy
that it pushes to the user's personal log is not modelled. -/
def Log.createLog (store : LogStore) (logData : LogData) (now : Date) : LogStore :=
  match Log.ofData logData now with
  | none => store
  | some log =>
    if store.available then { store with entries := store.entries ++ [log] } else store

/-! ## The logger (`utils/logger.js`) -/

/-- What the clock and the random source give during a call. -/
structure Env where
  now : Date
  correlationId : String := "c0ffee"
  deriving DecidableEq, Repr

def Logger.categoryMap : List (String × String) :=
  [("login", "authentication"), ("logout", "authentication"),
   ("login_failed", "authentication"), ("password_reset", "authentication"),
   ("password_changed", "authentication"), ("document_uploaded", "document"),
   ("document_updated", "document"), ("document_deleted", "document"),
   ("document_downloaded", "document"), ("reviewer_assigned", "admin"),
   ("auditor_assigned", "admin"), ("assignment_removed", "admin"),
   ("review_started", "review"), ("review_updated", "review"),
   ("review_submitted", "review"), ("audit_started", "audit"), ("audit_updated", "audit"),
   ("audit_completed", "audit"), ("institute_created", "admin"),
   ("institute_updated", "admin"), ("institute_status_changed", "admin"),
   ("user_created", "admin"), ("user_updated", "admin"), ("user_status_changed", "admin"),
   ("user_role_changed", "admin"), ("account_locked", "security"),
   ("account_unlocked", "security"), ("security_alert", "security")]

def Logger.getCategoryFromAction (action : String) : String :=
  (Logger.categoryMap.lookup action).getD "system"

def Logger.severityMap : List (String × String) :=
  [("login_failed", "high"), ("account_locked", "critical"), ("security_alert", "critical"),
   ("password_reset", "medium"), ("user_role_changed", "high"), ("document_deleted", "high"),
   ("audit_completed", "medium"), ("review_submitted", "medium")]

def Logger.getSeverityFromAction (action : String) : String :=
  (Logger.severityMap.lookup action).getD "low"

def Logger.getClientIP (req : Option Request) : String :=
  strOr
    (strOrElse (req.bind fun r => r.ip)
    (strOrElse (req.bind fun r => r.connection.bind fun c => c.remoteAddress)
    (strOrElse (req.bind fun r => r.socket.bind fun s => s.remoteAddress)
    (strOrElse (req.bind fun r => r.connection.bind fun c => c.socket.bind fun s =>
        s.remoteAddress)
    (strOrElse (req.bind fun r => (r.headers.lookup "x-forwarded-for").bind fun h =>
        (split h ',').head?)
      (req.bind fun r => r.headers.lookup "x-real-ip"))))))
    "unknown"

def Logger.getDeviceType (userAgent : Option String) : String :=
  match userAgent with
  | none => "unknown"
  | some userAgent =>
    if userAgent = "" then "unknown"
    else if includes userAgent "Mobile" || includes userAgent "Android" ||
        includes userAgent "iPhone" || includes userAgent "iPad" then
      if includes userAgent "iPad" then "tablet" else "mobile"
    else "desktop"

def Logger.getBrowser (userAgent : Option String) : String :=
  match userAgent with
  | none => "unknown"
  | some userAgent =>
    if userAgent = "" then "unknown"
    else if includes userAgent "Chrome" then "Chrome"
    else if includes userAgent "Firefox" then "Firefox"
    else if includes userAgent "Safari" then "Safari"
    else if includes userAgent "Edge" then "Edge"
    else "unknown"

def Logger.getOS (userAgent : Option String) : String :=
  match userAgent with
  | none => "unknown"
  | some userAgent =>
    if userAgent = "" then "unknown"
    else if includes userAgent "Windows" then "Windows"
    else if includes userAgent "Mac" then "macOS"
    else if includes userAgent "Linux" then "Linux"
    else if includes userAgent "Android" then "Android"
    else if includes userAgent "iOS" then "iOS"
    else "unknown"

/-- The body of the `try` block of `Logger.log` up to the call of `Log.createLog`: the object
`logData`. The result is `none` when the block throws, which it does when `additionalData` is
`null`. The severity is the table's; `additionalData.severity` is not read. -/
def Logger.logData (env : Env) (action : String) (user : Option User) (req : Option Request)
    (additionalData : Js) : Option LogData :=
  let additionalData := if additionalData = .undefined then Js.object [] else additionalData
  let userAgent := req.bind fun r => r.get "user-agent"
  let logData : LogData :=
    { user := user.map fun u => u.id
      action := action
      category := Logger.getCategoryFromAction action
      severity := Logger.getSeverityFromAction action
      details := additionalData
      metadata :=
        { ip := Logger.getClientIP req
          userAgent := strOr userAgent "Unknown"
          device := Logger.getDeviceType userAgent
          browser := Logger.getBrowser userAgent
          os := Logger.getOS userAgent }
      sessionId := strOrElse (req.bind fun r => r.sessionId)
        (req.bind fun r => r.headers.lookup "x-session-id")
      correlationId := strOr (req.bind fun r => r.headers.lookup "x-correlation-id")
        env.correlationId }
  match additionalData.prop "targetResource", additionalData.prop "status",
    additionalData.prop "error" with
  | some targetResource, some status, some error =>
    let logData :=
      if targetResource.truthy then { logData with targetResource := some targetResource }
      else logData
    let logData := if status.truthy then { logData with status := some status } else logData
    if error.truthy then
      some { logData with
        errorInfo := some { message := error.get "message", stack := error.get "stack",
                            code := error.get "code" }
        status := some (.str "failure") }
    else some logData
  | _, _, _ => none

/-- The entry point `Logger.log(action, user, req, additionalData)`: the log collection it
leaves behind; `none` would be an error raised to the caller. Whatever the `try` block throws is
caught. -/
def Logger.log (env : Env) (store : LogStore) (action : String) (user : Option User)
    (req : Option Request) (additionalData : Js) : Option LogStore :=
  match Logger.logData env action user req additionalData with
  | none => some store
  | some logData => some (Log.createLog store logData env.now)

def Logger.logAuth (env : Env) (store : LogStore) (action : String) (user : Option User)
    (req : Option Request) (additionalData : Js) : Option LogStore :=
  Logger.log env store action user req
    (.obj (additionalData.spread.set "category" (.str "authentication")))

/-- The entry point `Logger.logDocument(action, user, req, document, additionalData)`. The
argument object is built before `log` is entered, so reading `document._id` of a `null`
document raises to the caller. -/
def Logger.logDocument (env : Env) (store : LogStore) (action : String) (user : Option User)
    (req : Option Request) (document : Js) (additionalData : Js) : Option LogStore :=
  match document.prop "_id", document.prop "title" with
  | some id, some title =>
    Logger.log env store action user req
      (.obj (additionalData.spread.set "targetResource"
        (Js.object [("type", .str "Document"), ("id", id), ("name", title)])))
  | _, _ => none

/-- The entry point `Logger.logAdmin(action, user, req, target, additionalData)`. -/
def Logger.logAdmin (env : Env) (store : LogStore) (action : String) (user : Option User)
    (req : Option Request) (target : Js) (additionalData : Js) : Option LogStore :=
  Logger.log env store action user req (.obj (additionalData.spread.set "targetResource" target))

/-! ## The error middleware (`middlewares/errorMiddleware.js`) -/

/-- A thrown error. -/
structure JsError where
  name : String
  message : String
  stack : String := ""
  deriving DecidableEq, Repr

/-- The details that the error middleware logs with a thrown error. -/
def errorDetails (err : JsError) : Js :=
  Js.object
    [("error", Js.object [("message", .str err.message), ("stack", .str err.stack),
                          ("name", .str err.name)]),
     ("status", .str "failure"),
     ("severity", .str "high")]

/-- The call `Logger.log('system_error', req.user, req, ...)` of the error middleware. -/
def errorMiddlewareLog (env : Env) (store : LogStore) (req : Request) (err : JsError) :
    Option LogStore :=
  Logger.log env store "system_error" req.user (some req) (errorDetails err)

/-! ## Definitions for the logger properties -/

/-- The first comma-separated entry of a header value: the characters before the first comma. -/
def firstEntry (h : String) : String :=
  String.mk (h.toList.takeWhile fun c => c != ',')

/-- The sources of the client address in the order of the specification: `req.ip`, the
connection and socket remote addresses, the first entry of `X-Forwarded-For`, `X-Real-IP`. -/
def clientIPCandidates (r : Request) : List (Option String) :=
  [r.ip,
   r.connection.bind fun c => c.remoteAddress,
   r.socket.bind fun s => s.remoteAddress,
   r.connection.bind fun c => c.socket.bind fun s => s.remoteAddress,
   (r.headers.lookup "x-forwarded-for").map firstEntry,
   r.headers.lookup "x-real-ip"]

/-- The first non-empty value of a list of optional strings, or the default. -/
def firstNonEmpty (candidates : List (Option String)) (default : String) : String :=
  ((candidates.filterMap id).find? fun v => v != "").getD default

/-- The client address by the words of the specification. -/
def specClientIP (req : Option Request) : String :=
  match req with
  | none => "unknown"
  | some r => firstNonEmpty (clientIPCandidates r) "unknown"

def sampleEnv : Env := { now := 1000 }

/-- A request of the admin from a desktop browser. -/
def adminRequest : Request :=
  { ip := some "10.0.0.1",
    headers := [("user-agent", "Mozilla/5.0 (X11; Linux x86_64) Chrome/120.0")],
    sessionId := some "s1",
    user := some adminUser }

/-- A request that arrives through a proxy: no `req.ip`, no socket address. -/
def proxiedRequest : Request :=
  { headers := [("x-forwarded-for", "203.0.113.7, 10.0.0.2"), ("x-real-ip", "10.0.0.2")] }

def sampleError : JsError := { name := "TypeError", message := "boom" }

/-! ## The transitions with their activity log entry -/

/-- The documents that the controllers hand to `logDocument`, as far as the logger reads them:
a document has a `title`, a review and an audit have none. -/
def Document.toJs (d : Document) : Js :=
  Js.object [("_id", .oid d.id), ("title", .str d.title), ("status", .str d.status)]

def Review.toJs (r : Review) : Js :=
  Js.object [("_id", .oid r.id), ("document", .oid r.document), ("reviewer", .oid r.reviewer),
             ("status", .str r.status)]

def Audit.toJs (a : Audit) : Js :=
  Js.object [("_id", .oid a.id), ("document", .oid a.document), ("auditor", .oid a.auditor),
             ("status", .str a.status)]

/-- The object literal `{ type: 'Document', id: document._id, name: document.title }`. -/
def documentResource (document : Document) : Js :=
  Js.object [("type", .str "Document"), ("id", .oid document.id), ("name", .str document.title)]

/-- The fourth argument of the `logAdmin` call of `assignReviewer` (lines 257-267); the name
of the reviewer's user is not modelled. -/
def reviewerAssignedDetails (document : Document) (reviewer : Reviewer)
    (dueDate : Option Date) : Js :=
  Js.object [("targetResource", documentResource document), ("reviewerId", .oid reviewer.id),
             ("dueDate", Js.ofOption Js.date dueDate), ("status", .str "success")]

/-- The fourth argument of the `logAdmin` call of `assignAuditor` (lines 351-361). -/
def auditorAssignedDetails (document : Document) (auditor : Auditor)
    (dueDate : Option Date) : Js :=
  Js.object [("targetResource", documentResource document), ("auditorId", .oid auditor.id),
             ("dueDate", Js.ofOption Js.date dueDate), ("status", .str "success")]

/-- The fourth argument of the `logAdmin` call of `updateDocumentStatus` (lines 485-494). -/
def statusChangedDetails (document : Document) (oldStatus newStatus : String) : Js :=
  Js.object [("targetResource", documentResource document), ("oldStatus", .str oldStatus),
             ("newStatus", .str newStatus), ("status", .str "success")]

/-- The answer stands for an error that the handler threw. -/
def Response.thrown (res : Response) : Bool :=
  res == validationError || res == typeError

/-- The end of a handler. On its success path the handler awaits its Logger call and then
answers; a call that raises turns the answer into the error middleware's. A thrown error goes
to the error middleware, which logs `system_error`. On its other answers the handler makes no
Logger call. -/
def conclude (env : Env) (req : Request) (res : Response) (db : Db) (store : LogStore)
    (call : Option LogStore) : Response × Db × LogStore :=
  if res.success then
    match call with
    | some store => (res, db, store)
    | none =>
      (typeError, db,
        (errorMiddlewareLog env store req { name := "TypeError", message := "" }).getD store)
  else if res.thrown then
    (res, db, (errorMiddlewareLog env store req { name := res.message, message := "" }).getD store)
  else (res, db, store)

/-- The handler `assignReviewer` with the log collection. -/
def assignReviewerLogged (env : Env) (req : Request) (documentId reviewerId : ObjectId)
    (dueDate : Option Date) (db : Db) (store : LogStore) : Response × Db × LogStore :=
  match req.user with
  | none => (typeError, db, store)
  | some user =>
    let result := assignReviewer db user documentId reviewerId dueDate env.now
    conclude env req result.1 result.2 store
      (match result.2.findDocument documentId, result.2.findReviewer reviewerId with
       | some document, some reviewer =>
         Logger.logAdmin env store "reviewer_assigned" req.user (some req)
           (reviewerAssignedDetails document reviewer dueDate) .undefined
       | _, _ => some store)

/-- The handler `assignAuditor` with the log collection. -/
def assignAuditorLogged (env : Env) (req : Request) (documentId auditorId : ObjectId)
    (dueDate : Option Date) (db : Db) (store : LogStore) : Response × Db × LogStore :=
  match req.user with
  | none => (typeError, db, store)
  | some user =>
    let result := assignAuditor db user documentId auditorId dueDate env.now
    conclude env req result.1 result.2 store
      (match result.2.findDocument documentId, result.2.findAuditor auditorId with
       | some document, some auditor =>
         Logger.logAdmin env store "auditor_assigned" req.user (some req)
           (auditorAssignedDetails document auditor dueDate) .undefined
       | _, _ => some store)

/-- The handler `startReview` with the log collection: `logDocument('review_started', req.user,
req, document, { reviewId, status })`. -/
def startReviewLogged (env : Env) (req : Request) (documentId : ObjectId) (db : Db)
    (store : LogStore) : Response × Db × LogStore :=
  match req.user with
  | none => (typeError, db, store)
  | some user =>
    let result := startReview db user documentId env.now
    conclude env req result.1 result.2 store
      (match result.2.findDocument documentId with
       | some document =>
         Logger.logDocument env store "review_started" req.user (some req) document.toJs
           (Js.object
             [("reviewId", Js.ofOption Js.oid (startReviewData db user documentId env.now)),
              ("status", .str "success")])
       | none => some store)

/-- The handler `submitReview` with the log collection: `logDocument('review_submitted',
req.user, req, review, { reviewId, documentTitle, overallScore, status })`, the review standing
where a document is expected. -/
def submitReviewLogged (env : Env) (req : Request) (reviewId : ObjectId) (db : Db)
    (store : LogStore) : Response × Db × LogStore :=
  match req.user with
  | none => (typeError, db, store)
  | some user =>
    let result := submitReview db user reviewId env.now
    conclude env req result.1 result.2 store
      (match result.2.findReview reviewId with
       | some review =>
         Logger.logDocument env store "review_submitted" req.user (some req) review.toJs
           (Js.object
             [("reviewId", .oid review.id),
              ("documentTitle",
                Js.ofOption (fun d : Document => .str d.title)
                  (result.2.findDocument review.document)),
              ("overallScore", Js.ofOption Js.num review.reviewData.overallScore),
              ("status", .str "success")])
       | none => some store)

/-- The handler `startAudit` with the log collection: `logDocument('audit_started', req.user,
req, document, { auditId, reviewId, status })`. -/
def startAuditLogged (env : Env) (req : Request) (documentId : ObjectId) (db : Db)
    (store : LogStore) : Response × Db × LogStore :=
  match req.user with
  | none => (typeError, db, store)
  | some user =>
    let result := startAudit db user documentId (strOr req.ip "system") env.now
    conclude env req result.1 result.2 store
      (match result.2.findDocument documentId with
       | some document =>
         Logger.logDocument env store "audit_started" req.user (some req) document.toJs
           (Js.object
             [("auditId",
                Js.ofOption (fun a : Audit => .oid a.id)
                  (result.2.audits.find? fun a => a.document == documentId)),
              ("reviewId",
                Js.ofOption (fun r : Review => .oid r.id)
                  (db.reviews.find? fun r => r.document == documentId && r.status == "submitted")),
              ("status", .str "success")])
       | none => some store)

/-- The handler `submitAudit` with the log collection: `logDocument('audit_completed', req.user,
req, audit, { auditId, documentTitle, outcome, finalScore, status })`, the audit standing where
a document is expected. -/
def submitAuditLogged (env : Env) (req : Request) (auditId : ObjectId)
    (finalDecision : Option FinalDecision) (digitalSignature : Option String) (db : Db)
    (store : LogStore) : Response × Db × LogStore :=
  match req.user with
  | none => (typeError, db, store)
  | some user =>
    let result :=
      submitAudit db user auditId finalDecision digitalSignature (strOr req.ip "system") env.now
    conclude env req result.1 result.2 store
      (match result.2.findAudit auditId with
       | some audit =>
         Logger.logDocument env store "audit_completed" req.user (some req) audit.toJs
           (Js.object
             [("auditId", .oid audit.id),
              ("documentTitle",
                Js.ofOption (fun d : Document => .str d.title)
                  (result.2.findDocument audit.document)),
              ("outcome", Js.ofOption Js.str audit.finalDecision.outcome),
              ("finalScore", Js.ofOption Js.num audit.finalDecision.finalScore),
              ("status", .str "success")])
       | none => some store)

/-- The handler `updateDocumentStatus` with the log collection: `logAdmin(
'document_status_changed', req.user, req, { targetResource, oldStatus, newStatus, status })`. -/
def updateDocumentStatusLogged (env : Env) (req : Request) (documentId : ObjectId)
    (status : String) (notes : Option String) (db : Db) (store : LogStore) :
    Response × Db × LogStore :=
  match req.user with
  | none => (typeError, db, store)
  | some user =>
    let result := updateDocumentStatus db user documentId status notes env.now
    conclude env req result.1 result.2 store
      (match db.findDocument documentId, result.2.findDocument documentId with
       | some old, some document =>
         Logger.logAdmin env store "document_status_changed" req.user (some req)
           (statusChangedDetails document old.status status) .undefined
       | _, _ => some store)

/-- A transition request with its arguments. -/
inductive Transition where
  | assignReviewer (documentId reviewerId : ObjectId) (dueDate : Option Date)
  | assignAuditor (documentId auditorId : ObjectId) (dueDate : Option Date)
  | startReview (documentId : ObjectId)
  | submitReview (reviewId : ObjectId)
  | startAudit (documentId : ObjectId)
  | submitAudit (auditId : ObjectId) (finalDecision : Option FinalDecision)
      (digitalSignature : Option String)
  | updateDocumentStatus (documentId : ObjectId) (status : String) (notes : Option String)

/-- The handler that serves a transition request. -/
def Transition.run (t : Transition) (env : Env) (req : Request) (db : Db) (store : LogStore) :
    Response × Db × LogStore :=
  match t with
  | .assignReviewer documentId reviewerId dueDate =>
    assignReviewerLogged env req documentId reviewerId dueDate db store
  | .assignAuditor documentId auditorId dueDate =>
    assignAuditorLogged env req documentId auditorId dueDate db store
  | .startReview documentId => startReviewLogged env req documentId db store
  | .submitReview reviewId => submitReviewLogged env req reviewId db store
  | .startAudit documentId => startAuditLogged env req documentId db store
  | .submitAudit auditId finalDecision digitalSignature =>
    submitAuditLogged env req auditId finalDecision digitalSignature db store
  | .updateDocumentStatus documentId status notes =>
    updateDocumentStatusLogged env req documentId status notes db store

/-- The requests of the reviewer and of the auditor of the sample data. -/
def reviewerRequest : Request := { adminRequest with user := some reviewerUser }

def auditorRequest : Request := { adminRequest with user := some auditorUser }

/-- The whole workflow on document 3 of `workflowDb`, each request with its sender. -/
def loggedFlow : List (Request × Transition) :=
  [(adminRequest, .assignReviewer 3 1 (some 5000)),
   (reviewerRequest, .startReview 3),
   (reviewerRequest, .submitReview 5),
   (adminRequest, .assignAuditor 3 2 (some 9000)),
   (auditorRequest, .startAudit 3),
   (auditorRequest, .submitAudit 6 (some rejectedDecision) none)]

/-- For each request of a sequence: the status of the answer and the number of entries that the
request appended to the log. -/
def appended (env : Env) : List (Request × Transition) → Db → LogStore → List (Nat × Nat)
  | [], _, _ => []
  | (req, t) :: rest, db, store =>
    let result := t.run env req db store
    (result.1.status, result.2.2.entries.length - store.entries.length) ::
      appended env rest result.2.1 result.2.2

/-- The sample workflow data after the admin assigned document 3 to reviewer 1. -/
def assignedReviewDb : Db := (assignReviewer workflowDb adminUser 3 1 (some 5000) 100).2

/-! ## Role guard (`middlewares/roleMiddleware.js`) -/

/-- What a middleware does with a request: pass it on with `next()`, or answer it. -/
inductive Outcome where
  | next
  | respond (res : Response)
  deriving DecidableEq, Repr

/-- The middleware `authorize(...roles)`. Each branch awaits its Logger call first; a call that
raised would end in the error middleware's answer. -/
def authorize (roles : List String) (env : Env) (store : LogStore) (req : Request) :
    Outcome × LogStore :=
  match req.user with
  | none =>
    match Logger.log env store "authorization_failed" none (some req)
        (Js.object [("reason", .str "No authenticated user"), ("requiredRoles", .strs roles),
                    ("status", .str "failure")]) with
    | none => (.respond typeError, store)
    | some store => (.respond ⟨401, "Access denied. Authentication required."⟩, store)
  | some user =>
    if !roles.contains user.role then
      match Logger.log env store "authorization_failed" (some user) (some req)
          (Js.object [("reason", .str "Insufficient permissions"),
                      ("userRole", .str user.role), ("requiredRoles", .strs roles),
                      ("status", .str "failure")]) with
      | none => (.respond typeError, store)
      | some store =>
        (.respond ⟨403, "Access denied. Required roles: " ++ ", ".intercalate roles ++
          ". Your role: " ++ user.role⟩, store)
    else
      match Logger.log env store "authorization_success" (some user) (some req)
          (Js.object [("userRole", .str user.role), ("requiredRoles", .strs roles),
                      ("status", .str "success")]) with
      | none => (.respond typeError, store)
      | some store => (.next, store)

/-- What a guarded route did with a request: the guard answered it and the handler was not
run, or the handler ran. -/
inductive Served (α : Type) where
  | refused (res : Response) (store : LogStore)
  | handled (result : α)

/-- A route `router.verb(path, guard, handler)`: the handler runs when the guard calls
`next()`, on the log collection that the guard left. -/
def route {α : Type} (guard : LogStore → Request → Outcome × LogStore)
    (handler : Request → LogStore → α) (req : Request) (store : LogStore) : Served α :=
  match guard store req with
  | (.respond res, store) => .refused res store
  | (.next, store) => .handled (handler req store)

/-! ## Log controller (`controllers/logController.js`) -/

/-- The answer of the error middleware to a failure of the database. -/
def serverError : Response := ⟨500, "Internal server error"⟩

/-- The query string of a log listing; `page` and `limit` after `parseInt`. -/
structure LogQuery where
  page : Option Nat := none
  limit : Option Nat := none
  category : Option String := none
  action : Option String := none
  startDate : Option Date := none
  endDate : Option Date := none
  deriving DecidableEq, Repr

/-- The expression `parseInt(x) || d`. -/
def natOr (x : Option Nat) (d : Nat) : Nat :=
  match x with
  | none => d
  | some n => if n = 0 then d else n

/-- A filter `if (value) query.path = value` on a string path. -/
def matchesString (value : Option String) (actual : String) : Bool :=
  if strTruthy value then value == some actual else true

/-- The handler of `GET /api/logs/user/:userId`: the entries of the user that pass the filters,
newest first, one page of them. -/
def getUserLogs (req : Request) (userId : ObjectId) (query : LogQuery) (store : LogStore) :
    Response × List Log :=
  match req.user with
  | none => (typeError, [])
  | some user =>
    if user.role ≠ "admin" ∧ user.id ≠ userId then (⟨403, "Access denied"⟩, [])
    else if !store.available then (serverError, [])
    else
      let page := natOr query.page 1
      let limit := natOr query.limit 30
      let skip := (page - 1) * limit
      let logs := store.entries.filter fun e =>
        e.user == userId && matchesString query.category e.category &&
        matchesString query.action e.action &&
        (match query.startDate with
         | some d => decide (d ≤ e.createdAt)
         | none => true) &&
        (match query.endDate with
         | some d => decide (e.createdAt ≤ d)
         | none => true)
      let sorted := logs.insertionSort fun a b => b.createdAt ≤ a.createdAt
      (⟨200, ""⟩, (sorted.drop skip).take limit)

/-- The route `router.get('/user/:userId', authorize('admin'), getUserLogs)` of
`routes/logRoutes.js`. -/
def getUserLogsRoute (env : Env) (req : Request) (userId : ObjectId) (query : LogQuery)
    (store : LogStore) : Served (Response × List Log) :=
  route (authorize ["admin"] env) (fun req store => getUserLogs req userId query store) req store

/-- The cut-off of `cleanupLogs`: `new Date(Date.now() - days * 24 * 60 * 60 * 1000)`. -/
def cutoffDate (now : Date) (days : ℚ) : Date :=
  newDate (now - days * 24 * 60 * 60 * 1000)

/-- The filter of the `deleteMany` of `cleanupLogs`: created before the cut-off, severity not
in `['critical', 'high']`. -/
def Log.expired (cutoff : Date) (e : Log) : Bool :=
  decide (e.createdAt < cutoff) && !(["critical", "high"].contains e.severity)

/-- The handler of `DELETE /api/logs/cleanup`; `days` is `req.body.days`, with the default 365
of the destructuring. The number of days is left out of the message. -/
def cleanupLogs (env : Env) (req : Request) (days : Option ℚ) (store : LogStore) :
    Response × LogStore :=
  let days := days.getD 365
  let cutoff := cutoffDate env.now days
  if !store.available then (serverError, store)
  else
    let kept := store.entries.filter fun e => !e.expired cutoff
    let deletedCount := store.entries.length - kept.length
    let store := { store with entries := kept }
    match Logger.logAdmin env store "logs_cleaned" req.user (some req)
        (Js.object [("deletedCount", .num deletedCount), ("cutoffDate", .date cutoff),
                    ("daysKept", .num days), ("status", .str "success")]) .undefined with
    | none => (typeError, store)
    | some store =>
      (⟨200, "Cleaned up " ++ toString deletedCount ++ " log entries"⟩, store)

/-- A stored entry of the admin, created at time 0. -/
def sampleLog : Log :=
  { user := 30, action := "login", category := "authentication", severity := "low",
    metadata := { ip := "10.0.0.1", userAgent := "Mozilla", device := "desktop",
                  browser := "unknown", os := "unknown" },
    createdAt := 0 }

/-- One day in milliseconds. -/
def dayMs : Int := 24 * 60 * 60 * 1000

/-- The log of the cleanup scenario, read on day 50: a critical and a low entry of day 10, and
a low entry of day 30. -/
def agedStore : LogStore :=
  { entries := [{ sampleLog with severity := "critical", createdAt := 10 * dayMs },
                { sampleLog with severity := "low", createdAt := 10 * dayMs },
                { sampleLog with severity := "low", action := "logout",
                                 createdAt := 30 * dayMs }] }

def day50 : Env := { now := 50 * dayMs }

/-- The answer of the guard when it refused the request. -/
def Served.refusal {α : Type} (s : Served α) : Option Response :=
  match s with
  | .refused res _ => some res
  | .handled _ => none

/-- The result of the handler when it ran. -/
def Served.result {α : Type} (s : Served α) : Option α :=
  match s with
  | .refused _ _ => none
  | .handled result => some result

/-- A document with a completed review, free for the assignment of an auditor. -/
def reviewedDocument : Document :=
  { id := 3, title := "report", institute := 4, status := "review_completed",
    assignedReviewer := some 1 }

/-! ## Theorems -/

/-! ### The weighted score -/

theorem foldl_accumulate (criteria : List Criterion) (a b : ℚ) :
    criteria.foldl accumulate (a, b) =
      (a + (criteria.map fun c => c.score * numOr c.weight 1).sum,
       b + (criteria.map fun c => numOr c.weight 1).sum) := by
  induction criteria generalizing a b with
  | nil => simp
  | cons c cs ih => simp [List.foldl_cons, accumulate, ih, add_assoc]

theorem numOr_of_pos {c : Criterion} (h : ∃ w, c.weight = some w ∧ 0 < w) :
    numOr c.weight 1 = c.weight.getD 0 := by
  obtain ⟨w, hw, hpos⟩ := h
  simp [numOr, hw, ne_of_gt hpos]

theorem sum_weights_pos (criteria : List Criterion) (hne : criteria ≠ [])
    (h : ∀ c ∈ criteria, ∃ w, c.weight = some w ∧ 0 < w) :
    0 < (criteria.map fun c => c.weight.getD 0).sum := by
  induction criteria with
  | nil => exact absurd rfl hne
  | cons c cs ih =>
    obtain ⟨w, hw, hpos⟩ := h c (List.mem_cons_self c cs)
    have hrest : 0 ≤ (cs.map fun c => c.weight.getD 0).sum := by
      by_cases hcs : cs = []
      · simp [hcs]
      · exact le_of_lt (ih hcs fun d hd => h d (List.mem_cons_of_mem c hd))
    simp only [List.map_cons, List.sum_cons, hw, Option.getD_some]
    linarith

/-- When every weight is present and positive, the score stored by `updateReview` is the
specification's weighted mean. -/
theorem computeOverallScore_eq_spec (criteria : List Criterion)
    (h : ∀ c ∈ criteria, ∃ w, c.weight = some w ∧ 0 < w) :
    computeOverallScore criteria = specOverallScore criteria := by
  have hs : (criteria.map fun c => c.score * numOr c.weight 1) =
      (criteria.map fun c => c.score * c.weight.getD 0) :=
    List.map_congr_left fun c hc => by rw [numOr_of_pos (h c hc)]
  have hw : (criteria.map fun c => numOr c.weight 1) =
      (criteria.map fun c => c.weight.getD 0) :=
    List.map_congr_left fun c hc => numOr_of_pos (h c hc)
  simp only [computeOverallScore, specOverallScore, foldl_accumulate, hs, hw, zero_add]
  by_cases hne : criteria = []
  · simp [hne]
  · have hpos := sum_weights_pos criteria hne h
    simp [hpos, ne_of_gt hpos]

/-- The scenario of the specification: scores 80 and 60 with weight 1 each give 70. -/
theorem computeOverallScore_scenario : computeOverallScore scenarioCriteria = 70 := by
  decide!

/-- C1 (defect in the code): the criteria `[{score: 80, weight: 0}, {score: 60, weight: 1}]` are
inside the schema's ranges and `updateReview` accepts them, but it stores `overallScore = 70`
where the weighted mean is 60, because `weight || 1` turns the weight 0 into 1. For the single
criterion `{score: 80, weight: 0}` the weights sum to 0 and the stored score is 80, not 0. -/
theorem updateReview_zero_weight_counted_as_one :
    zeroWeightCriteria.all Criterion.valid = true ∧
    (updateReview reviewDb reviewerUser 5 (criteriaBody zeroWeightCriteria) none 1000).1.status
      = 200 ∧
    ((updateReview reviewDb reviewerUser 5 (criteriaBody zeroWeightCriteria) none 1000).2.findReview
      5).map (fun r => r.reviewData.overallScore) = some (some 70) ∧
    specOverallScore zeroWeightCriteria = 60 ∧
    computeOverallScore [{ name := "a", score := 80, weight := some 0 }] = 80 ∧
    specOverallScore [{ name := "a", score := 80, weight := some 0 }] = 0 := by
  decide!

/-! ### Submitting a review -/

/-- C5 (defect in the code): a review whose only criterion is scored 0 gets `overallScore = 0`
from `updateReview`; its criteria list is non-empty and its score is set, inside 0..100, yet
`submitReview` answers 400 "Review is incomplete" and changes nothing, because the guard
`!review.reviewData.overallScore` treats the number 0 as missing. -/
theorem submitReview_rejects_zero_overallScore :
    (zeroScoreDb.findReview 5).map (fun r => r.reviewData.overallScore) = some (some 0) ∧
    (zeroScoreDb.findReview 5).map (fun r => r.reviewData.criteria.length) = some 1 ∧
    (zeroScoreDb.findReview 5).map Review.valid = some true ∧
    (submitReview zeroScoreDb reviewerUser 5 2000).1 =
      ⟨400, "Review is incomplete. Please add criteria and overall score"⟩ ∧
    (submitReview zeroScoreDb reviewerUser 5 2000).2 = zeroScoreDb := by
  decide!

/-- C7 (defect in the code): `submitReview` has no guard on the review's status. After a first
successful submit the review is `submitted`; a second call succeeds again, counts a second
completed review and changes the reviewer's average review time. -/
theorem submitReview_twice_succeeds :
    (submitReview reviewDb reviewerUser 5 2000).1.status = 200 ∧
    (submittedOnceDb.findReview 5).map (fun r => r.status) = some "submitted" ∧
    (submittedOnceDb.findReviewer 1).map (fun r => r.completedReviews) = some 1 ∧
    (submitReview submittedOnceDb reviewerUser 5 3000).1.status = 200 ∧
    ((submitReview submittedOnceDb reviewerUser 5 3000).2.findReviewer 1).map
      (fun r => r.completedReviews) = some 2 ∧
    ((submitReview submittedOnceDb reviewerUser 5 3000).2.findReviewer 1).map
      (fun r => r.averageReviewTime) ≠
      (submittedOnceDb.findReviewer 1).map (fun r => r.averageReviewTime) ∧
    (submitReview submittedOnceDb reviewerUser 5 3000).2 ≠ submittedOnceDb := by
  decide!

/-! ### Updating a review -/

/-- C6 (counterexample): a review whose status is `under_audit` is updated successfully by its
owner; the stored score and the revision history change. -/
theorem updateReview_succeeds_under_audit :
    (underAuditDb.findReview 5).map (fun r => r.status) = some "under_audit" ∧
    (updateReview underAuditDb reviewerUser 5 (criteriaBody scenarioCriteria) none 1000).1.status
      = 200 ∧
    ((updateReview underAuditDb reviewerUser 5 (criteriaBody scenarioCriteria) none
      1000).2.findReview 5).map (fun r => (r.reviewData.overallScore, r.revisionHistory.length))
      = some (some 70, 1) := by
  decide!

/-! ### Completed audits -/

/-- C8 (defect in the code): on an audit whose status is `completed`, only `updateAudit` is
refused. `addAuditFinding`, `updateComplianceCheck`, `validateReviewAssessment` and a second
`submitAudit` all succeed and change the audit; the second submit also counts one more completed
audit for the auditor. -/
theorem completed_audit_still_mutable :
    (completedAuditDb.findAudit 6).map (fun a => a.status) = some "completed" ∧
    (updateAudit completedAuditDb auditorUser 6 { quality := some "good" } "10.0.0.1") =
      (⟨400, "Cannot update completed audit"⟩, completedAuditDb) ∧
    (addAuditFinding completedAuditDb auditorUser 6 { category := some "minor" }
      "10.0.0.1").1.status = 200 ∧
    ((addAuditFinding completedAuditDb auditorUser 6 { category := some "minor" }
      "10.0.0.1").2.findAudit 6).map (fun a => a.auditData.findings.length) = some 1 ∧
    (updateComplianceCheck completedAuditDb auditorUser 6 none (some "non_compliant")
      "10.0.0.1").1.status = 200 ∧
    ((updateComplianceCheck completedAuditDb auditorUser 6 none (some "non_compliant")
      "10.0.0.1").2.findAudit 6).map (fun a => a.auditData.complianceCheck.overallCompliance)
      = some (some "non_compliant") ∧
    (validateReviewAssessment completedAuditDb auditorUser 6
      (some { accuracyScore := some 90, completenessScore := some 80,
              consistencyScore := some 70 }) "10.0.0.1").1.status = 200 ∧
    ((validateReviewAssessment completedAuditDb auditorUser 6
      (some { accuracyScore := some 90, completenessScore := some 80,
              consistencyScore := some 70 }) "10.0.0.1").2.findAudit 6).map
      (fun a => a.auditData.reviewValidation.accuracyScore) = some (some 90) ∧
    (submitAudit completedAuditDb auditorUser 6 (some approvedDecision) none "10.0.0.1"
      9000).1.status = 200 ∧
    ((submitAudit completedAuditDb auditorUser 6 (some approvedDecision) none "10.0.0.1"
      9000).2.findAudit 6).map (fun a => a.finalDecision.outcome) = some (some "approved") ∧
    (completedAuditDb.findAuditor 2).map (fun a => a.completedAudits) = some 1 ∧
    ((submitAudit completedAuditDb auditorUser 6 (some approvedDecision) none "10.0.0.1"
      9000).2.findAuditor 2).map (fun a => a.completedAudits) = some 2 := by
  decide!

/-- C9 (counterexample): after `startAudit` and an `updateAudit` that stores a final decision,
the audit has an outcome and a justification while its status is still `assigned`, so "present
if and only if completed" fails in a reachable state. -/
theorem decision_present_before_completion :
    decidedEarlyDb = runAll
      [.startAudit auditorUser 3 "10.0.0.1" 4000,
       .updateAudit auditorUser 6 { finalDecision := some approvedDecision } "10.0.0.1"]
      auditDb ∧
    (decidedEarlyDb.findAudit 6).map (fun a => (a.status, a.decisionPresent))
      = some ("assigned", true) ∧
    ¬ (∀ a ∈ decidedEarlyDb.audits, a.decisionPresent = true ↔ a.status = "completed") := by
  decide!

/-! ### The auditor's history -/

/-- C10 (defect in the code): `requires_revision` is in the enum of `finalDecision.outcome` but
not in the enum of `auditHistory.outcome` (`approved`, `rejected`, `conditional_approval`).
`submitAudit` with that outcome and a justification completes the audit and sets the document to
`revision_required`, then `auditor.save()` is rejected: the answer is an error, nothing is
appended to `auditHistory`, `completedAudits` and `workload.current` keep their values. The same
holds for `approved_with_conditions`. With `approved` the entry is appended with score 0 for a
missing `finalScore`. -/
theorem submitAudit_outcome_rejected_by_history_enum :
    outcomeEnum.contains "requires_revision" = true ∧
    (submitAudit startedAuditDb auditorUser 6 (some revisionDecision) none "10.0.0.1" 8000).1
      = validationError ∧
    ((submitAudit startedAuditDb auditorUser 6 (some revisionDecision) none "10.0.0.1"
      8000).2.findAudit 6).map (fun a => a.status) = some "completed" ∧
    ((submitAudit startedAuditDb auditorUser 6 (some revisionDecision) none "10.0.0.1"
      8000).2.findDocument 3).map (fun d => d.status) = some "revision_required" ∧
    (submitAudit startedAuditDb auditorUser 6 (some revisionDecision) none "10.0.0.1"
      8000).2.auditors = startedAuditDb.auditors ∧
    (startedAuditDb.findAuditor 2).map
      (fun a => (a.auditHistory.length, a.completedAudits, a.workload.current))
      = some (0, 0, 1) ∧
    (submitAudit startedAuditDb auditorUser 6
      (some { revisionDecision with outcome := some "approved_with_conditions" }) none "10.0.0.1"
      8000).1 = validationError ∧
    (submitAudit startedAuditDb auditorUser 6 (some approvedDecision) none "10.0.0.1"
      8000).1.status = 200 ∧
    ((submitAudit startedAuditDb auditorUser 6 (some approvedDecision) none "10.0.0.1"
      8000).2.findAuditor 2).map
      (fun a => (a.auditHistory.map (fun h => (h.outcome, h.score)), a.completedAudits,
                 a.workload.current))
      = some ([("approved", 0)], 1, 0) := by
  decide!

/-! ### Workload bounds -/

theorem reviewerOfUser_mem {db : Db} {u : ObjectId} {r : Reviewer}
    (h : db.reviewerOfUser u = some r) : r ∈ db.reviewers :=
  List.mem_of_find?_eq_some h

theorem findReviewer_mem {db : Db} {i : ObjectId} {r : Reviewer}
    (h : db.findReviewer i = some r) : r ∈ db.reviewers :=
  List.mem_of_find?_eq_some h

theorem auditorOfUser_mem {db : Db} {u : ObjectId} {a : Auditor}
    (h : db.auditorOfUser u = some a) : a ∈ db.auditors :=
  List.mem_of_find?_eq_some h

theorem findAuditor_mem {db : Db} {i : ObjectId} {a : Auditor}
    (h : db.findAuditor i = some a) : a ∈ db.auditors :=
  List.mem_of_find?_eq_some h

theorem findAudit_mem {db : Db} {i : ObjectId} {a : Audit}
    (h : db.findAudit i = some a) : a ∈ db.audits :=
  List.mem_of_find?_eq_some h

theorem addToTrail_eq {db db' : Db} {audit : Audit} {action : String} {u : ObjectId}
    {details : List String} {ip : String}
    (h : addToTrail db audit action u details ip = some db') :
    db' = db.saveAudit { audit with
      auditTrail := audit.auditTrail ++
        [{ action := action, performedBy := u, details := details, ip := ip }] } := by
  unfold addToTrail at h
  dsimp only at h
  split at h
  · exact (Option.some.inj h).symm
  · exact absurd h (by simp)

theorem workloadInv_saveReviewer {db : Db} (h : WorkloadInv db) {r : Reviewer}
    (hr : WorkloadOk r.workload) : WorkloadInv (db.saveReviewer r) := by
  refine ⟨fun x hx => ?_, h.2⟩
  simp only [Db.saveReviewer, List.mem_map] at hx
  obtain ⟨y, hy, rfl⟩ := hx
  split
  · exact hr
  · exact h.1 y hy

theorem workloadInv_saveAuditor {db : Db} (h : WorkloadInv db) {a : Auditor}
    (ha : WorkloadOk a.workload) : WorkloadInv (db.saveAuditor a) := by
  refine ⟨h.1, fun x hx => ?_⟩
  simp only [Db.saveAuditor, List.mem_map] at hx
  obtain ⟨y, hy, rfl⟩ := hx
  split
  · exact ha
  · exact h.2 y hy

theorem workloadInv_addToTrail {db db' : Db} {audit : Audit} {action : String} {u : ObjectId}
    {details : List String} {ip : String}
    (heq : addToTrail db audit action u details ip = some db') (h : WorkloadInv db) :
    WorkloadInv db' := by
  rw [addToTrail_eq heq]
  exact h

theorem workloadOk_decFloor {w : Workload} (h : WorkloadOk w) :
    WorkloadOk { w with current := decFloor w.current } := by
  obtain ⟨h0, h1⟩ := h
  refine ⟨le_max_left _ _, max_le (le_trans h0 h1) ?_⟩
  show w.current - 1 ≤ w.maximum
  omega

theorem workloadOk_increment {w : Workload} (h : WorkloadOk w) (hlt : w.current < w.maximum) :
    WorkloadOk { w with current := w.current + 1 } := by
  obtain ⟨h0, _⟩ := h
  refine ⟨?_, ?_⟩
  · show 0 ≤ w.current + 1
    omega
  · show w.current + 1 ≤ w.maximum
    omega

theorem reviewer_lt_of_isAvailable {r : Reviewer} (h : ¬(!r.isAvailable) = true) :
    r.workload.current < r.workload.maximum := by
  simp [Reviewer.isAvailable] at h
  exact h.2

theorem auditor_lt_of_isAvailable {a : Auditor} (h : ¬(!a.isAvailable) = true) :
    a.workload.current < a.workload.maximum := by
  simp [Auditor.isAvailable] at h
  exact h.2

theorem assignReviewer_workload (db : Db) (user : User) (documentId reviewerId : ObjectId)
    (dueDate : Option Date) (now : Date) (h : WorkloadInv db) :
    WorkloadInv (assignReviewer db user documentId reviewerId dueDate now).2 := by
  unfold assignReviewer
  repeat' (first | exact h | split | (intro _) | (dsimp only))
  rename_i hr havail _
  exact workloadInv_saveReviewer h
    (workloadOk_increment (h.1 _ (findReviewer_mem hr)) (reviewer_lt_of_isAvailable havail))

theorem assignAuditor_workload (db : Db) (user : User) (documentId auditorId : ObjectId)
    (dueDate : Option Date) (now : Date) (h : WorkloadInv db) :
    WorkloadInv (assignAuditor db user documentId auditorId dueDate now).2 := by
  unfold assignAuditor
  repeat' (first | exact h | split | (intro _) | (dsimp only))
  rename_i ha _ havail _
  exact workloadInv_saveAuditor h
    (workloadOk_increment (h.2 _ (findAuditor_mem ha)) (auditor_lt_of_isAvailable havail))

theorem startReviewFinish_workload (db : Db) (document : Document) (reviewer : Reviewer)
    (h : WorkloadInv db) (hr : WorkloadOk reviewer.workload) :
    WorkloadInv (startReviewFinish db document reviewer).2 := by
  unfold startReviewFinish
  repeat' (first | exact h | split | (intro _) | (dsimp only))
  exact workloadInv_saveReviewer h hr

theorem startAuditFinish_workload (db : Db) (document : Document) (auditor : Auditor)
    (h : WorkloadInv db) (ha : WorkloadOk auditor.workload) :
    WorkloadInv (startAuditFinish db document auditor).2 := by
  unfold startAuditFinish
  repeat' (first | exact h | split | (intro _) | (dsimp only))
  exact workloadInv_saveAuditor h ha

theorem startReview_workload (db : Db) (user : User) (documentId : ObjectId) (now : Date)
    (h : WorkloadInv db) : WorkloadInv (startReview db user documentId now).2 := by
  unfold startReview
  repeat' (first | exact h | split | (intro _) | (dsimp only))
  all_goals
    exact startReviewFinish_workload _ _ _ h (h.1 _ (reviewerOfUser_mem (by assumption)))

theorem updateReview_workload (db : Db) (user : User) (reviewId : ObjectId)
    (body : ReviewUpdates) (reason : Option String) (now : Date) (h : WorkloadInv db) :
    WorkloadInv (updateReview db user reviewId body reason now).2 := by
  unfold updateReview
  repeat' (first | exact h | split | (intro _) | (dsimp only))

theorem submitReview_workload (db : Db) (user : User) (reviewId : ObjectId) (now : Date)
    (h : WorkloadInv db) : WorkloadInv (submitReview db user reviewId now).2 := by
  unfold submitReview
  repeat' (first | exact h | split | (intro _) | (dsimp only))
  exact workloadInv_saveReviewer h
    (workloadOk_decFloor (h.1 _ (reviewerOfUser_mem (by assumption))))

theorem startAudit_workload (db : Db) (user : User) (documentId : ObjectId) (ip : String)
    (now : Date) (h : WorkloadInv db) :
    WorkloadInv (startAudit db user documentId ip now).2 := by
  unfold startAudit
  repeat' (first | exact h | split | (intro _) | (dsimp only))
  · exact startAuditFinish_workload _ _ _ h (h.2 _ (auditorOfUser_mem (by assumption)))
  · rename_i heq
    exact startAuditFinish_workload _ _ _ (workloadInv_addToTrail heq h)
      (h.2 _ (auditorOfUser_mem (by assumption)))

theorem updateAudit_workload (db : Db) (user : User) (auditId : ObjectId)
    (updates : AuditUpdates) (ip : String) (h : WorkloadInv db) :
    WorkloadInv (updateAudit db user auditId updates ip).2 := by
  unfold updateAudit
  repeat' (first | exact h | split | (intro _) | (dsimp only))
  all_goals
    rename_i heq
    exact workloadInv_addToTrail heq h

theorem submitAudit_workload (db : Db) (user : User) (auditId : ObjectId)
    (finalDecision : Option FinalDecision) (digitalSignature : Option String) (ip : String)
    (now : Date) (h : WorkloadInv db) :
    WorkloadInv (submitAudit db user auditId finalDecision digitalSignature ip now).2 := by
  unfold submitAudit
  repeat' (first | exact h | split | (intro _) | (dsimp only))
  all_goals first
    | exact workloadInv_saveAuditor h
        (workloadOk_decFloor (h.2 _ (auditorOfUser_mem (by assumption))))
    | (rename_i heq
       exact workloadInv_addToTrail heq
        (workloadInv_saveAuditor h
          (workloadOk_decFloor (h.2 _ (auditorOfUser_mem (by assumption))))))

theorem addAuditFinding_workload (db : Db) (user : User) (auditId : ObjectId)
    (finding : Finding) (ip : String) (h : WorkloadInv db) :
    WorkloadInv (addAuditFinding db user auditId finding ip).2 := by
  unfold addAuditFinding
  repeat' (first | exact h | split | (intro _) | (dsimp only))
  all_goals
    rename_i heq
    exact workloadInv_addToTrail heq h

theorem updateComplianceCheck_workload (db : Db) (user : User) (auditId : ObjectId)
    (standardsVerification : Option (List String)) (overallCompliance : Option String)
    (ip : String) (h : WorkloadInv db) :
    WorkloadInv
      (updateComplianceCheck db user auditId standardsVerification overallCompliance ip).2 := by
  unfold updateComplianceCheck
  repeat' (first | exact h | split | (intro _) | (dsimp only))
  all_goals
    rename_i heq
    exact workloadInv_addToTrail heq h

theorem validateReviewAssessment_workload (db : Db) (user : User) (auditId : ObjectId)
    (reviewValidation : Option ReviewValidationInput) (ip : String) (h : WorkloadInv db) :
    WorkloadInv (validateReviewAssessment db user auditId reviewValidation ip).2 := by
  unfold validateReviewAssessment
  repeat' (first | exact h | split | (intro _) | (dsimp only))
  all_goals
    rename_i heq
    exact workloadInv_addToTrail heq h

theorem Op.run_workload (op : Op) (db : Db) (h : WorkloadInv db) : WorkloadInv (op.run db).2 := by
  cases op with
  | assignReviewer => exact assignReviewer_workload _ _ _ _ _ _ h
  | assignAuditor => exact assignAuditor_workload _ _ _ _ _ _ h
  | startReview => exact startReview_workload _ _ _ _ h
  | updateReview => exact updateReview_workload _ _ _ _ _ _ h
  | submitReview => exact submitReview_workload _ _ _ _ h
  | startAudit => exact startAudit_workload _ _ _ _ _ h
  | updateAudit => exact updateAudit_workload _ _ _ _ _ h
  | submitAudit => exact submitAudit_workload _ _ _ _ _ _ _ h
  | addAuditFinding => exact addAuditFinding_workload _ _ _ _ _ h
  | updateComplianceCheck => exact updateComplianceCheck_workload _ _ _ _ _ _ h
  | validateReviewAssessment => exact validateReviewAssessment_workload _ _ _ _ _ h

theorem runAll_workload (ops : List Op) (db : Db) (h : WorkloadInv db) :
    WorkloadInv (runAll ops db) := by
  induction ops generalizing db with
  | nil => exact h
  | cons op ops ih => exact ih _ (Op.run_workload op db h)

/-- C4: starting from profiles with `0 <= workload.current <= workload.maximum`, every sequence
of workflow requests (assignReviewer, assignAuditor, startReview, startAudit, submitReview,
submitAudit and the other review and audit handlers) keeps every reviewer's and auditor's
workload inside `0 <= current <= maximum`; and an assignment to a profile that is at capacity or
whose availability is not `available` is refused and leaves the database as it was. -/
theorem workload_stays_within_capacity (db : Db) (h : WorkloadInv db) :
    (∀ ops : List Op, WorkloadInv (runAll ops db)) ∧
    (∀ (user : User) (documentId reviewerId : ObjectId) (dueDate : Option Date) (now : Date)
        (reviewer : Reviewer),
      db.findReviewer reviewerId = some reviewer →
      (reviewer.workload.maximum ≤ reviewer.workload.current ∨
        reviewer.availability ≠ "available") →
      (assignReviewer db user documentId reviewerId dueDate now).1.status ≠ 200 ∧
      (assignReviewer db user documentId reviewerId dueDate now).2 = db) ∧
    (∀ (user : User) (documentId auditorId : ObjectId) (dueDate : Option Date) (now : Date)
        (auditor : Auditor),
      db.findAuditor auditorId = some auditor →
      (auditor.workload.maximum ≤ auditor.workload.current ∨
        auditor.availability ≠ "available") →
      (assignAuditor db user documentId auditorId dueDate now).1.status ≠ 200 ∧
      (assignAuditor db user documentId auditorId dueDate now).2 = db) := by
  refine ⟨fun ops => runAll_workload ops db h, ?_, ?_⟩
  · intro user documentId reviewerId dueDate now reviewer hr hfull
    have hna : reviewer.isAvailable = false := by
      rcases hfull with hfull | hfull
      · simp [Reviewer.isAvailable, hfull]
      · simp [Reviewer.isAvailable, hfull]
    unfold assignReviewer
    rw [hr]
    cases db.findDocument documentId with
    | none => simp
    | some document => simp [hna]
  · intro user documentId auditorId dueDate now auditor ha hfull
    have hna : auditor.isAvailable = false := by
      rcases hfull with hfull | hfull
      · simp [Auditor.isAvailable, hfull]
      · simp [Auditor.isAvailable, hfull]
    unfold assignAuditor
    rw [ha]
    cases db.findDocument documentId with
    | none => simp
    | some document =>
      by_cases hs : document.status = "review_completed"
      · simp [hs, hna]
      · simp [hs]

/-- The workload bound of C4 on the sample workflow, and the refusals for a reviewer at capacity
and for an auditor who is not available. -/
theorem workload_stays_within_capacity_witness :
    WorkloadInv workflowDb ∧ WorkloadInv (runAll sampleFlow workflowDb) ∧
    (assignReviewer busyDb adminUser 3 1 (some 5000) 100).2 = busyDb ∧
    (assignAuditor busyDb adminUser 7 2 (some 9000) 100).2 = busyDb :=
  ⟨by decide!,
   (workload_stays_within_capacity workflowDb (by decide!)).1 sampleFlow,
   ((workload_stays_within_capacity busyDb (by decide!)).2.1 adminUser 3 1 (some 5000) 100
      { id := 1, user := 10, workload := { current := 10, maximum := 10 } } (by decide!)
      (by decide!)).2,
   ((workload_stays_within_capacity busyDb (by decide!)).2.2 adminUser 7 2 (some 9000) 100
      { id := 2, user := 20, availability := "busy" } (by decide!) (by decide!)).2⟩

/-! ### Lookups after a save -/

theorem findDocument_id {db : Db} {i : ObjectId} {d : Document}
    (h : db.findDocument i = some d) : d.id = i := by
  have := List.find?_some h
  simpa using this

theorem findReview_id {db : Db} {i : ObjectId} {r : Review}
    (h : db.findReview i = some r) : r.id = i := by
  have := List.find?_some h
  simpa using this

theorem findAudit_id {db : Db} {i : ObjectId} {a : Audit}
    (h : db.findAudit i = some a) : a.id = i := by
  have := List.find?_some h
  simpa using this

theorem findDocument_saveDocument (db : Db) (x : Document) (i : ObjectId) :
    (db.saveDocument x).findDocument i =
      (db.findDocument i).map fun d => if d.id = x.id then x else d := by
  simp only [Db.findDocument, Db.saveDocument, List.find?_map]
  congr 2
  funext d
  simp only [Function.comp]
  split
  · next h => rw [h]
  · rfl

theorem findReview_saveReview (db : Db) (x : Review) (i : ObjectId) :
    (db.saveReview x).findReview i =
      (db.findReview i).map fun r => if r.id = x.id then x else r := by
  simp only [Db.findReview, Db.saveReview, List.find?_map]
  congr 2
  funext r
  simp only [Function.comp]
  split
  · next h => rw [h]
  · rfl

theorem findDocument_saveDocument_self {db : Db} {i : ObjectId} {d x : Document}
    (h : db.findDocument i = some d) (hx : x.id = d.id) :
    (db.saveDocument x).findDocument i = some x := by
  rw [findDocument_saveDocument, h]
  simp [hx]

/-! ### Assigning an auditor -/

theorem guarded_refl (db : Db) : AuditAssignmentGuarded db db := by
  intro i d d' h h' hs
  rw [h] at h'
  cases h'
  exact Or.inl hs

theorem guarded_save {db db' : Db} {x : Document}
    (hdocs : db'.documents = (db.saveDocument x).documents)
    (hx : x.status = "assigned_for_audit" →
      ∀ d, db.findDocument x.id = some d → d.status = "review_completed") :
    AuditAssignmentGuarded db db' := by
  intro i d d' h h' hs
  have h2 : db'.findDocument i = (db.saveDocument x).findDocument i := by
    simp only [Db.findDocument, hdocs]
  rw [h2, findDocument_saveDocument, h] at h'
  simp only [Option.map_some', Option.some.injEq] at h'
  by_cases hid : d.id = x.id
  · rw [if_pos hid] at h'
    rw [← h'] at hs
    have hi : x.id = i := by rw [← hid]; exact findDocument_id h
    rw [← hi] at h
    exact Or.inr (hx hs d h)
  · rw [if_neg hid] at h'
    rw [← h'] at hs
    exact Or.inl hs

theorem guarded_addToTrail {db db0 db' : Db} {audit : Audit} {action : String}
    {u : ObjectId} {details : List String} {ip : String}
    (heq : addToTrail db audit action u details ip = some db')
    (h : AuditAssignmentGuarded db0 db) : AuditAssignmentGuarded db0 db' := by
  rw [addToTrail_eq heq]
  exact h

theorem documentStatusFor_eq (outcome : String) :
    documentStatusFor outcome = outcomeTable outcome := by
  unfold documentStatusFor outcomeTable statusMap
  simp only [List.lookup]
  repeat' split
  all_goals simp_all

theorem documentStatusFor_ne (outcome : String) :
    documentStatusFor outcome ≠ "assigned_for_audit" := by
  rw [documentStatusFor_eq]
  unfold outcomeTable
  repeat' split
  all_goals decide

theorem startReviewFinish_guarded (db0 db : Db) (document : Document) (reviewer : Reviewer)
    (h : db.documents = db0.documents) :
    AuditAssignmentGuarded db0 (startReviewFinish db document reviewer).2 := by
  unfold startReviewFinish
  repeat' (first | split | (dsimp only))
  all_goals
    refine guarded_save (x := { document with status := "under_review" }) ?_ ?_
    · simp only [Db.saveDocument, Db.saveReviewer, h]
    · intro hs
      exact absurd hs (by decide : ("under_review" : String) ≠ "assigned_for_audit")

theorem startAuditFinish_guarded (db0 db : Db) (document : Document) (auditor : Auditor)
    (h : db.documents = db0.documents) :
    AuditAssignmentGuarded db0 (startAuditFinish db document auditor).2 := by
  unfold startAuditFinish
  repeat' (first | split | (dsimp only))
  all_goals
    refine guarded_save (x := { document with status := "under_audit" }) ?_ ?_
    · simp only [Db.saveDocument, Db.saveAuditor, h]
    · intro hs
      exact absurd hs (by decide : ("under_audit" : String) ≠ "assigned_for_audit")

theorem assignReviewer_guarded (db : Db) (user : User) (documentId reviewerId : ObjectId)
    (dueDate : Option Date) (now : Date) :
    AuditAssignmentGuarded db (assignReviewer db user documentId reviewerId dueDate now).2 := by
  unfold assignReviewer
  repeat' (first | exact guarded_refl db | split | (dsimp only))
  all_goals
    refine guarded_save rfl ?_
    intro hs
    exact absurd hs (by decide : ("assigned_for_review" : String) ≠ "assigned_for_audit")

theorem assignAuditor_guarded (db : Db) (user : User) (documentId auditorId : ObjectId)
    (dueDate : Option Date) (now : Date) :
    AuditAssignmentGuarded db (assignAuditor db user documentId auditorId dueDate now).2 := by
  unfold assignAuditor
  repeat' (first | exact guarded_refl db | split | (dsimp only))
  all_goals
    rename_i document auditor hdoc _ hstatus _ _
    refine guarded_save rfl ?_
    intro _ d hd
    have hid : document.id = documentId := findDocument_id hdoc
    simp only [hid, hdoc, Option.some.injEq] at hd
    subst hd
    exact not_not.mp hstatus

theorem startReview_guarded (db : Db) (user : User) (documentId : ObjectId) (now : Date) :
    AuditAssignmentGuarded db (startReview db user documentId now).2 := by
  unfold startReview
  repeat' (first | exact guarded_refl db | split | (dsimp only))
  all_goals exact startReviewFinish_guarded db _ _ _ rfl

theorem updateReview_guarded (db : Db) (user : User) (reviewId : ObjectId)
    (body : ReviewUpdates) (reason : Option String) (now : Date) :
    AuditAssignmentGuarded db (updateReview db user reviewId body reason now).2 := by
  unfold updateReview
  repeat' (first | exact guarded_refl db | split | (dsimp only))

theorem submitReview_guarded (db : Db) (user : User) (reviewId : ObjectId) (now : Date) :
    AuditAssignmentGuarded db (submitReview db user reviewId now).2 := by
  unfold submitReview
  repeat' (first | exact guarded_refl db | split | (dsimp only))
  all_goals
    refine guarded_save rfl ?_
    intro hs
    exact absurd hs (by decide : ("review_completed" : String) ≠ "assigned_for_audit")

theorem startAudit_guarded (db : Db) (user : User) (documentId : ObjectId) (ip : String)
    (now : Date) : AuditAssignmentGuarded db (startAudit db user documentId ip now).2 := by
  unfold startAudit
  repeat' (first | exact guarded_refl db | split | (dsimp only))
  · exact startAuditFinish_guarded db _ _ _ rfl
  · rename_i heq
    exact startAuditFinish_guarded db _ _ _ (by rw [addToTrail_eq heq]; rfl)

theorem updateAudit_guarded (db : Db) (user : User) (auditId : ObjectId)
    (updates : AuditUpdates) (ip : String) :
    AuditAssignmentGuarded db (updateAudit db user auditId updates ip).2 := by
  unfold updateAudit
  repeat' (first | exact guarded_refl db | split | (dsimp only))
  all_goals
    rename_i heq
    exact guarded_addToTrail heq (guarded_refl db)

theorem submitAudit_guarded (db : Db) (user : User) (auditId : ObjectId)
    (finalDecision : Option FinalDecision) (digitalSignature : Option String) (ip : String)
    (now : Date) :
    AuditAssignmentGuarded db
      (submitAudit db user auditId finalDecision digitalSignature ip now).2 := by
  unfold submitAudit
  repeat' (first | exact guarded_refl db | split | (dsimp only))
  all_goals first
    | (refine guarded_save rfl ?_
       intro hs
       exact absurd hs (documentStatusFor_ne _))
    | (rename_i heq
       refine guarded_addToTrail heq (guarded_save rfl ?_)
       intro hs
       exact absurd hs (documentStatusFor_ne _))

theorem addAuditFinding_guarded (db : Db) (user : User) (auditId : ObjectId)
    (finding : Finding) (ip : String) :
    AuditAssignmentGuarded db (addAuditFinding db user auditId finding ip).2 := by
  unfold addAuditFinding
  repeat' (first | exact guarded_refl db | split | (dsimp only))
  all_goals
    rename_i heq
    exact guarded_addToTrail heq (guarded_refl db)

theorem updateComplianceCheck_guarded (db : Db) (user : User) (auditId : ObjectId)
    (standardsVerification : Option (List String)) (overallCompliance : Option String)
    (ip : String) :
    AuditAssignmentGuarded db
      (updateComplianceCheck db user auditId standardsVerification overallCompliance ip).2 := by
  unfold updateComplianceCheck
  repeat' (first | exact guarded_refl db | split | (dsimp only))
  all_goals
    rename_i heq
    exact guarded_addToTrail heq (guarded_refl db)

theorem validateReviewAssessment_guarded (db : Db) (user : User) (auditId : ObjectId)
    (reviewValidation : Option ReviewValidationInput) (ip : String) :
    AuditAssignmentGuarded db
      (validateReviewAssessment db user auditId reviewValidation ip).2 := by
  unfold validateReviewAssessment
  repeat' (first | exact guarded_refl db | split | (dsimp only))
  all_goals
    rename_i heq
    exact guarded_addToTrail heq (guarded_refl db)

theorem Op.run_guarded (op : Op) (db : Db) : AuditAssignmentGuarded db (op.run db).2 := by
  cases op with
  | assignReviewer => exact assignReviewer_guarded _ _ _ _ _ _
  | assignAuditor => exact assignAuditor_guarded _ _ _ _ _ _
  | startReview => exact startReview_guarded _ _ _ _
  | updateReview => exact updateReview_guarded _ _ _ _ _ _
  | submitReview => exact submitReview_guarded _ _ _ _
  | startAudit => exact startAudit_guarded _ _ _ _ _
  | updateAudit => exact updateAudit_guarded _ _ _ _ _
  | submitAudit => exact submitAudit_guarded _ _ _ _ _ _ _
  | addAuditFinding => exact addAuditFinding_guarded _ _ _ _ _
  | updateComplianceCheck => exact updateComplianceCheck_guarded _ _ _ _ _ _
  | validateReviewAssessment => exact validateReviewAssessment_guarded _ _ _ _ _

/-- C2: `assignAuditor` answers 200 only for a document whose status is `review_completed`;
for a document in any other status (in particular `uploaded`) it fails and leaves the whole
database, document and auditor included, as it was; and no workflow request (the admin status
override apart) moves a document into `assigned_for_audit` from a status other than
`review_completed`. -/
theorem assignAuditor_requires_review_completed (db : Db) (user : User)
    (documentId auditorId : ObjectId) (dueDate : Option Date) (now : Date) :
    ((assignAuditor db user documentId auditorId dueDate now).1.status = 200 →
      ∃ document, db.findDocument documentId = some document ∧
        document.status = "review_completed") ∧
    (∀ document, db.findDocument documentId = some document →
      document.status ≠ "review_completed" →
      (assignAuditor db user documentId auditorId dueDate now).1.status ≠ 200 ∧
      (assignAuditor db user documentId auditorId dueDate now).2 = db) ∧
    (∀ (op : Op) (i : ObjectId) (d d' : Document),
      db.findDocument i = some d → (op.run db).2.findDocument i = some d' →
      d.status ≠ "assigned_for_audit" → d'.status = "assigned_for_audit" →
      d.status = "review_completed") := by
  refine ⟨?_, ?_, ?_⟩
  · unfold assignAuditor
    cases hd : db.findDocument documentId with
    | none => simp
    | some document =>
      cases db.findAuditor auditorId with
      | none => simp
      | some auditor =>
        by_cases hs : document.status = "review_completed"
        · intro _
          exact ⟨document, rfl, hs⟩
        · simp [hs]
  · intro document hd hs
    unfold assignAuditor
    rw [hd]
    cases db.findAuditor auditorId with
    | none => simp
    | some auditor => simp [hs]
  · intro op i d d' hd hd' hne hs
    rcases Op.run_guarded op db i d d' hd hd' hs with h | h
    · exact absurd h hne
    · exact h

/-- The guard of C2 on an uploaded document, and a successful assignment after the review. -/
theorem assignAuditor_requires_review_completed_witness :
    ((assignAuditor workflowDb adminUser 3 2 (some 9000) 100).1.status ≠ 200 ∧
      (assignAuditor workflowDb adminUser 3 2 (some 9000) 100).2 = workflowDb) ∧
    (∃ document, reviewedDb.findDocument 3 = some document ∧
      document.status = "review_completed") :=
  ⟨(assignAuditor_requires_review_completed workflowDb adminUser 3 2 (some 9000) 100).2.1
      { id := 3, title := "report", institute := 4 } (by decide!) (by decide!),
   (assignAuditor_requires_review_completed reviewedDb adminUser 3 2 (some 9000) 400).1
      (by decide!)⟩

/-! ### The document status after an audit -/

theorem findDocument_saveAudit (db : Db) (a : Audit) (i : ObjectId) :
    (db.saveAudit a).findDocument i = db.findDocument i := rfl

/-- Saving a document with a new status changes the lookup of that document only. -/
theorem findDocument_after_status_write {db db' : Db} {i j : ObjectId} {doc document : Document}
    (outcome : String) (hd : db.findDocument i = some doc)
    (hdoc : db.findDocument j = some document)
    (hdocs : db'.documents =
      (db.saveDocument { document with status := documentStatusFor outcome }).documents) :
    db'.findDocument i = some doc ∨
      db'.findDocument i = some { doc with status := outcomeTable outcome } := by
  have h : db'.findDocument i =
      (db.saveDocument { document with status := documentStatusFor outcome }).findDocument i := by
    simp only [Db.findDocument, hdocs]
  rw [h, findDocument_saveDocument, hd]
  simp only [Option.map_some', Option.some.injEq]
  by_cases hid : doc.id = document.id
  · right
    have hij : i = j := by
      rw [← findDocument_id hd, ← findDocument_id hdoc, hid]
    subst hij
    rw [hd] at hdoc
    cases hdoc
    simp [documentStatusFor_eq]
  · left
    simp [hid]

/-- Whatever its answer, `submitAudit` either leaves a document as it was or stores on it the
status that the outcome table gives, all other fields kept. -/
theorem submitAudit_document_write (db : Db) (user : User) (auditId : ObjectId)
    (finalDecision : Option FinalDecision) (digitalSignature : Option String) (ip : String)
    (now : Date) (i : ObjectId) (doc : Document) (hd : db.findDocument i = some doc) :
    (submitAudit db user auditId finalDecision digitalSignature ip now).2.findDocument i
      = some doc ∨
    ∃ decision outcome, finalDecision = some decision ∧ decision.outcome = some outcome ∧
      (submitAudit db user auditId finalDecision digitalSignature ip now).2.findDocument i
        = some { doc with status := outcomeTable outcome } := by
  generalize hres : submitAudit db user auditId finalDecision digitalSignature ip now = res
  unfold submitAudit at hres
  cases ha : db.findAudit auditId with
  | none =>
    simp only [ha] at hres
    subst hres
    exact Or.inl hd
  | some audit =>
    cases finalDecision with
    | none =>
      simp only [ha] at hres
      repeat' (first | split at hres | (dsimp only at hres))
      all_goals subst hres
      all_goals exact Or.inl hd
    | some decision =>
      cases ho : decision.outcome with
      | none =>
        simp only [ha, ho] at hres
        repeat' (first | split at hres | (dsimp only at hres))
        all_goals subst hres
        all_goals exact Or.inl hd
      | some outcome =>
        cases hdoc : db.findDocument audit.document with
        | none =>
          simp only [ha, ho, findDocument_saveAudit, hdoc] at hres
          repeat' (first | split at hres | (dsimp only at hres))
          all_goals subst hres
          all_goals exact Or.inl hd
        | some document =>
          have key : ∀ db' : Db, db'.documents =
              (db.saveDocument { document with status := documentStatusFor outcome }).documents →
              db'.findDocument i = some doc ∨
              ∃ decision' outcome', some decision = some decision' ∧
                decision'.outcome = some outcome' ∧
                db'.findDocument i = some { doc with status := outcomeTable outcome' } := by
            intro db' hdocs
            rcases findDocument_after_status_write outcome hd hdoc hdocs with h | h
            · exact Or.inl h
            · exact Or.inr ⟨decision, outcome, rfl, ho, h⟩
          simp only [ha, ho, findDocument_saveAudit, hdoc] at hres
          repeat' (first | split at hres | (dsimp only at hres))
          all_goals subst hres
          all_goals first
            | exact Or.inl hd
            | exact key _ rfl
            | (rename_i heq
               exact key _ (by rw [addToTrail_eq heq]; rfl))

/-- C3: when `submitAudit` succeeds, the status it has stored on the audited document is given
by the outcome alone: `approved` and `approved_with_conditions` give `approved`, `rejected`
gives `rejected`, `requires_revision` gives `revision_required`, anything else would give
`audit_completed`. The same table governs every write of `submitAudit` to a document, also
when a later step of the handler fails: a document is left as it was or gets the table's
status for the outcome. -/
theorem submitAudit_document_status (db : Db) (user : User) (auditId : ObjectId)
    (finalDecision : Option FinalDecision) (digitalSignature : Option String) (ip : String)
    (now : Date) :
    ((submitAudit db user auditId finalDecision digitalSignature ip now).1.status = 200 →
      ∃ audit decision outcome, db.findAudit auditId = some audit ∧
        finalDecision = some decision ∧ decision.outcome = some outcome ∧
        ((submitAudit db user auditId finalDecision digitalSignature ip now).2.findDocument
          audit.document).map (fun d => d.status) = some (outcomeTable outcome)) ∧
    (∀ (i : ObjectId) (doc : Document), db.findDocument i = some doc →
      (submitAudit db user auditId finalDecision digitalSignature ip now).2.findDocument i
        = some doc ∨
      ∃ decision outcome, finalDecision = some decision ∧ decision.outcome = some outcome ∧
        (submitAudit db user auditId finalDecision digitalSignature ip now).2.findDocument i
          = some { doc with status := outcomeTable outcome }) ∧
    outcomeTable "approved" = "approved" ∧
    outcomeTable "approved_with_conditions" = "approved" ∧
    outcomeTable "rejected" = "rejected" ∧
    outcomeTable "requires_revision" = "revision_required" ∧
    (∀ outcome, outcome ∉ outcomeEnum → outcomeTable outcome = "audit_completed") := by
  refine ⟨?_, fun i doc hd => submitAudit_document_write db user auditId finalDecision
    digitalSignature ip now i doc hd, by decide, by decide, by decide, by decide, ?_⟩
  · intro hok
    generalize hres : submitAudit db user auditId finalDecision digitalSignature ip now = res
      at hok ⊢
    unfold submitAudit at hres
    repeat' (first | split at hres | (dsimp only at hres))
    all_goals subst hres
    all_goals try (simp [validationError, typeError] at hok; done)
    rename_i _ audit ha _ auditor hau hown _ decision _ outcome ho hj hv _ document hdoc _
      startedAt hst hav _ db' heq
    refine ⟨audit, decision, outcome, ha, rfl, ho, ?_⟩
    rw [addToTrail_eq heq]
    have hfind := findDocument_saveDocument_self
      (x := { document with status := documentStatusFor outcome }) hdoc rfl
    simp only [Db.findDocument, Db.saveAudit, Db.saveAuditor, Db.saveDocument] at hfind ⊢
    rw [hfind]
    simp [documentStatusFor_eq]
  · intro outcome hnot
    simp only [outcomeEnum, List.mem_cons, List.mem_singleton, List.not_mem_nil, or_false,
      not_or] at hnot
    simp [outcomeTable, hnot.1, hnot.2.1, hnot.2.2.1, hnot.2.2.2]

/-- The table of C3 on a successful submit with outcome `rejected`, and on the document write of
a submit with outcome `requires_revision`. -/
theorem submitAudit_document_status_witness :
    (∃ audit decision outcome, startedAuditDb.findAudit 6 = some audit ∧
      some rejectedDecision = some decision ∧ decision.outcome = some outcome ∧
      ((submitAudit startedAuditDb auditorUser 6 (some rejectedDecision) none "10.0.0.1"
        8000).2.findDocument audit.document).map (fun d => d.status)
        = some (outcomeTable outcome)) ∧
    ((submitAudit startedAuditDb auditorUser 6 (some revisionDecision) none "10.0.0.1"
        8000).2.findDocument 3 = some startedDocument ∨
      ∃ decision outcome, some revisionDecision = some decision ∧
        decision.outcome = some outcome ∧
        (submitAudit startedAuditDb auditorUser 6 (some revisionDecision) none "10.0.0.1"
          8000).2.findDocument 3 = some { startedDocument with status := outcomeTable outcome }) :=
  ⟨(submitAudit_document_status startedAuditDb auditorUser 6 (some rejectedDecision) none
      "10.0.0.1" 8000).1 (by decide!),
   (submitAudit_document_status startedAuditDb auditorUser 6 (some revisionDecision) none
      "10.0.0.1" 8000).2.1 3 startedDocument (by decide!)⟩

/-! ### The status guard of `updateReview` -/

/-- C6 (amended): for the owner of a review, `updateReview` is refused with "Cannot update
submitted review", the database left as it was, exactly when the review's status is
`submitted`. In every other status (`draft`, `under_audit`, `approved`,
`returned_for_revision`) an update whose `reviewData` passes the validators succeeds and appends
one entry to `revisionHistory`. -/
theorem updateReview_status_guard (db : Db) (user : User) (reviewId : ObjectId)
    (body : ReviewUpdates) (reason : Option String) (now : Date) (review : Review)
    (reviewer : Reviewer) (hreview : db.findReview reviewId = some review)
    (hprofile : db.reviewerOfUser user.id = some reviewer)
    (hown : review.reviewer = reviewer.id) :
    (review.status = "submitted" →
      updateReview db user reviewId body reason now =
        (⟨400, "Cannot update submitted review"⟩, db)) ∧
    (review.status ≠ "submitted" →
      (∀ p, body.reviewData = some p → p.stored.valid = true) →
      (updateReview db user reviewId body reason now).1.status = 200 ∧
      ((updateReview db user reviewId body reason now).2.findReview reviewId).map
        (fun r => (r.status, r.revisionHistory.length))
        = some (review.status, review.revisionHistory.length + 1)) := by
  constructor
  · intro hs
    unfold updateReview
    simp [hreview, hprofile, hown, hs]
  · intro hs hvalid
    have hacc : (match body.reviewData with
        | some p => p.stored.valid
        | none => true) = true := by
      cases hb : body.reviewData with
      | none => rfl
      | some p => exact hvalid p hb
    have hid : review.id = reviewId := findReview_id hreview
    unfold updateReview
    simp only [hreview, hprofile, hown, hs, hacc, ne_eq, not_true_eq_false, if_false,
      Bool.not_true, Bool.false_eq_true, findReview_saveReview, Option.map_some', hid, if_true,
      List.length_append, List.length_singleton, and_self]

/-- The amended C6 on a review whose status is `under_audit`. -/
theorem updateReview_status_guard_witness :
    (updateReview underAuditDb reviewerUser 5 (criteriaBody scenarioCriteria) none 1000).1.status
      = 200 ∧
    ((updateReview underAuditDb reviewerUser 5 (criteriaBody scenarioCriteria) none
      1000).2.findReview 5).map (fun r => (r.status, r.revisionHistory.length))
      = some ("under_audit", 0 + 1) :=
  (updateReview_status_guard underAuditDb reviewerUser 5 (criteriaBody scenarioCriteria) none 1000
    { draftReview with status := "under_audit" } sampleReviewer (by decide!) (by decide!)
    (by decide!)).2 (by decide!) (by
      intro p hp
      cases hp
      decide!)

/-! ### Completed audits carry a decision -/

theorem auditInv_saveAudit {db : Db} (h : AuditInv db) {a : Audit}
    (ha : a.status = "completed" → a.decisionPresent = true) : AuditInv (db.saveAudit a) := by
  intro x hx
  simp only [Db.saveAudit, List.mem_map] at hx
  obtain ⟨y, hy, rfl⟩ := hx
  split
  · exact ha
  · exact h y hy

theorem auditInv_addToTrail {db db' : Db} {audit : Audit} {action : String} {u : ObjectId}
    {details : List String} {ip : String}
    (heq : addToTrail db audit action u details ip = some db') (h : AuditInv db)
    (ha : audit.status = "completed" → audit.decisionPresent = true) : AuditInv db' := by
  rw [addToTrail_eq heq]
  exact auditInv_saveAudit h ha

theorem auditInv_insert {db : Db} (h : AuditInv db) (a : Audit) (n : ObjectId)
    (ha : a.status = "completed" → a.decisionPresent = true) :
    AuditInv { db with audits := db.audits ++ [a], nextId := n } := by
  intro x hx
  simp only [List.mem_append, List.mem_singleton] at hx
  rcases hx with hx | rfl
  · exact h x hx
  · exact ha

theorem decisionPresent_of_guard {decision : FinalDecision} {outcome : String}
    (ho : decision.outcome = some outcome)
    (hj : ¬(decide (outcome = "") || !strTruthy decision.justification) = true) :
    (strTruthy decision.outcome && strTruthy decision.justification) = true := by
  simp only [Bool.or_eq_true, decide_eq_true_eq, Bool.not_eq_true', not_or,
    Bool.not_eq_false] at hj
  have h1 : strTruthy decision.outcome = true := by simp [strTruthy, ho, hj.1]
  rw [h1, hj.2]
  rfl

theorem assigned_ne_completed : ("assigned" : String) ≠ "completed" := by decide

theorem startAuditFinish_auditInv (db : Db) (document : Document) (auditor : Auditor)
    (h : AuditInv db) : AuditInv (startAuditFinish db document auditor).2 := by
  unfold startAuditFinish
  repeat' (first | exact h | split | (dsimp only))

theorem startReviewFinish_auditInv (db : Db) (document : Document) (reviewer : Reviewer)
    (h : AuditInv db) : AuditInv (startReviewFinish db document reviewer).2 := by
  unfold startReviewFinish
  repeat' (first | exact h | split | (dsimp only))

theorem assignReviewer_auditInv (db : Db) (user : User) (documentId reviewerId : ObjectId)
    (dueDate : Option Date) (now : Date) (h : AuditInv db) :
    AuditInv (assignReviewer db user documentId reviewerId dueDate now).2 := by
  unfold assignReviewer
  repeat' (first | exact h | split | (dsimp only))

theorem assignAuditor_auditInv (db : Db) (user : User) (documentId auditorId : ObjectId)
    (dueDate : Option Date) (now : Date) (h : AuditInv db) :
    AuditInv (assignAuditor db user documentId auditorId dueDate now).2 := by
  unfold assignAuditor
  repeat' (first | exact h | split | (dsimp only))

theorem startReview_auditInv (db : Db) (user : User) (documentId : ObjectId) (now : Date)
    (h : AuditInv db) : AuditInv (startReview db user documentId now).2 := by
  unfold startReview
  repeat' (first | exact h | split | (dsimp only))
  all_goals exact startReviewFinish_auditInv _ _ _ h

theorem updateReview_auditInv (db : Db) (user : User) (reviewId : ObjectId)
    (body : ReviewUpdates) (reason : Option String) (now : Date) (h : AuditInv db) :
    AuditInv (updateReview db user reviewId body reason now).2 := by
  unfold updateReview
  repeat' (first | exact h | split | (dsimp only))

theorem submitReview_auditInv (db : Db) (user : User) (reviewId : ObjectId) (now : Date)
    (h : AuditInv db) : AuditInv (submitReview db user reviewId now).2 := by
  unfold submitReview
  repeat' (first | exact h | split | (dsimp only))

theorem startAudit_auditInv (db : Db) (user : User) (documentId : ObjectId) (ip : String)
    (now : Date) (h : AuditInv db) : AuditInv (startAudit db user documentId ip now).2 := by
  unfold startAudit
  repeat' (first | exact h | split | (dsimp only))
  · exact startAuditFinish_auditInv _ _ _ h
  · exact auditInv_insert h _ _ (fun hc => absurd hc assigned_ne_completed)
  · rename_i heq
    exact startAuditFinish_auditInv _ _ _
      (auditInv_addToTrail heq (auditInv_insert h _ _ (fun hc => absurd hc assigned_ne_completed))
        (fun hc => absurd hc assigned_ne_completed))

theorem updateAudit_auditInv (db : Db) (user : User) (auditId : ObjectId)
    (updates : AuditUpdates) (ip : String) (h : AuditInv db) :
    AuditInv (updateAudit db user auditId updates ip).2 := by
  unfold updateAudit
  cases ha : db.findAudit auditId with
  | none => exact h
  | some audit =>
    by_cases hc : audit.status = "completed"
    · simp only [hc, if_true]
      repeat' (first | exact h | split)
    · simp only [hc, if_false]
      repeat' (first | exact h | split | (dsimp only))
      all_goals first
        | exact auditInv_saveAudit h (fun hc' => absurd hc' hc)
        | (rename_i heq
           exact auditInv_addToTrail heq (auditInv_saveAudit h (fun hc' => absurd hc' hc))
             (fun hc' => absurd hc' hc))

theorem submitAudit_auditInv (db : Db) (user : User) (auditId : ObjectId)
    (finalDecision : Option FinalDecision) (digitalSignature : Option String) (ip : String)
    (now : Date) (h : AuditInv db) :
    AuditInv (submitAudit db user auditId finalDecision digitalSignature ip now).2 := by
  unfold submitAudit
  cases ha : db.findAudit auditId with
  | none => exact h
  | some audit =>
    cases finalDecision with
    | none =>
      dsimp only
      repeat' (first | exact h | split)
    | some decision =>
      dsimp only
      cases ho : decision.outcome with
      | none =>
        repeat' (first | exact h | split)
      | some outcome =>
        by_cases hj : (decide (outcome = "") || !strTruthy decision.justification) = true
        · simp only [hj, if_true]
          repeat' (first | exact h | split)
        · have hp := decisionPresent_of_guard ho hj
          simp only [hj, if_false]
          repeat' (first | exact h | split | (dsimp only))
          all_goals first
            | exact auditInv_saveAudit h (fun _ => hp)
            | (rename_i heq
               exact auditInv_addToTrail heq (auditInv_saveAudit h (fun _ => hp)) (fun _ => hp))

theorem addAuditFinding_auditInv (db : Db) (user : User) (auditId : ObjectId)
    (finding : Finding) (ip : String) (h : AuditInv db) :
    AuditInv (addAuditFinding db user auditId finding ip).2 := by
  unfold addAuditFinding
  cases ha : db.findAudit auditId with
  | none => exact h
  | some audit =>
    have hp := h audit (findAudit_mem ha)
    dsimp only
    repeat' (first | exact h | split | (dsimp only))
    all_goals first
      | exact auditInv_saveAudit h hp
      | (rename_i heq
         exact auditInv_addToTrail heq (auditInv_saveAudit h hp) hp)

theorem updateComplianceCheck_auditInv (db : Db) (user : User) (auditId : ObjectId)
    (standardsVerification : Option (List String)) (overallCompliance : Option String)
    (ip : String) (h : AuditInv db) :
    AuditInv
      (updateComplianceCheck db user auditId standardsVerification overallCompliance ip).2 := by
  unfold updateComplianceCheck
  cases ha : db.findAudit auditId with
  | none => exact h
  | some audit =>
    have hp := h audit (findAudit_mem ha)
    dsimp only
    repeat' (first | exact h | split | (dsimp only))
    all_goals first
      | exact auditInv_saveAudit h hp
      | (rename_i heq
         exact auditInv_addToTrail heq (auditInv_saveAudit h hp) hp)

theorem validateReviewAssessment_auditInv (db : Db) (user : User) (auditId : ObjectId)
    (reviewValidation : Option ReviewValidationInput) (ip : String) (h : AuditInv db) :
    AuditInv (validateReviewAssessment db user auditId reviewValidation ip).2 := by
  unfold validateReviewAssessment
  cases ha : db.findAudit auditId with
  | none => exact h
  | some audit =>
    have hp := h audit (findAudit_mem ha)
    dsimp only
    repeat' (first | exact h | split | (dsimp only))
    all_goals first
      | exact auditInv_saveAudit h hp
      | (rename_i heq
         exact auditInv_addToTrail heq (auditInv_saveAudit h hp) hp)

theorem Op.run_auditInv (op : Op) (db : Db) (h : AuditInv db) : AuditInv (op.run db).2 := by
  cases op with
  | assignReviewer => exact assignReviewer_auditInv _ _ _ _ _ _ h
  | assignAuditor => exact assignAuditor_auditInv _ _ _ _ _ _ h
  | startReview => exact startReview_auditInv _ _ _ _ h
  | updateReview => exact updateReview_auditInv _ _ _ _ _ _ h
  | submitReview => exact submitReview_auditInv _ _ _ _ h
  | startAudit => exact startAudit_auditInv _ _ _ _ _ h
  | updateAudit => exact updateAudit_auditInv _ _ _ _ _ h
  | submitAudit => exact submitAudit_auditInv _ _ _ _ _ _ _ h
  | addAuditFinding => exact addAuditFinding_auditInv _ _ _ _ _ h
  | updateComplianceCheck => exact updateComplianceCheck_auditInv _ _ _ _ _ _ h
  | validateReviewAssessment => exact validateReviewAssessment_auditInv _ _ _ _ _ h

theorem runAll_auditInv (ops : List Op) (db : Db) (h : AuditInv db) :
    AuditInv (runAll ops db) := by
  induction ops generalizing db with
  | nil => exact h
  | cons op ops ih => exact ih _ (Op.run_auditInv op db h)

/-- C9 (amended): in every state reached through startAudit, updateAudit, addAuditFinding,
updateComplianceCheck, validateReviewAssessment and submitAudit (and the other workflow
requests), an audit whose status is `completed` has both `finalDecision.outcome` and
`finalDecision.justification` present. The converse is not claimed. -/
theorem completed_audit_has_decision (db : Db) (h : AuditInv db) (ops : List Op) :
    ∀ a ∈ (runAll ops db).audits, a.status = "completed" →
      strTruthy a.finalDecision.outcome = true ∧
      strTruthy a.finalDecision.justification = true := by
  intro a ha hc
  have hp := runAll_auditInv ops db h a ha hc
  simpa [Audit.decisionPresent] using hp

/-- The amended C9 on the audit of document 3, started and then submitted. -/
theorem completed_audit_has_decision_witness :
    AuditInv auditDb ∧
    ∀ a ∈ (runAll
        [.startAudit auditorUser 3 "10.0.0.1" 4000,
         .submitAudit auditorUser 6 (some rejectedDecision) none "10.0.0.1" 8000]
        auditDb).audits,
      a.status = "completed" →
      strTruthy a.finalDecision.outcome = true ∧
      strTruthy a.finalDecision.justification = true :=
  ⟨by decide!, completed_audit_has_decision auditDb (by decide!) _⟩

/-! ### One active assignment per document -/

/-- C11 (defect in the code): `assignReviewer` never looks at the document's status or at an
existing assignment. From an uploaded document, assigning reviewer 1 and then reviewer 8 both
succeed; the document is then referenced by two non-completed ledger entries, one in each
reviewer's ledger. `assignAuditor`, its sibling, refuses a second assignment through its status
guard. -/
theorem assignReviewer_twice_both_active :
    (uploadedDb.findDocument 3).map (fun d => d.status) = some "uploaded" ∧
    (assignReviewer uploadedDb adminUser 3 1 (some 5000) 100).1.status = 200 ∧
    activeReviewerEntries assignedDb 3 = 1 ∧
    (assignReviewer assignedDb adminUser 3 8 (some 6000) 200).1.status = 200 ∧
    (assignReviewer assignedDb adminUser 3 8 (some 6000) 200).2 = assignedTwiceDb ∧
    activeReviewerEntries assignedTwiceDb 3 = 2 ∧
    (assignedTwiceDb.findReviewer 1).map (fun r => r.assignedDocuments) =
      some [{ document := 3, dueDate := some 5000, status := "assigned" }] ∧
    (assignedTwiceDb.findReviewer 8).map (fun r => r.assignedDocuments) =
      some [{ document := 3, dueDate := some 6000, status := "assigned" }] := by
  decide!

/-! ### Starting a review -/

/-- C12 (defect in the code): document 3 is assigned to the calling reviewer and no Review
exists for the pair, yet `startReview` fails: the Review it creates has no
`reviewData.overallScore`, which the schema requires, so `Review.create` is rejected. No Review
is stored and the document stays `assigned_for_review`. -/
theorem startReview_create_rejected :
    (assignedDb.findDocument 3).map (fun d => (d.status, d.assignedReviewer, d.dueReview)) =
      some ("assigned_for_review", some 1, some 5000) ∧
    (assignedDb.reviewerOfUser reviewerUser.id).map (fun r => r.id) = some 1 ∧
    assignedDb.reviewsOf 3 1 = [] ∧
    startReview assignedDb reviewerUser 3 200 = (validationError, assignedDb) := by
  decide!

/-- C13 (defect in the code): with no Review stored for the pair, two calls of `startReview`
both fail, no Review id is returned and the number of stored Reviews for the pair is 0
afterwards, not 1. -/
theorem startReview_twice_without_review :
    assignedDb.reviewsOf 3 1 = [] ∧
    (startReview assignedDb reviewerUser 3 200).1.status = 400 ∧
    startReviewData assignedDb reviewerUser 3 200 = none ∧
    (startReview (startReview assignedDb reviewerUser 3 200).2 reviewerUser 3 300).1.status
      = 400 ∧
    startReviewData (startReview assignedDb reviewerUser 3 200).2 reviewerUser 3 300 = none ∧
    ((startReview (startReview assignedDb reviewerUser 3 200).2 reviewerUser 3 300).2.reviewsOf
      3 1).length = 0 := by
  decide!

/-- C14 (defect in the code): a document without an assignee makes the ownership test
`document.assignedReviewer.toString()` throw. `startReview` on the uploaded, unassigned
document 3 answers 500, not 403; `startAudit` on the reviewed document 3, which has a submitted
review and no auditor yet, answers 500 as well. Nothing is written in either case. -/
theorem start_on_unassigned_document_throws :
    (uploadedDb.findDocument 3).map (fun d => d.assignedReviewer) = some none ∧
    startReview uploadedDb reviewerUser 3 200 = (typeError, uploadedDb) ∧
    (reviewedDb.findDocument 3).map (fun d => (d.status, d.assignedAuditor)) =
      some ("review_completed", none) ∧
    startAudit reviewedDb auditorUser 3 "10.0.0.1" 400 = (typeError, reviewedDb) ∧
    typeError.status = 500 := by
  decide!

/-! ### The workflow stages -/

/-- C20 (defect in the code): only the admin override `updateDocumentStatus` maintains
`workflow`. After a successful `assignReviewer` the document is `assigned_for_review`, but its
stages are still just `upload` and `workflow.currentStage` is still `upload`: no stage named
`review_assignment`, the table's stage for that status, exists. The override, given the same
status, pushes that stage. -/
theorem assignReviewer_records_no_stage :
    (assignReviewer uploadedDb adminUser 3 1 (some 5000) 100).1.status = 200 ∧
    (assignedDb.findDocument 3).map (fun d => (d.status, d.workflow.currentStage, d.stageNames))
      = some ("assigned_for_review", "upload", ["upload"]) ∧
    stageFor "assigned_for_review" = "review_assignment" ∧
    (updateDocumentStatus uploadedDb adminUser 3 "assigned_for_review" none 100).1.status
      = 200 ∧
    ((updateDocumentStatus uploadedDb adminUser 3 "assigned_for_review" none
      100).2.findDocument 3).map (fun d => (d.status, d.workflow.currentStage, d.stageNames))
      = some ("assigned_for_review", "review_assignment", ["upload", "review_assignment"]) := by
  decide!

/-! ### The audit trail -/

/-- C19 (counterexample): `startAudit` on a document whose audit already exists succeeds and
reuses the audit; the trail entry is written only when the audit is created, so this call
appends nothing. -/
theorem startAudit_again_appends_nothing :
    (startedAuditDb.findAudit 6).map (fun a => a.auditTrail.length) = some 1 ∧
    (startAudit startedAuditDb auditorUser 3 "10.0.0.1" 5000).1.status = 200 ∧
    ((startAudit startedAuditDb auditorUser 3 "10.0.0.1" 5000).2.findAudit 6).map
      (fun a => a.auditTrail.length) = some 1 ∧
    (startAudit startedAuditDb auditorUser 3 "10.0.0.1" 5000).2.audits
      = startedAuditDb.audits := by
  decide!

/-! ### Lookups of profiles and audits after a save -/

theorem findReviewer_saveReviewer (db : Db) (x : Reviewer) (i : ObjectId) :
    (db.saveReviewer x).findReviewer i =
      (db.findReviewer i).map fun r => if r.id = x.id then x else r := by
  simp only [Db.findReviewer, Db.saveReviewer, List.find?_map]
  congr 2
  funext r
  simp only [Function.comp]
  split
  · next h => rw [h]
  · rfl

theorem findAudit_saveAudit (db : Db) (x : Audit) (i : ObjectId) :
    (db.saveAudit x).findAudit i =
      (db.findAudit i).map fun a => if a.id = x.id then x else a := by
  simp only [Db.findAudit, Db.saveAudit, List.find?_map]
  congr 2
  funext a
  simp only [Function.comp]
  split
  · next h => rw [h]
  · rfl

theorem findReviewer_id {db : Db} {i : ObjectId} {r : Reviewer}
    (h : db.findReviewer i = some r) : r.id = i := by
  have := List.find?_some h
  simpa using this

theorem findReviewer_saveReviewer_self {db : Db} {i : ObjectId} {r x : Reviewer}
    (h : db.findReviewer i = some r) (hx : x.id = r.id) :
    (db.saveReviewer x).findReviewer i = some x := by
  rw [findReviewer_saveReviewer, h]
  simp [hx]

theorem findReviewer_saveReviewer_of_mem {db : Db} {r x : Reviewer} (hmem : r ∈ db.reviewers)
    (hx : x.id = r.id) : (db.saveReviewer x).findReviewer r.id = some x := by
  cases hf : db.findReviewer r.id with
  | none =>
    have := List.find?_eq_none.mp hf r hmem
    simp at this
  | some y =>
    exact findReviewer_saveReviewer_self hf (by rw [hx, findReviewer_id hf])

theorem findAudit_saveAudit_self {db : Db} {i : ObjectId} {a x : Audit}
    (h : db.findAudit i = some a) (hx : x.id = a.id) :
    (db.saveAudit x).findAudit i = some x := by
  rw [findAudit_saveAudit, h]
  simp [hx]

theorem findReview_saveReview_self {db : Db} {i : ObjectId} {r x : Review}
    (h : db.findReview i = some r) (hx : x.id = r.id) :
    (db.saveReview x).findReview i = some x := by
  rw [findReview_saveReview, h]
  simp [hx]

/-! ### The effect of a successful assignment -/

/-- C15: a successful `assignReviewer` stores the document with status `assigned_for_review`,
`assignedReviewer` the given reviewer and `dueDates.review` the given due date (plus the
assigning admin and the assignment date), and stores the reviewer with exactly one ledger entry
`{document, dueDate, status: assigned}` appended after the unchanged earlier entries and
`workload.current` increased by 1, every other field kept. For an existing document and an
available reviewer the assignment does succeed. -/
theorem assignReviewer_effect (db : Db) (user : User) (documentId reviewerId : ObjectId)
    (dueDate : Option Date) (now : Date) :
    ((assignReviewer db user documentId reviewerId dueDate now).1.status = 200 →
      ∃ document reviewer, db.findDocument documentId = some document ∧
        db.findReviewer reviewerId = some reviewer ∧ reviewer.isAvailable = true ∧
        (assignReviewer db user documentId reviewerId dueDate now).2.findDocument documentId =
          some { document with
            assignedReviewer := some reviewerId
            assignedByReviewer := some user.id
            reviewerAssigned := some now
            dueReview := dueDate
            status := "assigned_for_review" } ∧
        (assignReviewer db user documentId reviewerId dueDate now).2.findReviewer reviewerId =
          some { reviewer with
            assignedDocuments := reviewer.assignedDocuments ++
              [{ document := documentId, dueDate := dueDate, status := "assigned" }]
            workload := { reviewer.workload with current := reviewer.workload.current + 1 } }) ∧
    (∀ document reviewer, db.findDocument documentId = some document →
      db.findReviewer reviewerId = some reviewer → reviewer.isAvailable = true →
      reviewer.valid = true →
      (assignReviewer db user documentId reviewerId dueDate now).1.status = 200) := by
  constructor
  · intro hok
    generalize hres : assignReviewer db user documentId reviewerId dueDate now = res at hok ⊢
    unfold assignReviewer at hres
    cases hd : db.findDocument documentId with
    | none =>
      simp only [hd] at hres
      subst hres
      simp at hok
    | some document =>
      cases hr : db.findReviewer reviewerId with
      | none =>
        simp only [hd, hr] at hres
        subst hres
        simp at hok
      | some reviewer =>
        simp only [hd, hr] at hres
        by_cases hav : reviewer.isAvailable = true
        · simp only [hav, Bool.not_true, Bool.false_eq_true, if_false] at hres
          split at hres
          · subst hres
            simp [validationError] at hok
          · subst hres
            refine ⟨document, reviewer, rfl, rfl, hav, ?_, ?_⟩
            · exact findDocument_saveDocument_self hd rfl
            · exact @findReviewer_saveReviewer_self (db.saveDocument _) _ _ _ hr rfl
        · simp only [hav, Bool.not_false, if_true] at hres
          subst hres
          simp at hok
  · intro document reviewer hd hr hav hvalid
    have hv : ({ reviewer with
        assignedDocuments := reviewer.assignedDocuments ++
          [{ document := documentId, dueDate := dueDate, status := "assigned" }]
        workload := { reviewer.workload with current := reviewer.workload.current + 1 } }
        : Reviewer).valid = true := by
      simp only [Reviewer.valid, List.all_append, Bool.and_eq_true] at hvalid ⊢
      exact ⟨hvalid, by simp [ledgerStatusEnum]⟩
    unfold assignReviewer
    simp only [hd, hr, hav, hv, Bool.not_true, Bool.false_eq_true, if_false]

/-- C15 at the uploaded document 3 and the free reviewer 1. -/
theorem assignReviewer_effect_witness :
    (assignReviewer uploadedDb adminUser 3 1 (some 5000) 100).1.status = 200 ∧
    ∃ document reviewer, uploadedDb.findDocument 3 = some document ∧
      uploadedDb.findReviewer 1 = some reviewer ∧ reviewer.isAvailable = true ∧
      (assignReviewer uploadedDb adminUser 3 1 (some 5000) 100).2.findDocument 3 =
        some { document with
          assignedReviewer := some 1
          assignedByReviewer := some adminUser.id
          reviewerAssigned := some 100
          dueReview := some 5000
          status := "assigned_for_review" } ∧
      (assignReviewer uploadedDb adminUser 3 1 (some 5000) 100).2.findReviewer 1 =
        some { reviewer with
          assignedDocuments := reviewer.assignedDocuments ++
            [{ document := 3, dueDate := some 5000, status := "assigned" }]
          workload := { reviewer.workload with current := reviewer.workload.current + 1 } } :=
  ⟨(assignReviewer_effect uploadedDb adminUser 3 1 (some 5000) 100).2
      { id := 3, title := "report", institute := 4, uploadedBy := 40,
        workflow := { currentStage := "upload", stages := [uploadStage] } }
      { id := 1, user := 10 } (by decide!) (by decide!) (by decide!) (by decide!),
   (assignReviewer_effect uploadedDb adminUser 3 1 (some 5000) 100).1 (by decide!)⟩

/-! ### The effect of a successful review submission -/

/-- The ledger update of a completion changes the first entry of the document, and only it. -/
theorem setFirstStatus_first (pre post : List LedgerEntry) (e : LedgerEntry)
    (documentId : ObjectId) (st : String) (he : e.document = documentId)
    (hpre : ∀ x ∈ pre, x.document ≠ documentId) :
    setFirstStatus (pre ++ e :: post) documentId st = pre ++ { e with status := st } :: post := by
  induction pre with
  | nil => simp [setFirstStatus, he]
  | cons x xs ih =>
    have hx : x.document ≠ documentId := hpre x (List.mem_cons_self x xs)
    simp only [List.cons_append, setFirstStatus, hx, if_false]
    exact congrArg (fun l => x :: l) (ih fun y hy => hpre y (List.mem_cons_of_mem x hy))

/-- Without an entry of the document the ledger update changes nothing. -/
theorem setFirstStatus_none (ledger : List LedgerEntry) (documentId : ObjectId) (st : String)
    (h : ∀ x ∈ ledger, x.document ≠ documentId) :
    setFirstStatus ledger documentId st = ledger := by
  induction ledger with
  | nil => rfl
  | cons x xs ih =>
    have hx : x.document ≠ documentId := h x (List.mem_cons_self x xs)
    simp only [setFirstStatus, hx, if_false]
    exact congrArg (fun l => x :: l) (ih fun y hy => h y (List.mem_cons_of_mem x hy))

/-- C16: a successful `submitReview` stores the review with status `submitted`, stores the parent
document with status `review_completed`, and stores the reviewer with `completedReviews`
increased by 1, `workload.current` set to `max(0, workload.current - 1)` and the first ledger
entry of the document marked `completed`, the other entries kept. -/
theorem submitReview_effect (db : Db) (user : User) (reviewId : ObjectId) (now : Date)
    (hok : (submitReview db user reviewId now).1.status = 200) :
    ∃ review reviewer document, db.findReview reviewId = some review ∧
      db.reviewerOfUser user.id = some reviewer ∧
      db.findDocument review.document = some document ∧
      ((submitReview db user reviewId now).2.findReview reviewId).map (fun r => r.status)
        = some "submitted" ∧
      (submitReview db user reviewId now).2.findDocument review.document
        = some { document with status := "review_completed" } ∧
      (submitReview db user reviewId now).2.findReviewer reviewer.id =
        some { reviewer with
          completedReviews := reviewer.completedReviews + 1
          averageReviewTime :=
            runningAverage reviewer.averageReviewTime
              (hoursBetween review.timeline.startedAt now)
          assignedDocuments :=
            setFirstStatus reviewer.assignedDocuments review.document "completed"
          workload := { reviewer.workload with
            current := max 0 (reviewer.workload.current - 1) } } ∧
      (∀ pre e post, reviewer.assignedDocuments = pre ++ e :: post →
        e.document = review.document → (∀ x ∈ pre, x.document ≠ review.document) →
        setFirstStatus reviewer.assignedDocuments review.document "completed"
          = pre ++ { e with status := "completed" } :: post) := by
  generalize hres : submitReview db user reviewId now = res at hok ⊢
  unfold submitReview at hres
  cases hrev : db.findReview reviewId with
  | none =>
    simp only [hrev] at hres
    subst hres
    simp at hok
  | some review =>
    cases hprof : db.reviewerOfUser user.id with
    | none =>
      simp only [hrev, hprof] at hres
      subst hres
      simp [typeError] at hok
    | some reviewer =>
      cases hdoc : db.findDocument review.document with
      | none =>
        have hnone : ∀ r : Review, (db.saveReview r).findDocument review.document = none :=
          fun _ => hdoc
        simp only [hrev, hprof, hnone] at hres
        repeat' (first | split at hres | (dsimp only at hres))
        all_goals subst hres
        all_goals simp [validationError, typeError] at hok
      | some document =>
        have hsame : ∀ r : Review, (db.saveReview r).findDocument review.document
            = some document := fun r => hdoc
        simp only [hrev, hprof, hsame] at hres
        repeat' (first | split at hres | (dsimp only at hres))
        all_goals subst hres
        all_goals try (simp [validationError, typeError] at hok; done)
        refine ⟨review, reviewer, document, rfl, rfl, hdoc, ?_, ?_, ?_, ?_⟩
        · have h1 := findReview_saveReview_self
            (x := { review with
              status := "submitted"
              timeline := { review.timeline with submittedAt := some now,
                                                 completedAt := some now }
              reviewerSignature :=
                { signed := true, signedAt := some now,
                  digitalSignature := some (defaultSignature user.name now) } }) hrev rfl
          simp only [Db.findReview, Db.saveReview, Db.saveDocument, Db.saveReviewer] at h1 ⊢
          rw [h1]
          rfl
        · have h2 := findDocument_saveDocument_self
            (x := { document with status := "review_completed" }) hdoc rfl
          simp only [Db.findDocument, Db.saveReview, Db.saveDocument, Db.saveReviewer] at h2 ⊢
          rw [h2]
        · exact @findReviewer_saveReviewer_of_mem
            ((db.saveReview _).saveDocument _) _ _ (reviewerOfUser_mem hprof) rfl
        · intro pre e post hl he hpre
          rw [hl]
          exact setFirstStatus_first pre post e review.document "completed" he hpre

/-- C16 at the draft review 5 of document 3, submitted by its reviewer. -/
theorem submitReview_effect_witness :
    ∃ review reviewer document, reviewDb.findReview 5 = some review ∧
      reviewDb.reviewerOfUser reviewerUser.id = some reviewer ∧
      reviewDb.findDocument review.document = some document ∧
      ((submitReview reviewDb reviewerUser 5 2000).2.findReview 5).map (fun r => r.status)
        = some "submitted" ∧
      (submitReview reviewDb reviewerUser 5 2000).2.findDocument review.document
        = some { document with status := "review_completed" } ∧
      (submitReview reviewDb reviewerUser 5 2000).2.findReviewer reviewer.id =
        some { reviewer with
          completedReviews := reviewer.completedReviews + 1
          averageReviewTime :=
            runningAverage reviewer.averageReviewTime
              (hoursBetween review.timeline.startedAt 2000)
          assignedDocuments :=
            setFirstStatus reviewer.assignedDocuments review.document "completed"
          workload := { reviewer.workload with
            current := max 0 (reviewer.workload.current - 1) } } ∧
      (∀ pre e post, reviewer.assignedDocuments = pre ++ e :: post →
        e.document = review.document → (∀ x ∈ pre, x.document ≠ review.document) →
        setFirstStatus reviewer.assignedDocuments review.document "completed"
          = pre ++ { e with status := "completed" } :: post) :=
  submitReview_effect reviewDb reviewerUser 5 2000 (by decide!)

/-! ### The stored audit after a trail entry -/

theorem addToTrail_findAudit {db0 db db' : Db} {audit a0 : Audit} {action : String}
    {u : ObjectId} {details : List String} {ip : String} {i : ObjectId}
    (heq : addToTrail db audit action u details ip = some db')
    (haud : db.audits = (db0.saveAudit audit).audits)
    (h0 : db0.findAudit i = some a0) (hid : audit.id = a0.id) :
    db'.findAudit i = some { audit with
      auditTrail := audit.auditTrail ++
        [{ action := action, performedBy := u, details := details, ip := ip }] } := by
  have h1 : db.findAudit i = some audit := by
    have := findAudit_saveAudit_self (x := audit) h0 hid
    simp only [Db.findAudit, ← haud] at this ⊢
    exact this
  rw [addToTrail_eq heq]
  exact findAudit_saveAudit_self h1 rfl

/-! ### Criteria validation -/

/-- C17: after a successful `validateReviewAssessment` with a `criteriaValidation` list, the
stored list has one entry per submitted entry, in the same order, each with
`variance = |reviewerScore - auditorScore|`, `acceptable = (variance <= 10)` and every other
field as submitted. -/
theorem validateReviewAssessment_criteria (db : Db) (user : User) (auditId : ObjectId)
    (rv : ReviewValidationInput) (cs : List CriteriaValidation) (ip : String)
    (hcs : rv.criteriaValidation = some cs)
    (hok : (validateReviewAssessment db user auditId (some rv) ip).1.status = 200) :
    ((validateReviewAssessment db user auditId (some rv) ip).2.findAudit auditId).map
        (fun a => a.auditData.criteriaValidation) =
      some (cs.map fun c => { c with
        variance := some |c.reviewerScore - c.auditorScore|
        acceptable := some (decide (|c.reviewerScore - c.auditorScore| ≤ 10)) }) := by
  generalize hres : validateReviewAssessment db user auditId (some rv) ip = res at hok ⊢
  unfold validateReviewAssessment at hres
  cases ha : db.findAudit auditId with
  | none =>
    simp only [ha] at hres
    subst hres
    simp at hok
  | some audit =>
    simp only [ha, hcs] at hres
    repeat' (first | split at hres | (dsimp only at hres))
    all_goals subst hres
    all_goals try (simp [validationError, typeError] at hok; done)
    rename_i heq
    rw [addToTrail_findAudit heq rfl ha rfl]
    rfl

/-- C17 at the scores of the specification: (70, 82) gives variance 12, not acceptable, and
(70, 78) gives variance 8, acceptable. -/
theorem validateReviewAssessment_criteria_witness :
    ((validateReviewAssessment startedAuditDb auditorUser 6 (some sampleValidation)
      "10.0.0.1").2.findAudit 6).map (fun a => a.auditData.criteriaValidation) =
      some (sampleCriteriaValidation.map fun c => { c with
        variance := some |c.reviewerScore - c.auditorScore|
        acceptable := some (decide (|c.reviewerScore - c.auditorScore| ≤ 10)) }) ∧
    (sampleCriteriaValidation.map validateCriteria).map (fun c => (c.variance, c.acceptable))
      = [(some 12, some false), (some 8, some true)] :=
  ⟨validateReviewAssessment_criteria startedAuditDb auditorUser 6 sampleValidation
      sampleCriteriaValidation "10.0.0.1" (by decide!) (by decide!),
   by decide!⟩

/-! ### Updating a completed audit -/

/-- After a successful `submitAudit` the stored audit has status `completed`. -/
theorem submitAudit_completes (db : Db) (user : User) (auditId : ObjectId)
    (finalDecision : Option FinalDecision) (digitalSignature : Option String) (ip : String)
    (now : Date)
    (hok : (submitAudit db user auditId finalDecision digitalSignature ip now).1.status = 200) :
    ∃ a, (submitAudit db user auditId finalDecision digitalSignature ip now).2.findAudit auditId
      = some a ∧ a.status = "completed" := by
  generalize hres : submitAudit db user auditId finalDecision digitalSignature ip now = res
    at hok ⊢
  unfold submitAudit at hres
  cases ha : db.findAudit auditId with
  | none =>
    simp only [ha] at hres
    subst hres
    simp at hok
  | some audit =>
    simp only [ha] at hres
    repeat' (first | split at hres | (dsimp only at hres))
    all_goals subst hres
    all_goals try (simp [validationError, typeError] at hok; done)
    rename_i heq
    exact ⟨_, addToTrail_findAudit heq rfl ha rfl, rfl⟩

/-- C18: `updateAudit` on an audit whose status is `completed` fails and leaves the database,
and so the audit with its fields and its trail, as it was; after a successful `submitAudit` the
audit is completed, so every following `updateAudit` on it fails in that way. -/
theorem updateAudit_completed_refused (db : Db) (user : User) (auditId : ObjectId)
    (updates : AuditUpdates) (ip : String) :
    (∀ audit, db.findAudit auditId = some audit → audit.status = "completed" →
      (updateAudit db user auditId updates ip).1.status ≠ 200 ∧
      (updateAudit db user auditId updates ip).2 = db) ∧
    (∀ (submitter : User) (finalDecision : Option FinalDecision)
        (digitalSignature : Option String) (ip' : String) (now : Date),
      (submitAudit db submitter auditId finalDecision digitalSignature ip' now).1.status = 200 →
      (updateAudit (submitAudit db submitter auditId finalDecision digitalSignature ip' now).2
        user auditId updates ip).1.status ≠ 200 ∧
      (updateAudit (submitAudit db submitter auditId finalDecision digitalSignature ip' now).2
        user auditId updates ip).2
        = (submitAudit db submitter auditId finalDecision digitalSignature ip' now).2) := by
  have key : ∀ (d : Db) (audit : Audit), d.findAudit auditId = some audit →
      audit.status = "completed" →
      (updateAudit d user auditId updates ip).1.status ≠ 200 ∧
      (updateAudit d user auditId updates ip).2 = d := by
    intro d audit ha hc
    unfold updateAudit
    simp only [ha, hc, if_true]
    cases d.auditorOfUser user.id with
    | none => simp [typeError]
    | some auditor =>
      dsimp only
      split <;> simp
  refine ⟨key db, ?_⟩
  intro submitter finalDecision digitalSignature ip' now hok
  obtain ⟨a, ha, hc⟩ := submitAudit_completes db submitter auditId finalDecision
    digitalSignature ip' now hok
  exact key _ a ha hc

/-- C18 at the audit of document 3: submitted with outcome `rejected`, then updated. -/
theorem updateAudit_completed_refused_witness :
    (updateAudit completedAuditDb auditorUser 6 { quality := some "good" } "10.0.0.1").1.status
      ≠ 200 ∧
    (updateAudit completedAuditDb auditorUser 6 { quality := some "good" } "10.0.0.1").2
      = completedAuditDb :=
  (updateAudit_completed_refused startedAuditDb auditorUser 6 { quality := some "good" }
    "10.0.0.1").2 auditorUser (some rejectedDecision) none "10.0.0.1" 8000 (by decide!)

/-! ### One trail entry per audit operation -/

theorem updateAudit_trail (db : Db) (user : User) (auditId : ObjectId) (updates : AuditUpdates)
    (ip : String) (hok : (updateAudit db user auditId updates ip).1.status = 200) :
    ∃ audit entry, db.findAudit auditId = some audit ∧
      ((updateAudit db user auditId updates ip).2.findAudit auditId).map
        (fun a => a.auditTrail) = some (audit.auditTrail ++ [entry]) := by
  generalize hres : updateAudit db user auditId updates ip = res at hok ⊢
  unfold updateAudit at hres
  cases ha : db.findAudit auditId with
  | none =>
    simp only [ha] at hres
    subst hres
    simp at hok
  | some audit =>
    simp only [ha] at hres
    repeat' (first | split at hres | (dsimp only at hres))
    all_goals subst hres
    all_goals try (simp [validationError, typeError] at hok; done)
    all_goals
      rename_i heq
      exact ⟨audit, _, rfl, by rw [addToTrail_findAudit heq rfl ha rfl]; rfl⟩

theorem submitAudit_trail (db : Db) (user : User) (auditId : ObjectId)
    (finalDecision : Option FinalDecision) (digitalSignature : Option String) (ip : String)
    (now : Date)
    (hok : (submitAudit db user auditId finalDecision digitalSignature ip now).1.status = 200) :
    ∃ audit entry, db.findAudit auditId = some audit ∧
      ((submitAudit db user auditId finalDecision digitalSignature ip now).2.findAudit
        auditId).map (fun a => a.auditTrail) = some (audit.auditTrail ++ [entry]) := by
  generalize hres : submitAudit db user auditId finalDecision digitalSignature ip now = res
    at hok ⊢
  unfold submitAudit at hres
  cases ha : db.findAudit auditId with
  | none =>
    simp only [ha] at hres
    subst hres
    simp at hok
  | some audit =>
    simp only [ha] at hres
    repeat' (first | split at hres | (dsimp only at hres))
    all_goals subst hres
    all_goals try (simp [validationError, typeError] at hok; done)
    rename_i heq
    exact ⟨audit, _, rfl, by rw [addToTrail_findAudit heq rfl ha rfl]; rfl⟩

theorem addAuditFinding_trail (db : Db) (user : User) (auditId : ObjectId) (finding : Finding)
    (ip : String) (hok : (addAuditFinding db user auditId finding ip).1.status = 200) :
    ∃ audit entry, db.findAudit auditId = some audit ∧
      ((addAuditFinding db user auditId finding ip).2.findAudit auditId).map
        (fun a => a.auditTrail) = some (audit.auditTrail ++ [entry]) := by
  generalize hres : addAuditFinding db user auditId finding ip = res at hok ⊢
  unfold addAuditFinding at hres
  cases ha : db.findAudit auditId with
  | none =>
    simp only [ha] at hres
    subst hres
    simp at hok
  | some audit =>
    simp only [ha] at hres
    repeat' (first | split at hres | (dsimp only at hres))
    all_goals subst hres
    all_goals try (simp [validationError, typeError] at hok; done)
    rename_i heq
    exact ⟨audit, _, rfl, by rw [addToTrail_findAudit heq rfl ha rfl]; rfl⟩

theorem updateComplianceCheck_trail (db : Db) (user : User) (auditId : ObjectId)
    (standardsVerification : Option (List String)) (overallCompliance : Option String)
    (ip : String)
    (hok : (updateComplianceCheck db user auditId standardsVerification overallCompliance
      ip).1.status = 200) :
    ∃ audit entry, db.findAudit auditId = some audit ∧
      ((updateComplianceCheck db user auditId standardsVerification overallCompliance
        ip).2.findAudit auditId).map (fun a => a.auditTrail)
        = some (audit.auditTrail ++ [entry]) := by
  generalize hres :
    updateComplianceCheck db user auditId standardsVerification overallCompliance ip = res
    at hok ⊢
  unfold updateComplianceCheck at hres
  cases ha : db.findAudit auditId with
  | none =>
    simp only [ha] at hres
    subst hres
    simp at hok
  | some audit =>
    simp only [ha] at hres
    repeat' (first | split at hres | (dsimp only at hres))
    all_goals subst hres
    all_goals try (simp [validationError, typeError] at hok; done)
    all_goals
      rename_i heq
      exact ⟨audit, _, rfl, by rw [addToTrail_findAudit heq rfl ha rfl]; rfl⟩

theorem validateReviewAssessment_trail (db : Db) (user : User) (auditId : ObjectId)
    (reviewValidation : Option ReviewValidationInput) (ip : String)
    (hok : (validateReviewAssessment db user auditId reviewValidation ip).1.status = 200) :
    ∃ audit entry, db.findAudit auditId = some audit ∧
      ((validateReviewAssessment db user auditId reviewValidation ip).2.findAudit auditId).map
        (fun a => a.auditTrail) = some (audit.auditTrail ++ [entry]) := by
  generalize hres : validateReviewAssessment db user auditId reviewValidation ip = res at hok ⊢
  unfold validateReviewAssessment at hres
  cases ha : db.findAudit auditId with
  | none =>
    simp only [ha] at hres
    subst hres
    simp at hok
  | some audit =>
    simp only [ha] at hres
    repeat' (first | split at hres | (dsimp only at hres))
    all_goals subst hres
    all_goals try (simp [validationError, typeError] at hok; done)
    all_goals
      rename_i heq
      exact ⟨audit, _, rfl, by rw [addToTrail_findAudit heq rfl ha rfl]; rfl⟩

theorem startAuditFinish_audits (db : Db) (document : Document) (auditor : Auditor) :
    (startAuditFinish db document auditor).2.audits = db.audits := by
  unfold startAuditFinish
  repeat' (first | rfl | split | (dsimp only))

theorem map_replace_fresh (audits : List Audit) (i : ObjectId) (x : Audit)
    (hfresh : ∀ a ∈ audits, a.id ≠ i) :
    audits.map (fun a => if a.id = i then x else a) = audits := by
  induction audits with
  | nil => rfl
  | cons a rest ih =>
    have ha : a.id ≠ i := hfresh a (List.mem_cons_self a rest)
    simp only [List.map_cons, ha, if_false]
    exact congrArg (fun l => a :: l) (ih fun b hb => hfresh b (List.mem_cons_of_mem a hb))

theorem saveAudit_after_insert (db : Db) (x x' : Audit) (n : ObjectId) (hid : x'.id = x.id)
    (hfresh : ∀ a ∈ db.audits, a.id ≠ x.id) :
    (Db.saveAudit { db with audits := db.audits ++ [x], nextId := n } x').audits
      = db.audits ++ [x'] := by
  simp only [Db.saveAudit, List.map_append, List.map_cons, List.map_nil, hid, if_true]
  rw [map_replace_fresh db.audits x.id x' hfresh]

theorem startAudit_trail (db : Db) (user : User) (documentId : ObjectId) (ip : String)
    (now : Date) (auditor : Auditor) (hprofile : db.auditorOfUser user.id = some auditor)
    (hok : (startAudit db user documentId ip now).1.status = 200) :
    (∀ existing,
      db.audits.find? (fun a => a.document == documentId && a.auditor == auditor.id)
        = some existing →
      (startAudit db user documentId ip now).2.audits = db.audits) ∧
    (db.audits.find? (fun a => a.document == documentId && a.auditor == auditor.id) = none →
      (∀ a ∈ db.audits, a.id ≠ db.nextId) →
      ∃ created, created.id = db.nextId ∧ created.auditTrail.length = 1 ∧
        (startAudit db user documentId ip now).2.audits = db.audits ++ [created]) := by
  generalize hres : startAudit db user documentId ip now = res at hok ⊢
  unfold startAudit at hres
  simp only [hprofile] at hres
  constructor
  · intro existing hex
    simp only [hex] at hres
    repeat' (first | split at hres | (dsimp only at hres))
    all_goals subst hres
    all_goals try (simp [validationError, typeError] at hok)
    exact startAuditFinish_audits _ _ _
  · intro hnone hfresh
    simp only [hnone] at hres
    repeat' (first | split at hres | (dsimp only at hres))
    all_goals subst hres
    all_goals try (simp [validationError, typeError] at hok)
    rename_i heq
    refine ⟨?_, ?_, ?_, ?_⟩
    rotate_left 3
    · rw [startAuditFinish_audits, addToTrail_eq heq]
      refine saveAudit_after_insert db _ _ _ ?_ ?_
      · rfl
      · exact hfresh
    all_goals rfl

/-- C19 (amended): each successful call of updateAudit, submitAudit, addAuditFinding,
updateComplianceCheck and validateReviewAssessment appends exactly one entry to the audit's
`auditTrail`, after the earlier entries, which stay as they were and in order. A successful
`startAudit` that creates the audit stores it with a trail of exactly one entry; a successful
`startAudit` that finds an audit of the (document, auditor) pair leaves every stored audit, its
trail included, as it was. -/
theorem trail_grows_by_one (db : Db) :
    (∀ (op : Op) (auditId : ObjectId), op.auditTarget = some auditId →
      (op.run db).1.status = 200 →
      ∃ audit entry, db.findAudit auditId = some audit ∧
        ((op.run db).2.findAudit auditId).map (fun a => a.auditTrail)
          = some (audit.auditTrail ++ [entry])) ∧
    (∀ (user : User) (documentId : ObjectId) (ip : String) (now : Date) (auditor : Auditor),
      db.auditorOfUser user.id = some auditor →
      (startAudit db user documentId ip now).1.status = 200 →
      (∀ existing,
        db.audits.find? (fun a => a.document == documentId && a.auditor == auditor.id)
          = some existing →
        (startAudit db user documentId ip now).2.audits = db.audits) ∧
      (db.audits.find? (fun a => a.document == documentId && a.auditor == auditor.id) = none →
        (∀ a ∈ db.audits, a.id ≠ db.nextId) →
        ∃ created, created.id = db.nextId ∧ created.auditTrail.length = 1 ∧
          (startAudit db user documentId ip now).2.audits = db.audits ++ [created])) := by
  constructor
  · intro op auditId htarget hok
    cases op with
    | assignReviewer => simp [Op.auditTarget] at htarget
    | assignAuditor => simp [Op.auditTarget] at htarget
    | startReview => simp [Op.auditTarget] at htarget
    | updateReview => simp [Op.auditTarget] at htarget
    | submitReview => simp [Op.auditTarget] at htarget
    | startAudit => simp [Op.auditTarget] at htarget
    | updateAudit user i updates ip =>
      simp only [Op.auditTarget, Option.some.injEq] at htarget
      subst htarget
      exact updateAudit_trail db user i updates ip hok
    | submitAudit user i finalDecision digitalSignature ip now =>
      simp only [Op.auditTarget, Option.some.injEq] at htarget
      subst htarget
      exact submitAudit_trail db user i finalDecision digitalSignature ip now hok
    | addAuditFinding user i finding ip =>
      simp only [Op.auditTarget, Option.some.injEq] at htarget
      subst htarget
      exact addAuditFinding_trail db user i finding ip hok
    | updateComplianceCheck user i standardsVerification overallCompliance ip =>
      simp only [Op.auditTarget, Option.some.injEq] at htarget
      subst htarget
      exact updateComplianceCheck_trail db user i standardsVerification overallCompliance ip hok
    | validateReviewAssessment user i reviewValidation ip =>
      simp only [Op.auditTarget, Option.some.injEq] at htarget
      subst htarget
      exact validateReviewAssessment_trail db user i reviewValidation ip hok
  · intro user documentId ip now auditor hprofile hok
    exact startAudit_trail db user documentId ip now auditor hprofile hok

/-- The amended C19 on the started audit 6: an added finding extends the trail by one entry,
and the first `startAudit` of document 3 stores an audit with one trail entry. -/
theorem trail_grows_by_one_witness :
    (∃ audit entry, startedAuditDb.findAudit 6 = some audit ∧
      (((Op.addAuditFinding auditorUser 6 { category := some "minor" } "10.0.0.1").run
        startedAuditDb).2.findAudit 6).map (fun a => a.auditTrail)
        = some (audit.auditTrail ++ [entry])) ∧
    (∃ created, created.id = auditDb.nextId ∧ created.auditTrail.length = 1 ∧
      (startAudit auditDb auditorUser 3 "10.0.0.1" 4000).2.audits
        = auditDb.audits ++ [created]) :=
  ⟨(trail_grows_by_one startedAuditDb).1
      (.addAuditFinding auditorUser 6 { category := some "minor" } "10.0.0.1") 6 rfl
      (by decide!),
   ((trail_grows_by_one auditDb).2 auditorUser 3 "10.0.0.1" 4000 sampleAuditor (by decide!)
      (by decide!)).2 (by decide!) (by decide!)⟩

/-! ### What the start handlers and the status override do guarantee -/

theorem startReviewFinish_reviews (db : Db) (document : Document) (reviewer : Reviewer) :
    (startReviewFinish db document reviewer).2.reviews = db.reviews := by
  unfold startReviewFinish
  repeat' (first | rfl | split | (dsimp only))

/-- The Review that `startReview` builds has no `overallScore`, so the validators reject it. -/
theorem new_review_invalid (id documentId reviewerId institute : ObjectId) (now : Date)
    (dueDate : Option Date) :
    ({ id := id, document := documentId, reviewer := reviewerId, institute := institute,
       timeline := { startedAt := now, dueDate := dueDate },
       reviewData := { criteria := [], strengths := [], weaknesses := [],
                       recommendations := [] } } : Review).valid = false := by
  simp [Review.valid]

/-- `startReview` never stores a Review: it reuses one or its `Review.create` is rejected. -/
theorem startReview_reviews_unchanged (db : Db) (user : User) (documentId : ObjectId)
    (now : Date) : (startReview db user documentId now).2.reviews = db.reviews := by
  unfold startReview
  repeat' (first | rfl | split | (dsimp only))
  all_goals exact startReviewFinish_reviews _ _ _

/-- With the document assigned to the caller and no Review stored for the pair, `startReview`
fails with a validation error and writes nothing. -/
theorem startReview_without_review_fails (db : Db) (user : User) (documentId : ObjectId)
    (now : Date) (reviewer : Reviewer) (document : Document)
    (hprofile : db.reviewerOfUser user.id = some reviewer)
    (hdoc : db.findDocument documentId = some document)
    (hassigned : document.assignedReviewer = some reviewer.id)
    (hnone : db.reviews.find? (fun r => r.document == documentId && r.reviewer == reviewer.id)
      = none) :
    startReview db user documentId now = (validationError, db) := by
  unfold startReview
  simp only [hprofile, hdoc, hassigned, hnone, new_review_invalid, ne_eq, not_true_eq_false,
    if_false, Bool.not_false, if_true]

/-- With a Review stored for the pair, a repeated `startReview` answers with that Review both
times and the pair still has one Review. -/
theorem startReview_twice_with_review :
    reviewDb.reviewsOf 3 1 = [draftReview] ∧
    (startReview reviewDb reviewerUser 3 200).1.status = 200 ∧
    startReviewData reviewDb reviewerUser 3 200 = some 5 ∧
    (startReview (startReview reviewDb reviewerUser 3 200).2 reviewerUser 3 300).1.status
      = 200 ∧
    startReviewData (startReview reviewDb reviewerUser 3 200).2 reviewerUser 3 300 = some 5 ∧
    ((startReview (startReview reviewDb reviewerUser 3 200).2 reviewerUser 3 300).2.reviewsOf
      3 1).length = 1 := by
  decide!

/-- A document assigned to another reviewer: `startReview` answers 403 and writes nothing. -/
theorem startReview_forbidden (db : Db) (user : User) (documentId : ObjectId) (now : Date)
    (reviewer : Reviewer) (document : Document) (other : ObjectId)
    (hprofile : db.reviewerOfUser user.id = some reviewer)
    (hdoc : db.findDocument documentId = some document)
    (hassigned : document.assignedReviewer = some other) (hne : other ≠ reviewer.id) :
    startReview db user documentId now = (⟨403, "Document not assigned to you"⟩, db) := by
  unfold startReview
  simp only [hprofile, hdoc, hassigned, hne, ne_eq, not_false_eq_true, if_true]

/-- A reviewed document assigned to another auditor: `startAudit` answers 403 and writes
nothing. -/
theorem startAudit_forbidden (db : Db) (user : User) (documentId : ObjectId) (ip : String)
    (now : Date) (auditor : Auditor) (document : Document) (review : Review) (other : ObjectId)
    (hprofile : db.auditorOfUser user.id = some auditor)
    (hdoc : db.findDocument documentId = some document)
    (hreview : db.reviews.find? (fun r => r.document == documentId && r.status == "submitted")
      = some review)
    (hassigned : document.assignedAuditor = some other) (hne : other ≠ auditor.id) :
    startAudit db user documentId ip now = (⟨403, "Document not assigned to you"⟩, db) := by
  unfold startAudit
  simp only [hprofile, hdoc, hreview, hassigned, hne, ne_eq, not_false_eq_true, if_true]

/-- A successful `updateDocumentStatus` stores the status, sets `workflow.currentStage` to the
table's stage and leaves a stage of that name in `workflow.stages`; stage names that were
distinct stay distinct, so that name occurs exactly once. -/
theorem updateDocumentStatus_stage (db : Db) (user : User) (documentId : ObjectId)
    (status : String) (notes : Option String) (now : Date)
    (hok : (updateDocumentStatus db user documentId status notes now).1.status = 200) :
    ∃ document d', db.findDocument documentId = some document ∧
      (updateDocumentStatus db user documentId status notes now).2.findDocument documentId
        = some d' ∧
      d'.status = status ∧ d'.workflow.currentStage = stageFor status ∧
      stageFor status ∈ d'.stageNames ∧
      (document.stageNames.Nodup →
        d'.stageNames.Nodup ∧ d'.stageNames.count (stageFor status) = 1) := by
  generalize hres : updateDocumentStatus db user documentId status notes now = res at hok ⊢
  unfold updateDocumentStatus at hres
  cases hd : db.findDocument documentId with
  | none =>
    simp only [hd] at hres
    subst hres
    simp at hok
  | some document =>
    simp only [hd] at hres
    by_cases hany : document.workflow.stages.any (fun s => s.name == stageFor status) = true
    · simp only [hany, if_true] at hres
      split at hres
      · subst hres
        simp [validationError] at hok
      · subst hres
        have hmem : stageFor status ∈ document.stageNames := by
          simp only [List.any_eq_true, beq_iff_eq] at hany
          obtain ⟨s, hs, hname⟩ := hany
          exact List.mem_map.mpr ⟨s, hs, hname⟩
        exact ⟨document, _, rfl, findDocument_saveDocument_self hd rfl, rfl, rfl, hmem,
          fun hnd => ⟨hnd, List.count_eq_one_of_mem hnd hmem⟩⟩
    · have hany' : document.workflow.stages.any (fun s => s.name == stageFor status) = false := by
        simpa using hany
      simp only [hany', Bool.false_eq_true, if_false] at hres
      split at hres
      · subst hres
        simp [validationError] at hok
      · subst hres
        have hnot : stageFor status ∉ document.stageNames := by
          intro hmem
          obtain ⟨s, hs, hname⟩ := List.mem_map.mp hmem
          exact hany (List.any_eq_true.mpr ⟨s, hs, by simp [hname]⟩)
        refine ⟨document, _, rfl, findDocument_saveDocument_self hd rfl, rfl, rfl, ?_, ?_⟩
        · simp [Document.stageNames]
        · intro hnd
          have hnd' : (document.stageNames ++ [stageFor status]).Nodup :=
            List.Nodup.append hnd (List.nodup_singleton _) (by
              intro a ha hb
              rw [List.mem_singleton] at hb
              exact hnot (hb ▸ ha))
          have heq : ∀ l : List Stage, ∀ s : Stage,
              (l ++ [s]).map (fun x => x.name) = l.map (fun x => x.name) ++ [s.name] := by
            intro l s
            simp
          simp only [Document.stageNames, heq] at hnd' ⊢
          exact ⟨hnd', List.count_eq_one_of_mem hnd' (by simp)⟩

/-! ### Ledger consistency -/

/-- C28 (defect in the code): `submitReview` has no guard against a review that is already
submitted. Reviewer 1 starts with an empty ledger and `workload.current = 0`, is assigned
documents 3 and 7, starts the review of document 3 and submits it twice; all five requests
succeed. The second submission decrements `workload.current` again: it ends at 0 while the
ledger entry of document 7 is still not completed. After the first submission the ledger was
consistent. -/
theorem resubmission_breaks_ledger :
    LedgerEmpty twoDocumentsDb ∧
    answers resubmitFlow twoDocumentsDb = [200, 200, 200, 200, 200] ∧
    LedgerConsistent (runAll (resubmitFlow.take 4) twoDocumentsDb) ∧
    ¬ LedgerConsistent (runAll resubmitFlow twoDocumentsDb) ∧
    (runAll resubmitFlow twoDocumentsDb).reviewers.map
        (fun r => (r.workload.current, openEntries r.assignedDocuments)) = [(0, 1)] := by
  decide!

/-! ### The statuses of an audit -/

theorem satisfy_saveAudit {Q : ObjectId → String → Prop} {db : Db} (h : AuditsSatisfy Q db)
    {a : Audit} (ha : Q a.id a.status) : AuditsSatisfy Q (db.saveAudit a) := by
  intro x hx
  simp only [Db.saveAudit, List.mem_map] at hx
  obtain ⟨y, hy, rfl⟩ := hx
  split
  · exact ha
  · exact h y hy

theorem satisfy_addToTrail {Q : ObjectId → String → Prop} {db db' : Db} {audit : Audit}
    {action : String} {u : ObjectId} {details : List String} {ip : String}
    (heq : addToTrail db audit action u details ip = some db') (h : AuditsSatisfy Q db)
    (ha : Q audit.id audit.status) : AuditsSatisfy Q db' := by
  rw [addToTrail_eq heq]
  exact satisfy_saveAudit h ha

theorem satisfy_insert {Q : ObjectId → String → Prop} {db : Db} (h : AuditsSatisfy Q db)
    (a : Audit) (n : ObjectId) (ha : Q a.id a.status) :
    AuditsSatisfy Q { db with audits := db.audits ++ [a], nextId := n } := by
  intro x hx
  simp only [List.mem_append, List.mem_singleton] at hx
  rcases hx with hx | rfl
  · exact h x hx
  · exact ha

theorem startAuditFinish_satisfy {Q : ObjectId → String → Prop} (db : Db) (document : Document)
    (auditor : Auditor) (h : AuditsSatisfy Q db) :
    AuditsSatisfy Q (startAuditFinish db document auditor).2 := by
  unfold startAuditFinish
  repeat' (first | exact h | split | (dsimp only))

theorem startReviewFinish_satisfy {Q : ObjectId → String → Prop} (db : Db) (document : Document)
    (reviewer : Reviewer) (h : AuditsSatisfy Q db) :
    AuditsSatisfy Q (startReviewFinish db document reviewer).2 := by
  unfold startReviewFinish
  repeat' (first | exact h | split | (dsimp only))

theorem assignReviewer_satisfy {Q : ObjectId → String → Prop} (db : Db) (user : User)
    (documentId reviewerId : ObjectId) (dueDate : Option Date) (now : Date)
    (h : AuditsSatisfy Q db) :
    AuditsSatisfy Q (assignReviewer db user documentId reviewerId dueDate now).2 := by
  unfold assignReviewer
  repeat' (first | exact h | split | (dsimp only))

theorem assignAuditor_satisfy {Q : ObjectId → String → Prop} (db : Db) (user : User)
    (documentId auditorId : ObjectId) (dueDate : Option Date) (now : Date)
    (h : AuditsSatisfy Q db) :
    AuditsSatisfy Q (assignAuditor db user documentId auditorId dueDate now).2 := by
  unfold assignAuditor
  repeat' (first | exact h | split | (dsimp only))

theorem startReview_satisfy {Q : ObjectId → String → Prop} (db : Db) (user : User)
    (documentId : ObjectId) (now : Date) (h : AuditsSatisfy Q db) :
    AuditsSatisfy Q (startReview db user documentId now).2 := by
  unfold startReview
  repeat' (first | exact h | split | (dsimp only))
  all_goals exact startReviewFinish_satisfy _ _ _ h

theorem updateReview_satisfy {Q : ObjectId → String → Prop} (db : Db) (user : User)
    (reviewId : ObjectId) (body : ReviewUpdates) (reason : Option String) (now : Date)
    (h : AuditsSatisfy Q db) :
    AuditsSatisfy Q (updateReview db user reviewId body reason now).2 := by
  unfold updateReview
  repeat' (first | exact h | split | (dsimp only))

theorem submitReview_satisfy {Q : ObjectId → String → Prop} (db : Db) (user : User)
    (reviewId : ObjectId) (now : Date) (h : AuditsSatisfy Q db) :
    AuditsSatisfy Q (submitReview db user reviewId now).2 := by
  unfold submitReview
  repeat' (first | exact h | split | (dsimp only))

theorem startAudit_satisfy {Q : ObjectId → String → Prop} (db : Db) (user : User)
    (documentId : ObjectId) (ip : String) (now : Date) (h : AuditsSatisfy Q db)
    (hnew : ∀ i, Q i "assigned") : AuditsSatisfy Q (startAudit db user documentId ip now).2 := by
  unfold startAudit
  repeat' (first | exact h | split | (dsimp only))
  · exact startAuditFinish_satisfy _ _ _ h
  · exact satisfy_insert h _ _ (hnew _)
  · rename_i heq
    exact startAuditFinish_satisfy _ _ _
      (satisfy_addToTrail heq (satisfy_insert h _ _ (hnew _)) (hnew _))

theorem updateAudit_satisfy {Q : ObjectId → String → Prop} (db : Db) (user : User)
    (auditId : ObjectId) (updates : AuditUpdates) (ip : String) (h : AuditsSatisfy Q db) :
    AuditsSatisfy Q (updateAudit db user auditId updates ip).2 := by
  unfold updateAudit
  cases ha : db.findAudit auditId with
  | none => exact h
  | some audit =>
    have hp := h audit (findAudit_mem ha)
    dsimp only
    repeat' (first | exact h | split | (dsimp only))
    all_goals first
      | exact satisfy_saveAudit h hp
      | (rename_i heq
         exact satisfy_addToTrail heq (satisfy_saveAudit h hp) hp)

theorem submitAudit_satisfy {Q : ObjectId → String → Prop} (db : Db) (user : User)
    (auditId : ObjectId) (finalDecision : Option FinalDecision)
    (digitalSignature : Option String) (ip : String) (now : Date) (h : AuditsSatisfy Q db)
    (hsub : Q auditId "completed") :
    AuditsSatisfy Q (submitAudit db user auditId finalDecision digitalSignature ip now).2 := by
  unfold submitAudit
  cases ha : db.findAudit auditId with
  | none => exact h
  | some audit =>
    have hp : Q audit.id "completed" := by
      rw [findAudit_id ha]
      exact hsub
    dsimp only
    repeat' (first | exact h | split | (dsimp only))
    all_goals first
      | exact satisfy_saveAudit h hp
      | (rename_i heq
         exact satisfy_addToTrail heq (satisfy_saveAudit h hp) hp)

theorem addAuditFinding_satisfy {Q : ObjectId → String → Prop} (db : Db) (user : User)
    (auditId : ObjectId) (finding : Finding) (ip : String) (h : AuditsSatisfy Q db) :
    AuditsSatisfy Q (addAuditFinding db user auditId finding ip).2 := by
  unfold addAuditFinding
  cases ha : db.findAudit auditId with
  | none => exact h
  | some audit =>
    have hp := h audit (findAudit_mem ha)
    dsimp only
    repeat' (first | exact h | split | (dsimp only))
    all_goals first
      | exact satisfy_saveAudit h hp
      | (rename_i heq
         exact satisfy_addToTrail heq (satisfy_saveAudit h hp) hp)

theorem updateComplianceCheck_satisfy {Q : ObjectId → String → Prop} (db : Db) (user : User)
    (auditId : ObjectId) (standardsVerification : Option (List String))
    (overallCompliance : Option String) (ip : String) (h : AuditsSatisfy Q db) :
    AuditsSatisfy Q
      (updateComplianceCheck db user auditId standardsVerification overallCompliance ip).2 := by
  unfold updateComplianceCheck
  cases ha : db.findAudit auditId with
  | none => exact h
  | some audit =>
    have hp := h audit (findAudit_mem ha)
    dsimp only
    repeat' (first | exact h | split | (dsimp only))
    all_goals first
      | exact satisfy_saveAudit h hp
      | (rename_i heq
         exact satisfy_addToTrail heq (satisfy_saveAudit h hp) hp)

theorem validateReviewAssessment_satisfy {Q : ObjectId → String → Prop} (db : Db) (user : User)
    (auditId : ObjectId) (reviewValidation : Option ReviewValidationInput) (ip : String)
    (h : AuditsSatisfy Q db) :
    AuditsSatisfy Q (validateReviewAssessment db user auditId reviewValidation ip).2 := by
  unfold validateReviewAssessment
  cases ha : db.findAudit auditId with
  | none => exact h
  | some audit =>
    have hp := h audit (findAudit_mem ha)
    dsimp only
    repeat' (first | exact h | split | (dsimp only))
    all_goals first
      | exact satisfy_saveAudit h hp
      | (rename_i heq
         exact satisfy_addToTrail heq (satisfy_saveAudit h hp) hp)

theorem statusStep_kept (op : Op) (db : Db) : AuditsSatisfy (StatusStep op db) db :=
  fun a ha => Or.inl ⟨a, ha, rfl, rfl⟩

theorem run_statusStep (op : Op) (db : Db) : AuditsSatisfy (StatusStep op db) (op.run db).2 := by
  have h := statusStep_kept op db
  cases op with
  | assignReviewer => exact assignReviewer_satisfy _ _ _ _ _ _ h
  | assignAuditor => exact assignAuditor_satisfy _ _ _ _ _ _ h
  | startReview => exact startReview_satisfy _ _ _ _ h
  | updateReview => exact updateReview_satisfy _ _ _ _ _ _ h
  | submitReview => exact submitReview_satisfy _ _ _ _ h
  | startAudit => exact startAudit_satisfy _ _ _ _ _ h (fun _ => Or.inr (Or.inl ⟨rfl, rfl⟩))
  | updateAudit => exact updateAudit_satisfy _ _ _ _ _ h
  | submitAudit =>
    exact submitAudit_satisfy _ _ _ _ _ _ _ h (Or.inr (Or.inr ⟨by simp [Op.submits], rfl⟩))
  | addAuditFinding => exact addAuditFinding_satisfy _ _ _ _ _ h
  | updateComplianceCheck => exact updateComplianceCheck_satisfy _ _ _ _ _ _ h
  | validateReviewAssessment => exact validateReviewAssessment_satisfy _ _ _ _ _ h

theorem run_status_values (op : Op) (db : Db)
    (h : ∀ a ∈ db.audits, a.status = "assigned" ∨ a.status = "completed") :
    ∀ a ∈ (op.run db).2.audits, a.status = "assigned" ∨ a.status = "completed" := by
  intro a ha
  rcases run_statusStep op db a ha with ⟨b, hb, _, hs⟩ | ⟨_, hs⟩ | ⟨_, hs⟩
  · rw [← hs]
    exact h b hb
  · exact Or.inl hs
  · exact Or.inr hs

theorem runAll_status_values (ops : List Op) (db : Db)
    (h : ∀ a ∈ db.audits, a.status = "assigned" ∨ a.status = "completed") :
    ∀ a ∈ (runAll ops db).audits, a.status = "assigned" ∨ a.status = "completed" := by
  induction ops generalizing db with
  | nil => exact h
  | cons op ops ih => exact ih _ (run_status_values op db h)

/-- C29: through the workflow requests an audit's status only takes the values `assigned` and
`completed`. Starting from audits in these two statuses, every sequence of requests leaves every
audit in one of them; and after any single request every stored audit either has the status that
an audit of the same id had before, or is `assigned` and the request was a `startAudit`, or is
`completed` and the request was a `submitAudit` of that audit. So no request sets `in_progress`
or `under_review`, and only `submitAudit` changes a status. -/
theorem audit_status_assigned_or_completed (db : Db)
    (h : ∀ a ∈ db.audits, a.status = "assigned" ∨ a.status = "completed") (ops : List Op) :
    (∀ a ∈ (runAll ops db).audits, a.status = "assigned" ∨ a.status = "completed") ∧
    (∀ (op : Op) (d : Db), ∀ a ∈ (op.run d).2.audits,
      (∃ b ∈ d.audits, b.id = a.id ∧ b.status = a.status) ∨
      (op.isStartAudit = true ∧ a.status = "assigned") ∨
      (op.submits a.id = true ∧ a.status = "completed")) :=
  ⟨runAll_status_values ops db h, fun op d a ha => run_statusStep op d a ha⟩

theorem audit_status_assigned_or_completed_witness :
    (∀ a ∈ auditDb.audits, a.status = "assigned" ∨ a.status = "completed") ∧
    ((runAll
        [.startAudit auditorUser 3 "10.0.0.1" 4000,
         .submitAudit auditorUser 6 (some rejectedDecision) none "10.0.0.1" 8000]
        auditDb).audits.map (fun a => a.status) = ["completed"]) ∧
    (∀ a ∈ (runAll
        [.startAudit auditorUser 3 "10.0.0.1" 4000,
         .submitAudit auditorUser 6 (some rejectedDecision) none "10.0.0.1" 8000]
        auditDb).audits, a.status = "assigned" ∨ a.status = "completed") :=
  ⟨by decide!, by decide!,
    (audit_status_assigned_or_completed auditDb (by decide!) _).1⟩

/-! ### The client address -/

theorem splitChars_head (sep : Char) (cs : List Char) :
    (splitChars sep cs).head? = some (cs.takeWhile fun c => c != sep) := by
  induction cs with
  | nil => rfl
  | cons c cs ih =>
    unfold splitChars
    by_cases hc : c = sep
    · simp [hc]
    · cases hs : splitChars sep cs with
      | nil => simp [hs] at ih
      | cons part parts =>
        rw [hs] at ih
        simp only [List.head?_cons, Option.some.injEq] at ih
        simp [hc, ih]

theorem split_head (h : String) : (split h ',').head? = some (firstEntry h) := by
  unfold split firstEntry
  rw [List.head?_map, splitChars_head]
  rfl

theorem strOr_strOrElse (a b : Option String) (d : String) :
    strOr (strOrElse a b) d = if strTruthy a then strOr a d else strOr b d := by
  unfold strOrElse
  split <;> rfl

theorem strOr_eq_ite (a : Option String) (d : String) :
    strOr a d = if strTruthy a then strOr a d else d := by
  cases a with
  | none => rfl
  | some v =>
    by_cases hv : v = ""
    · simp [strOr, strTruthy, hv]
    · simp [strTruthy, hv]

theorem firstNonEmpty_cons (a : Option String) (l : List (Option String)) (d : String) :
    firstNonEmpty (a :: l) d = if strTruthy a then strOr a d else firstNonEmpty l d := by
  cases a with
  | none => simp [firstNonEmpty, strTruthy]
  | some v =>
    by_cases hv : v = ""
    · simp [firstNonEmpty, strTruthy, hv]
    · simp [firstNonEmpty, strTruthy, strOr, hv]

theorem firstNonEmpty_nil (d : String) : firstNonEmpty [] d = d := rfl

/-- C25: `getClientIP` returns the first non-empty value among `req.ip`, the remote address of
the connection, of the socket and of the connection's socket, the first comma-separated entry of
the `X-Forwarded-For` header and the `X-Real-IP` header, in this order, and `unknown` when none
of them is non-empty or when there is no request. -/
theorem getClientIP_first_non_empty (req : Option Request) :
    Logger.getClientIP req = specClientIP req ∧ Logger.getClientIP none = "unknown" := by
  refine ⟨?_, rfl⟩
  cases req with
  | none => rfl
  | some r =>
    have hx : ((r.headers.lookup "x-forwarded-for").bind fun h => (split h ',').head?) =
        (r.headers.lookup "x-forwarded-for").map firstEntry := by
      cases r.headers.lookup "x-forwarded-for" with
      | none => rfl
      | some h => exact split_head h
    simp only [Logger.getClientIP, specClientIP, clientIPCandidates, Option.some_bind, hx,
      strOr_strOrElse, firstNonEmpty_cons, firstNonEmpty_nil]
    rw [← strOr_eq_ite (r.headers.lookup "x-real-ip") "unknown"]

/-! ### The severity of an entry -/

/-- C22 (defect in the code): `Logger.log` never reads `additionalData.severity`. The error
middleware logs `system_error` with the explicit severity `high`, and the entry that is built
has the severity `low`, the default of the table; for every action and every details object the
severity of the built entry is the one the table gives for the action. -/
theorem explicit_severity_ignored :
    (errorDetails sampleError).get "severity" = .str "high" ∧
    (Logger.logData sampleEnv "system_error" adminRequest.user (some adminRequest)
      (errorDetails sampleError)).map (fun d => d.severity) = some "low" ∧
    ∀ (env : Env) (action : String) (user : Option User) (req : Option Request) (details : Js),
      (Logger.logData env action user req details).map (fun d => d.severity) =
        (Logger.logData env action user req details).map
          (fun _ => Logger.getSeverityFromAction action) := by
  refine ⟨by decide!, by decide!, ?_⟩
  intro env action user req details
  unfold Logger.logData
  dsimp only
  repeat' (first | rfl | split)

/-! ### Errors raised by the logger -/

theorem log_isSome (env : Env) (store : LogStore) (action : String) (user : Option User)
    (req : Option Request) (additionalData : Js) :
    (Logger.log env store action user req additionalData).isSome = true := by
  unfold Logger.log
  split <;> rfl

/-- C23 (defect in the code): `logDocument` reads `document._id` before it enters the `try`
block of `log`. With the `null` document that `uploadDocument` passes when an upload failed, the
call raises to its caller. `log`, `logAuth` and `logAdmin` never raise, and `logDocument` raises
exactly when the document is `null` or `undefined`. -/
theorem logDocument_null_document_raises :
    Logger.logDocument sampleEnv {} "document_upload_failed" adminRequest.user
      (some adminRequest) .null
      (Js.object [("reason", .str "upload failed"), ("status", .str "failure")]) = none ∧
    (∀ (env : Env) (store : LogStore) (action : String) (user : Option User)
      (req : Option Request) (details : Js),
      (Logger.log env store action user req details).isSome = true ∧
      (Logger.logAuth env store action user req details).isSome = true ∧
      ∀ target : Js, (Logger.logAdmin env store action user req target details).isSome = true ∧
        (Logger.logDocument env store action user req target details).isSome =
          (target != .null && target != .undefined)) := by
  refine ⟨by decide!, ?_⟩
  intro env store action user req details
  refine ⟨log_isSome _ _ _ _ _ _, log_isSome _ _ _ _ _ _, ?_⟩
  intro target
  refine ⟨log_isSome _ _ _ _ _ _, ?_⟩
  unfold Logger.logDocument
  cases target <;> simp [Js.prop, log_isSome]

/-! ### Entries that the schema rejects -/

theorem logData_action_eq (env : Env) (action : String) (user : Option User)
    (req : Option Request) (details : Js) :
    (Logger.logData env action user req details).map (fun d => d.action) =
      (Logger.logData env action user req details).map (fun _ => action) := by
  unfold Logger.logData
  dsimp only
  repeat' (first | rfl | split)

theorem ofData_unknown_action (d : LogData) (now : Date)
    (h : actionEnum.contains d.action = false) : Log.ofData d now = none := by
  unfold Log.ofData
  split
  · simp only [h, Bool.false_and, Bool.false_eq_true, if_false]
  · rfl

theorem log_unknown_action (env : Env) (store : LogStore) (action : String)
    (user : Option User) (req : Option Request) (details : Js)
    (h : actionEnum.contains action = false) :
    Logger.log env store action user req details = some store := by
  unfold Logger.log
  cases hd : Logger.logData env action user req details with
  | none => rfl
  | some d =>
    have ha := logData_action_eq env action user req details
    rw [hd] at ha
    simp only [Option.map_some', Option.some.injEq] at ha
    have hn : Log.ofData d env.now = none := ofData_unknown_action d env.now (by rw [ha]; exact h)
    simp [Log.createLog, hn]

theorem log_status_changed (env : Env) (store : LogStore) (user : Option User)
    (req : Option Request) (details : Js) :
    Logger.log env store "document_status_changed" user req details = some store :=
  log_unknown_action env store _ user req details (by decide)

theorem log_system_error (env : Env) (store : LogStore) (user : Option User)
    (req : Option Request) (details : Js) :
    Logger.log env store "system_error" user req details = some store :=
  log_unknown_action env store _ user req details (by decide)

theorem log_logs_cleaned (env : Env) (store : LogStore) (user : Option User)
    (req : Option Request) (details : Js) :
    Logger.log env store "logs_cleaned" user req details = some store :=
  log_unknown_action env store _ user req details (by decide)

theorem updateDocumentStatusLogged_store (env : Env) (req : Request) (documentId : ObjectId)
    (status : String) (notes : Option String) (db : Db) (store : LogStore) :
    (updateDocumentStatusLogged env req documentId status notes db store).2.2 = store := by
  unfold updateDocumentStatusLogged
  cases req.user with
  | none => rfl
  | some user =>
    simp only [Logger.logAdmin, log_status_changed, conclude, errorMiddlewareLog,
      log_system_error, Option.getD_some]
    repeat' (first | rfl | split)
    all_goals
      rename_i heq
      split at heq <;> cases heq <;> rfl

/-! ### One log entry per transition -/

/-- C21 (defect in the code): `updateDocumentStatus` logs the action `document_status_changed`,
which is not in the enum of the log schema, so the entry is rejected and the rejection is
swallowed. The status override of the uploaded document 3 succeeds and appends no entry; no
request to `updateDocumentStatus` ever changes the log. The six other transitions log an action
of the enum: in the sample workflow each of them appends exactly one entry. -/
theorem status_override_logs_nothing :
    appended sampleEnv [(adminRequest, .updateDocumentStatus 3 "under_review" none)]
      uploadedDb {} = [(200, 0)] ∧
    actionEnum.contains "document_status_changed" = false ∧
    (∀ (env : Env) (req : Request) (documentId : ObjectId) (status : String)
      (notes : Option String) (db : Db) (store : LogStore),
      (updateDocumentStatusLogged env req documentId status notes db store).2.2 = store) ∧
    appended sampleEnv loggedFlow workflowDb {} =
      [(200, 1), (200, 1), (200, 1), (200, 1), (200, 1), (200, 1)] :=
  ⟨by decide!, by decide!, updateDocumentStatusLogged_store, by decide!⟩

/-! ### The target of an admin entry -/

/-- C30 (defect in the code): `logAdmin(action, user, req, target, additionalData)` takes the
target as its fourth argument, and the controllers pass their details object there. The object
has no key `type`, `id` or `name`, and `additionalData` is empty. The entry stored for
`assignReviewer` and for `assignAuditor` has an empty `targetResource`, and the entry that is
built carries no status: the stored `success` is the default of the schema. For
`updateDocumentStatus` no entry is stored. The entry of `startReview`, written through
`logDocument`, does name the document. -/
theorem logAdmin_target_is_details :
    (assignReviewerLogged sampleEnv adminRequest 3 1 (some 5000) uploadedDb {}).2.2.entries.map
      (fun e => (e.action, e.targetResource, e.status)) =
      [("reviewer_assigned", { type := none, id := none, name := none }, "success")] ∧
    (assignAuditorLogged sampleEnv adminRequest 3 2 (some 9000) reviewedDb {}).2.2.entries.map
      (fun e => (e.action, e.targetResource, e.status)) =
      [("auditor_assigned", { type := none, id := none, name := none }, "success")] ∧
    (updateDocumentStatusLogged sampleEnv adminRequest 3 "under_review" none
      uploadedDb {}).2.2.entries = [] ∧
    (∀ (env : Env) (req : Request) (document : Document) (reviewer : Reviewer)
      (dueDate : Option Date),
      (Logger.logData env "reviewer_assigned" req.user (some req)
        (.obj ((Js.spread .undefined).set "targetResource"
          (reviewerAssignedDetails document reviewer dueDate)))).map
        (fun d => (d.status, castTargetResource d.targetResource)) =
        some (none, some { type := none, id := none, name := none })) ∧
    (startReviewLogged sampleEnv reviewerRequest 3 assignedReviewDb {}).2.2.entries.map
      (fun e => (e.action, e.targetResource, e.status)) =
      [("review_started", { type := some "Document", id := some 3, name := some "report" },
        "success")] := by
  refine ⟨by decide!, by decide!, by decide!, ?_, by decide!⟩
  intro env req document reviewer dueDate
  simp [Logger.logData, reviewerAssignedDetails, Js.spread, Fields.set, Js.prop, Js.get,
    Fields.lookup, Js.object, Fields.ofList, Js.truthy, castTargetResource, castString,
    castObjectId, inEnum]

/-! ### Cleaning the log -/

theorem newDate_intCast (n : Int) : newDate (n : ℚ) = n := by
  unfold newDate
  split
  · exact Int.floor_intCast n
  · exact Int.ceil_intCast n

/-- C24: with the log collection available, `cleanupLogs` answers 200 and leaves exactly the
entries that are not both created before the cut-off date, `days` days before now, and of a
severity other than `critical` and `high`, in their order; without `days` it uses 365. For a
window of a whole number of milliseconds, being created before the cut-off date is being
older than `days` days. -/
theorem cleanupLogs_deletes_old_low (env : Env) (req : Request) (days : Option ℚ)
    (store : LogStore) (h : store.available = true) :
    (cleanupLogs env req days store).1.status = 200 ∧
    (cleanupLogs env req days store).2.entries = store.entries.filter (fun e =>
      !(decide (e.createdAt < cutoffDate env.now (days.getD 365)) &&
        decide (e.severity ≠ "critical") && decide (e.severity ≠ "high"))) ∧
    (cleanupLogs env req days store).2.available = true ∧
    cleanupLogs env req none store = cleanupLogs env req (some 365) store ∧
    (∀ (d : ℚ) (n : Int), d * 86400000 = n →
      ∀ created : Date, created < cutoffDate env.now d ↔ d * 86400000 < env.now - created) := by
  refine ⟨?_, ?_, ?_, rfl, ?_⟩
  · simp [cleanupLogs, h, Logger.logAdmin, log_logs_cleaned]
  · simp only [cleanupLogs, h, Logger.logAdmin, log_logs_cleaned, Bool.not_true,
      Bool.false_eq_true, if_false]
    apply List.filter_congr
    intro e _
    simp [Log.expired, Bool.and_assoc]
  · simp [cleanupLogs, h, Logger.logAdmin, log_logs_cleaned]
  · intro d n hn created
    have hc : cutoffDate env.now d = env.now - n := by
      unfold cutoffDate
      have : ((env.now : ℚ) - d * 24 * 60 * 60 * 1000) = ((env.now - n : Int) : ℚ) := by
        push_cast
        rw [← hn]
        ring
      rw [this, newDate_intCast]
    rw [hc, hn]
    constructor
    · intro hlt
      have : n < env.now - created := lt_sub_comm.mp hlt
      exact_mod_cast this
    · intro hlt
      have : n < env.now - created := by exact_mod_cast hlt
      exact lt_sub_comm.mp this

theorem cleanupLogs_deletes_old_low_witness :
    agedStore.available = true ∧
    (cleanupLogs day50 adminRequest (some 30) agedStore).1.status = 200 ∧
    (cleanupLogs day50 adminRequest (some 30) agedStore).2.entries.map
      (fun e => (e.severity, e.createdAt)) =
      [("critical", 10 * dayMs), ("low", 30 * dayMs)] :=
  ⟨rfl, (cleanupLogs_deletes_old_low day50 adminRequest (some 30) agedStore rfl).1,
    by decide!⟩

/-! ### The role guard -/

theorem authorize_outcome (roles : List String) (env : Env) (store : LogStore)
    (req : Request) :
    (authorize roles env store req).1 =
      match req.user with
      | none => .respond ⟨401, "Access denied. Authentication required."⟩
      | some user =>
        if roles.contains user.role then .next
        else .respond ⟨403, "Access denied. Required roles: " ++ ", ".intercalate roles ++
          ". Your role: " ++ user.role⟩ := by
  unfold authorize Logger.log
  cases req.user with
  | none =>
    dsimp only
    rfl
  | some user =>
    by_cases hr : roles.contains user.role = true
    · simp only [hr, Bool.not_true, Bool.false_eq_true, if_false, if_true]
      rfl
    · simp only [hr, Bool.not_false, if_true, if_false, Bool.not_eq_true] at hr ⊢
      simp only [hr, Bool.not_false, if_true, Bool.false_eq_true, if_false]
      rfl

theorem authorize_guard (roles : List String) (env : Env) (store : LogStore)
    (req : Request) :
    ((authorize roles env store req).1 = .next ↔
      ∃ u, req.user = some u ∧ u.role ∈ roles) ∧
    (req.user = none →
      (authorize roles env store req).1 =
        .respond ⟨401, "Access denied. Authentication required."⟩) ∧
    (∀ u, req.user = some u → u.role ∉ roles →
      ∃ message, (authorize roles env store req).1 = .respond ⟨403, message⟩) ∧
    (∀ (α : Type) (handler : Request → LogStore → α),
      ((authorize roles env store req).1 ≠ .next →
        (route (authorize roles env) handler req store).result = none ∧
        (route (authorize roles env) handler req store).refusal.map (fun r => r.status) =
          some (if req.user = none then 401 else 403)) ∧
      ((authorize roles env store req).1 = .next →
        (route (authorize roles env) handler req store).result =
          some (handler req (authorize roles env store req).2))) := by
  have ho := authorize_outcome roles env store req
  refine ⟨?_, ?_, ?_, ?_⟩
  · rw [ho]
    cases hu : req.user with
    | none => simp
    | some user =>
      by_cases hr : roles.contains user.role = true
      · simp only [hr, if_true, true_iff]
        exact ⟨user, rfl, by simpa using hr⟩
      · simp only [hr, if_false, Bool.false_eq_true]
        constructor
        · intro h
          cases h
        · rintro ⟨u, hu', hmem⟩
          cases hu'
          exact absurd (by simpa using hmem) hr
  · intro hu
    rw [ho, hu]
  · intro u hu hmem
    rw [ho, hu]
    have hr : roles.contains u.role = false := by simpa using hmem
    simp only [hr, Bool.false_eq_true, if_false]
    exact ⟨_, rfl⟩
  · intro α handler
    unfold route
    constructor
    · intro hne
      cases hg : authorize roles env store req with
      | mk outcome store' =>
        rw [hg] at hne ho
        cases outcome with
        | next => exact absurd rfl hne
        | respond res =>
          simp only [Served.result, Served.refusal, Option.map_some', true_and]
          cases hu : req.user with
          | none =>
            rw [hu] at ho
            simp only at ho
            cases ho
            rfl
          | some user =>
            rw [hu] at ho
            simp only at ho
            split at ho
            · cases ho
            · cases ho
              simp
    · intro hnext
      cases hg : authorize roles env store req with
      | mk outcome store' =>
        rw [hg] at hnext
        simp only at hnext
        subst hnext
        rfl

/-- C26: the guard `authorize(roles)` lets a request proceed exactly when the request has an
authenticated user whose role is in the list. Without a user it answers 401, with a user whose
role is not in the list it answers 403, and whenever it does not let the request proceed the
route answers with the guard's answer and the handler is not run, whatever the handler is; when
it does, the handler is run. -/
theorem authorize_by_role (roles : List String) (env : Env) (store : LogStore)
    (req : Request) :
    ((authorize roles env store req).1 = .next ↔
      ∃ u, req.user = some u ∧ u.role ∈ roles) ∧
    (req.user = none →
      (authorize roles env store req).1 =
        .respond ⟨401, "Access denied. Authentication required."⟩) ∧
    (∀ u, req.user = some u → u.role ∉ roles →
      ∃ message, (authorize roles env store req).1 = .respond ⟨403, message⟩) ∧
    (∀ (α : Type) (handler : Request → LogStore → α),
      ((authorize roles env store req).1 ≠ .next →
        (route (authorize roles env) handler req store).result = none ∧
        (route (authorize roles env) handler req store).refusal.map (fun r => r.status) =
          some (if req.user = none then 401 else 403)) ∧
      ((authorize roles env store req).1 = .next →
        (route (authorize roles env) handler req store).result =
          some (handler req (authorize roles env store req).2))) :=
  authorize_guard roles env store req

theorem authorize_by_role_witness :
    (authorize ["admin"] sampleEnv {} adminRequest).1 = .next ∧
    (authorize ["admin"] sampleEnv {} reviewerRequest).1 =
      .respond ⟨403, "Access denied. Required roles: admin. Your role: reviewer"⟩ ∧
    (authorize ["admin"] sampleEnv {} proxiedRequest).1 =
      .respond ⟨401, "Access denied. Authentication required."⟩ :=
  ⟨(authorize_by_role ["admin"] sampleEnv {} adminRequest).1.mpr
      ⟨adminUser, rfl, by decide⟩,
    by decide!,
    (authorize_by_role ["admin"] sampleEnv {} proxiedRequest).2.1 rfl⟩

/-! ### The per-user log listing -/

theorem getUserLogsRoute_non_admin (env : Env) (req : Request) (userId : ObjectId)
    (query : LogQuery) (store : LogStore) (u : User) (hu : req.user = some u)
    (hrole : u.role ≠ "admin") :
    (getUserLogsRoute env req userId query store).result = none ∧
    (getUserLogsRoute env req userId query store).refusal.map (fun r => r.status) =
      some 403 := by
  have h := (authorize_guard ["admin"] env store req).2.2.2 (Response × List Log)
    (fun req store => getUserLogs req userId query store)
  have hne : (authorize ["admin"] env store req).1 ≠ .next := by
    intro hnext
    obtain ⟨v, hv, hmem⟩ := (authorize_guard ["admin"] env store req).1.mp hnext
    rw [hu] at hv
    cases hv
    exact hrole (by simpa using hmem)
  have h1 := h.1 hne
  simp only [hu, reduceCtorEq, if_false] at h1
  exact h1

theorem getUserLogs_own (req : Request) (query : LogQuery) (store : LogStore) (u : User)
    (hu : req.user = some u) (ha : store.available = true) :
    (getUserLogs req u.id query store).1.status = 200 := by
  unfold getUserLogs
  simp [hu, ha]

/-- C27 (defect in the code): the route of the per-user log listing is guarded by
`authorize('admin')`, so the reviewer who asks for the entries of their own user id 10 is
refused with 403 by the guard and `getUserLogs` is not run, although the handler itself, whose
comment reads "Admin or own logs", answers 200 to this request. An admin is served for any user
id, and a reviewer who asks for another user's entries is refused with 403. -/
theorem own_logs_refused :
    reviewerRequest.user = some reviewerUser ∧
    (getUserLogsRoute sampleEnv reviewerRequest 10 {} agedStore).refusal.map
      (fun r => r.status) = some 403 ∧
    (getUserLogsRoute sampleEnv reviewerRequest 10 {} agedStore).result = none ∧
    (getUserLogs reviewerRequest 10 {} agedStore).1.status = 200 ∧
    ((getUserLogsRoute sampleEnv adminRequest 10 {} agedStore).result.map
      fun r => r.1.status) = some 200 ∧
    (getUserLogsRoute sampleEnv reviewerRequest 30 {} agedStore).refusal.map
      (fun r => r.status) = some 403 := by
  decide!

end Accridation
